import Mathlib

/-!
# Forum API: thread-detail aggregation and the delete-authorization chain

A shallow embedding of the use cases, entities and Postgres repositories of the
forum backend, and the properties proved about them.

* JavaScript values are the inductive type `JsVal`; a property that is absent from an
  object reads as `undefined`, so an attribute bag is a structure of `JsVal` fields.
* `async` methods run one after the other, so a repository method is a function from the
  database state to a result and the next state; a thrown error is `Except.error` and the
  remaining statements of the method are skipped.
* Every `await this._repo.method(args)` of a use case appends one `Call` to the list of
  calls of its `Outcome`, in program order.
* A table is the list of its rows; `SELECT ... WHERE` is `List.filter`, `rowCount` is the
  length of the result and `UPDATE ... WHERE` is `List.map` over the matching rows.
-/

namespace ForumAPI

/-! ## JavaScript values -/

/-- JavaScript values, as far as the code inspects them: truthiness, `typeof`,
`instanceof Date` and `===`. Integers stand for the finite numbers (`0` is the falsy one),
`date time` is a `Date` object (`time = none` is an invalid date) and `obj` is any other
object. -/
inductive JsVal where
  | undefined
  | null
  | bool (b : Bool)
  | num (n : Int)
  | nan
  | str (s : String)
  | date (time : Option Int)
  | obj
  deriving DecidableEq, Repr

namespace JsVal

/-- Truthiness, the value of `!!v`. -/
def truthy : JsVal → Bool
  | undefined => false
  | null => false
  | bool b => b
  | num n => decide (n ≠ 0)
  | nan => false
  | str s => decide (s ≠ "")
  | date _ => true
  | obj => true

/-- The operator `typeof v`. -/
def typeof : JsVal → String
  | undefined => "undefined"
  | null => "object"
  | bool _ => "boolean"
  | num _ => "number"
  | nan => "number"
  | str _ => "string"
  | date _ => "object"
  | obj => "object"

/-- The test `v instanceof Date`. -/
def instanceofDate : JsVal → Bool
  | date _ => true
  | _ => false

/-- Strict equality `a === b`: no coercion, primitives of one type are compared by value and
`NaN` differs from itself. Objects are compared by identity, which the values do not carry:
two object operands count as two distinct objects, as the fields of two records fetched
separately are. The code applies `===` to `is_delete` and `undefined`, and to a reply's
`comment_id` and the `id` of a comment that `DetailComment` has already accepted, a string. -/
def strictEq : JsVal → JsVal → Bool
  | undefined, undefined => true
  | null, null => true
  | bool a, bool b => decide (a = b)
  | num a, num b => decide (a = b)
  | str a, str b => decide (a = b)
  | _, _ => false

/-- The order of two `Date` values by their time; anything that is not a valid date is not
comparable. -/
def dateLe : JsVal → JsVal → Prop
  | date (some a), date (some b) => a ≤ b
  | _, _ => False

instance (a b : JsVal) : Decidable (dateLe a b) := by
  unfold dateLe
  split <;> infer_instance

end JsVal

/-! ## Errors -/

/-- The errors the code throws: the two client errors of `Commons/exceptions` used here and
the plain `Error` thrown by the entities, each with its message. -/
inductive Err where
  | NotFoundError (message : String)
  | AuthorizationError (message : String)
  | Error (message : String)
  deriving DecidableEq, Repr

/-! ## `DetailComment` (Domains/comments/entities/DetailComment.js) -/

/-- The attribute bag handed to `new DetailComment(payload)`: a row of
`getCommentsByThreadId`, or whatever a collaborator returns. -/
structure CommentPayload where
  id : JsVal
  username : JsVal
  date : JsVal
  content : JsVal
  is_delete : JsVal
  deriving DecidableEq, Repr

/-- The `DetailReply` object: `id`, `content`, `date`, `username`. -/
structure DetailReply where
  id : JsVal
  content : JsVal
  date : JsVal
  username : JsVal
  deriving DecidableEq, Repr

/-- The `DetailComment` object. -/
structure DetailComment where
  id : JsVal
  username : JsVal
  date : JsVal
  content : JsVal
  replies : List DetailReply
  deriving DecidableEq, Repr

namespace DetailComment

/-- The first guard of `_verifyPayload`:
`!id || !username || !date || !content || is_delete === undefined`. -/
def missingProperty (p : CommentPayload) : Bool :=
  !p.id.truthy || !p.username.truthy || !p.date.truthy || !p.content.truthy
    || p.is_delete.strictEq JsVal.undefined

/-- The second guard of `_verifyPayload`: `typeof id !== 'string' ||
typeof username !== 'string' || !(date instanceof Date) || typeof content !== 'string' ||
typeof is_delete !== 'boolean'`. -/
def wrongType (p : CommentPayload) : Bool :=
  p.id.typeof != "string" || p.username.typeof != "string" || !p.date.instanceofDate
    || p.content.typeof != "string" || p.is_delete.typeof != "boolean"

/-- The method `_verifyPayload`. -/
def _verifyPayload (p : CommentPayload) : Except Err Unit :=
  if missingProperty p then
    Except.error (Err.Error "DETAIL_COMMENT.NOT_CONTAIN_NEEDED_PROPERTY")
  else if wrongType p then
    Except.error (Err.Error "DETAIL_COMMENT.NOT_MEET_DATA_TYPE_SPECIFICATION")
  else
    Except.ok ()

/-- The constructor `new DetailComment(payload)`. -/
def new (p : CommentPayload) : Except Err DetailComment :=
  match _verifyPayload p with
  | Except.error e => Except.error e
  | Except.ok _ =>
    Except.ok
      { id := p.id
        username := p.username
        date := p.date
        content := if p.is_delete.truthy then JsVal.str "**komentar telah dihapus**" else p.content
        replies := [] }

end DetailComment

/-! ## `DetailReply` and `DetailThread` -/

/-- The attribute bag handed to `new DetailReply(payload)`: a row of
`getRepliesByCommentIds`, which also carries the `comment_id` the use case filters on. -/
structure ReplyPayload where
  id : JsVal
  content : JsVal
  date : JsVal
  username : JsVal
  is_delete : JsVal
  comment_id : JsVal
  deriving DecidableEq, Repr

namespace DetailReply

/-- Modelled from the spec: the required-field check of `DetailReply`, whose file
(Domains/replies/entities/DetailReply.js) is not among the sources. Section 4.1: `id`,
`username`, `date`, `content` and the deletion flag must all be present, and absence, not
falsiness, is the failure condition. -/
def missingProperty (p : ReplyPayload) : Bool :=
  p.id.strictEq JsVal.undefined || p.username.strictEq JsVal.undefined
    || p.date.strictEq JsVal.undefined || p.content.strictEq JsVal.undefined
    || p.is_delete.strictEq JsVal.undefined

/-- Modelled from the spec: the type check of `DetailReply` (file not among the sources).
Section 4.1: `id`, `username` and `content` must be text, `date` a timestamp value and the
deletion flag a boolean. -/
def wrongType (p : ReplyPayload) : Bool :=
  p.id.typeof != "string" || p.username.typeof != "string" || !p.date.instanceofDate
    || p.content.typeof != "string" || p.is_delete.typeof != "boolean"

/-- Modelled from the spec: the constructor `new DetailReply(payload)` (file not among the
sources). Section 4.1: it fails fast on a missing property, then on a wrong type, and
replaces the content of a deleted reply by the sentinel; the two messages are the ones in
DetailReply.test.js. -/
def new (p : ReplyPayload) : Except Err DetailReply :=
  if missingProperty p then
    Except.error (Err.Error "DETAIL_REPLY.NOT_CONTAIN_NEEDED_PROPERTY")
  else if wrongType p then
    Except.error (Err.Error "DETAIL_REPLY.NOT_MEET_DATA_TYPE_SPECIFICATION")
  else
    Except.ok
      { id := p.id
        content := if p.is_delete.truthy then JsVal.str "**balasan telah dihapus**" else p.content
        date := p.date
        username := p.username }

end DetailReply

/-- The thread record `getThreadById` returns: `id`, `title`, `body`, `date` and the
owner's `username`. -/
structure ThreadPayload where
  id : JsVal
  title : JsVal
  body : JsVal
  date : JsVal
  username : JsVal
  deriving DecidableEq, Repr

/-- The `DetailThread` object: the thread's fields and its comments. -/
structure DetailThread where
  id : JsVal
  title : JsVal
  body : JsVal
  date : JsVal
  username : JsVal
  comments : List DetailComment
  deriving DecidableEq, Repr

/-- Modelled from the spec: the constructor `new DetailThread(thread)`, whose file
(Domains/threads/entities/DetailThread.js) is not among the sources. Sections 3 and 4.3: a
projection of the thread record that owns the sequence of comments, empty until the
aggregator assigns it; section 4.1: a detail-entity constructor fails fast on a payload it
does not accept. What it accepts is not given, so its guard is the parameter `verify`. -/
def DetailThread.new (verify : ThreadPayload → Except Err Unit) (p : ThreadPayload) :
    Except Err DetailThread :=
  match verify p with
  | Except.error e => Except.error e
  | Except.ok _ =>
    Except.ok
      { id := p.id
        title := p.title
        body := p.body
        date := p.date
        username := p.username
        comments := [] }

/-! ## Repository interfaces and the runs of a use case -/

/-- A repository method on a state `σ`: the value it resolves to or the error it rejects
with, and the state it leaves. -/
abbrev Op (σ α : Type) := σ → Except Err α × σ

/-- The methods of `ThreadRepository` the two use cases call. -/
structure ThreadRepository (σ : Type) where
  verifyAvailableThread : String → Op σ Unit
  getThreadById : String → Op σ ThreadPayload

/-- The methods of `CommentRepository` the two use cases call. -/
structure CommentRepository (σ : Type) where
  verifyAvailableCommentInThread : String → String → Op σ Unit
  verifyCommentOwner : String → String → Op σ Unit
  deleteComment : String → Op σ Unit
  getCommentsByThreadId : String → Op σ (List CommentPayload)

/-- The method of `ReplyRepository` the thread-detail use case calls. -/
structure ReplyRepository (σ : Type) where
  getRepliesByCommentIds : List JsVal → Op σ (List ReplyPayload)

/-- The repository calls a use case makes, with their arguments. -/
inductive Call where
  | verifyAvailableThread (threadId : String)
  | getThreadById (threadId : String)
  | getCommentsByThreadId (threadId : String)
  | getRepliesByCommentIds (commentIds : List JsVal)
  | verifyAvailableCommentInThread (commentId threadId : String)
  | verifyCommentOwner (commentId owner : String)
  | deleteComment (commentId : String)
  deriving DecidableEq, Repr

/-- What a run of a use case leaves: its result, the state, and the calls it made in
order. -/
structure Outcome (σ α : Type) where
  result : Except Err α
  state : σ
  calls : List Call

/-- A use case body: a function from the state before to the outcome. -/
def Run (σ α : Type) := σ → Outcome σ α

namespace Run

variable {σ α β : Type}

/-- The statement `await repo.method(args)`: the call is recorded and the method runs. -/
def call (c : Call) (op : Op σ α) : Run σ α :=
  fun s => { result := (op s).1, state := (op s).2, calls := [c] }

/-- A computation without repository calls, such as `new DetailThread(thread)`: it returns
or throws and leaves the state as it is. -/
def eval (x : Except Err α) : Run σ α :=
  fun s => { result := x, state := s, calls := [] }

/-- Sequencing of two statements: when the first throws, the second does not run. -/
def andThen (m : Run σ α) (f : α → Run σ β) : Run σ β :=
  fun s =>
    match m s with
    | { result := Except.error e, state := s1, calls := cs } =>
      { result := Except.error e, state := s1, calls := cs }
    | { result := Except.ok a, state := s1, calls := cs } =>
      { result := (f a s1).result, state := (f a s1).state, calls := cs ++ (f a s1).calls }

instance : Monad (Run σ) where
  pure a := eval (Except.ok a)
  bind := andThen

end Run

/-- The method `Array.prototype.map` with a callback that may throw: the elements are
visited in order and the first error ends the loop. -/
def mapThrow {α β : Type} (f : α → Except Err β) : List α → Except Err (List β)
  | [] => Except.ok []
  | a :: as =>
    match f a with
    | Except.error e => Except.error e
    | Except.ok b =>
      match mapThrow f as with
      | Except.error e => Except.error e
      | Except.ok bs => Except.ok (b :: bs)

/-! ## `DeleteCommentUseCase` (Applications/use_case/DeleteCommentUseCase.js) -/

/-- The use case object: the two injected repositories. -/
structure DeleteCommentUseCase (σ : Type) where
  commentRepository : CommentRepository σ
  threadRepository : ThreadRepository σ

/-- The payload of `DeleteCommentUseCase.execute`. -/
structure DeleteCommentPayload where
  threadId : String
  commentId : String
  owner : String
  deriving DecidableEq, Repr

/-- The method `DeleteCommentUseCase.execute`. -/
def DeleteCommentUseCase.execute {σ : Type} (uc : DeleteCommentUseCase σ)
    (useCasePayload : DeleteCommentPayload) : Run σ Unit := do
  let threadId := useCasePayload.threadId
  let commentId := useCasePayload.commentId
  let owner := useCasePayload.owner
  Run.call (Call.verifyAvailableThread threadId)
    (uc.threadRepository.verifyAvailableThread threadId)
  Run.call (Call.verifyAvailableCommentInThread commentId threadId)
    (uc.commentRepository.verifyAvailableCommentInThread commentId threadId)
  Run.call (Call.verifyCommentOwner commentId owner)
    (uc.commentRepository.verifyCommentOwner commentId owner)
  Run.call (Call.deleteComment commentId)
    (uc.commentRepository.deleteComment commentId)

/-! ## `GetThreadDetailsUseCase` (Applications/use_case/GetThreadDetailsUseCase.js) -/

/-- The use case object: the three injected repositories. -/
structure GetThreadDetailsUseCase (σ : Type) where
  threadRepository : ThreadRepository σ
  commentRepository : CommentRepository σ
  replyRepository : ReplyRepository σ

/-- The callback of `comments.map` in `execute`: the comment is projected, then the
replies with its id are filtered out of the fetched replies and projected. -/
def GetThreadDetailsUseCase.detailCommentOf (replies : List ReplyPayload)
    (comment : CommentPayload) : Except Err DetailComment := do
  let detailComment ← DetailComment.new comment
  let detailReplies ← mapThrow DetailReply.new
    (replies.filter (fun reply => reply.comment_id.strictEq comment.id))
  pure { detailComment with replies := detailReplies }

/-- The method `GetThreadDetailsUseCase.execute`; `threadId` is the one property of
`useCasePayload` and `verify` is the guard of the `DetailThread` constructor. -/
def GetThreadDetailsUseCase.execute {σ : Type} (uc : GetThreadDetailsUseCase σ)
    (verify : ThreadPayload → Except Err Unit) (threadId : String) : Run σ DetailThread := do
  Run.call (Call.verifyAvailableThread threadId)
    (uc.threadRepository.verifyAvailableThread threadId)
  let thread ← Run.call (Call.getThreadById threadId)
    (uc.threadRepository.getThreadById threadId)
  let comments ← Run.call (Call.getCommentsByThreadId threadId)
    (uc.commentRepository.getCommentsByThreadId threadId)
  let detailThread ← Run.eval (DetailThread.new verify thread)
  if comments.length = 0 then
    pure detailThread
  else
    let commentIds := comments.map (fun comment => comment.id)
    let replies ← Run.call (Call.getRepliesByCommentIds commentIds)
      (uc.replyRepository.getRepliesByCommentIds commentIds)
    let detailComments ← Run.eval
      (mapThrow (GetThreadDetailsUseCase.detailCommentOf replies) comments)
    pure { detailThread with comments := detailComments }

/-! ## The database and the Postgres repositories -/

/-- A row of the table `users`, as far as the queries read it. -/
structure UserRow where
  id : String
  username : String
  deriving DecidableEq, Repr

/-- A row of the table `threads`. -/
structure ThreadRow where
  id : String
  title : String
  body : String
  owner : String
  date : Int
  deriving DecidableEq, Repr

/-- A row of the table `comments`. -/
structure CommentRow where
  id : String
  content : String
  owner : String
  thread_id : String
  date : Int
  is_delete : Bool
  deriving DecidableEq, Repr

/-- A row of the table `replies`. -/
structure ReplyRow where
  id : String
  content : String
  owner : String
  comment_id : String
  date : Int
  is_delete : Bool
  deriving DecidableEq, Repr

/-- The state of the database: its four tables. -/
structure Store where
  users : List UserRow
  threads : List ThreadRow
  comments : List CommentRow
  replies : List ReplyRow
  deriving DecidableEq, Repr

namespace ThreadRepositoryPostgres

/-- Modelled from the spec: the method `verifyAvailableThread` of
`ThreadRepositoryPostgres`, whose file is not among the sources. Sections 4.4 and 6:
`verifyExists(threadId)` fails with `NotFound` when no thread has that id and reads only;
the message is the one the HTTP tests expect. -/
def verifyAvailableThread (threadId : String) : Op Store Unit :=
  fun s =>
    if (s.threads.filter (fun t => t.id = threadId)).length = 0 then
      (Except.error (Err.NotFoundError "thread tidak ditemukan"), s)
    else
      (Except.ok (), s)

/-- Modelled from the spec: the method `getThreadById` of `ThreadRepositoryPostgres`, whose
file is not among the sources. Sections 4.4 and 6: `getById(threadId)` returns the thread
record with the display name of its owner; ThreadRepositoryPostgres.test.js: it fails with
`NotFoundError` when no thread has that id. -/
def getThreadById (threadId : String) : Op Store ThreadPayload :=
  fun s =>
    match (s.threads.filter (fun t => t.id = threadId)).flatMap
        (fun t => (s.users.filter (fun u => t.owner = u.id)).map (fun u => (t, u))) with
    | [] => (Except.error (Err.NotFoundError "thread tidak ditemukan"), s)
    | (t, u) :: _ =>
      (Except.ok
        { id := JsVal.str t.id
          title := JsVal.str t.title
          body := JsVal.str t.body
          date := JsVal.date (some t.date)
          username := JsVal.str u.username }, s)

end ThreadRepositoryPostgres

namespace CommentRepositoryPostgres

/-- The method `verifyAvailableCommentInThread`:
`SELECT id FROM comments WHERE id = $1 AND thread_id = $2 AND is_delete = false`. -/
def verifyAvailableCommentInThread (commentId threadId : String) : Op Store Unit :=
  fun s =>
    let result := s.comments.filter
      (fun c => c.id = commentId ∧ c.thread_id = threadId ∧ c.is_delete = false)
    if result.length = 0 then
      (Except.error (Err.NotFoundError "komentar tidak ditemukan di thread ini"), s)
    else
      (Except.ok (), s)

/-- The method `verifyCommentOwner`: `SELECT owner FROM comments WHERE id = $1`, then the
owner of the first row is compared. -/
def verifyCommentOwner (commentId owner : String) : Op Store Unit :=
  fun s =>
    match s.comments.filter (fun c => c.id = commentId) with
    | [] => (Except.error (Err.NotFoundError "komentar tidak ditemukan"), s)
    | comment :: _ =>
      if comment.owner ≠ owner then
        (Except.error (Err.AuthorizationError "anda tidak berhak mengakses resource ini"), s)
      else
        (Except.ok (), s)

/-- The method `deleteComment`: `UPDATE comments SET is_delete = true WHERE id = $1`. -/
def deleteComment (commentId : String) : Op Store Unit :=
  fun s =>
    let updated := s.comments.map
      (fun c => if c.id = commentId then { c with is_delete := true } else c)
    (Except.ok (), { s with comments := updated })

/-- The method `getCommentsByThreadId`: the comments of the thread joined with their
owners, `ORDER BY c.date ASC`. SQL leaves the order of rows with equal dates open; the
insertion sort keeps them in table order, which is one of the orders the database may
answer with. `getCommentsByThreadIdOn` below takes that order as a parameter. -/
def getCommentsByThreadId (threadId : String) : Op Store (List CommentPayload) :=
  fun s =>
    let joined := s.comments.flatMap
      (fun c => (s.users.filter (fun u => c.owner = u.id)).map (fun u => (c, u)))
    let rows := (joined.filter (fun cu => cu.1.thread_id = threadId)).insertionSort
      (fun a b => a.1.date ≤ b.1.date)
    (Except.ok (rows.map (fun cu =>
        { id := JsVal.str cu.1.id
          username := JsVal.str cu.2.username
          date := JsVal.date (some cu.1.date)
          content := JsVal.str cu.1.content
          is_delete := JsVal.bool cu.1.is_delete })), s)

end CommentRepositoryPostgres

/-- The object `new ThreadRepositoryPostgres(pool, idGenerator)`. -/
def threadRepositoryPostgres : ThreadRepository Store where
  verifyAvailableThread := ThreadRepositoryPostgres.verifyAvailableThread
  getThreadById := ThreadRepositoryPostgres.getThreadById

/-- The object `new CommentRepositoryPostgres(pool, idGenerator)`. -/
def commentRepositoryPostgres : CommentRepository Store where
  verifyAvailableCommentInThread := CommentRepositoryPostgres.verifyAvailableCommentInThread
  verifyCommentOwner := CommentRepositoryPostgres.verifyCommentOwner
  deleteComment := CommentRepositoryPostgres.deleteComment
  getCommentsByThreadId := CommentRepositoryPostgres.getCommentsByThreadId

/-- The delete use case wired to the Postgres repositories, as the container does. -/
def deleteCommentUseCase : DeleteCommentUseCase Store where
  commentRepository := commentRepositoryPostgres
  threadRepository := threadRepositoryPostgres

/-! ## The writes of the comment repository and the reply repository -/

/-- Modelled from the spec: the default of the column `is_delete`, set by the schema, which
is not among the sources. Section 3: `isDeleted` is a boolean flag, default false. -/
def defaultIsDelete : Bool := false

/-- The payload of `addComment`, a `NewComment`: `content`, `owner`, `threadId`. -/
structure NewComment where
  content : String
  owner : String
  threadId : String
  deriving DecidableEq, Repr

/-- The payload of `addReply`, a `NewReply`: `content`, `owner`, `commentId`. -/
structure NewReply where
  content : String
  owner : String
  commentId : String
  deriving DecidableEq, Repr

/-- The row `RETURNING id, content, owner` of the two `INSERT` statements. -/
structure AddedRow where
  id : String
  content : String
  owner : String
  deriving DecidableEq, Repr

/-- The method `CommentRepositoryPostgres.addComment`: `INSERT INTO comments(id, content,
owner, thread_id) VALUES($1, $2, $3, $4) RETURNING id, content, owner`, then
`new AddedComment(row)`. `generated` is what `this._idGenerator()` returns, `now` the date
the database gives the row, and `newAddedComment` the constructor of `AddedComment`, whose
file is not among the sources. The row is written before the constructor runs. -/
def CommentRepositoryPostgres.addComment {α : Type} (newAddedComment : AddedRow → Except Err α)
    (generated : String) (now : Int) (newComment : NewComment) : Op Store α :=
  fun s =>
    let id := "comment-" ++ generated
    let row : CommentRow :=
      { id := id, content := newComment.content, owner := newComment.owner,
        thread_id := newComment.threadId, date := now, is_delete := defaultIsDelete }
    (newAddedComment { id := id, content := newComment.content, owner := newComment.owner },
      { s with comments := s.comments ++ [row] })

/-- A statement `ReplyRepositoryPostgres.getRepliesByCommentIds` sends with `pool.query`:
the `SELECT` over `replies` and `users`, with the array of comment ids as its value. -/
inductive Query where
  | selectRepliesByCommentIds (commentIds : List JsVal)
  deriving DecidableEq, Repr

/-- What a repository method leaves when its queries are recorded: the result, the database
and the statements it has sent to the pool, in order. -/
structure Queried (α : Type) where
  result : Except Err α
  state : Store
  queries : List Query

namespace ReplyRepositoryPostgres

/-- The method `addReply`: `INSERT INTO replies(id, content, owner, comment_id)
VALUES($1, $2, $3, $4) RETURNING id, content, owner`, then `new AddedReply(row)`; the
arguments are those of `CommentRepositoryPostgres.addComment`. -/
def addReply {α : Type} (newAddedReply : AddedRow → Except Err α)
    (generated : String) (now : Int) (newReply : NewReply) : Op Store α :=
  fun s =>
    let id := "reply-" ++ generated
    let row : ReplyRow :=
      { id := id, content := newReply.content, owner := newReply.owner,
        comment_id := newReply.commentId, date := now, is_delete := defaultIsDelete }
    (newAddedReply { id := id, content := newReply.content, owner := newReply.owner },
      { s with replies := s.replies ++ [row] })

/-- The method `verifyAvailableReplyInComment`:
`SELECT id FROM replies WHERE id = $1 AND comment_id = $2 AND is_delete = false`. -/
def verifyAvailableReplyInComment (replyId commentId : String) : Op Store Unit :=
  fun s =>
    let result := s.replies.filter
      (fun r => r.id = replyId ∧ r.comment_id = commentId ∧ r.is_delete = false)
    if result.length = 0 then
      (Except.error (Err.NotFoundError "balasan tidak ditemukan di komentar ini"), s)
    else
      (Except.ok (), s)

/-- The method `verifyReplyOwner`: `SELECT owner FROM replies WHERE id = $1`, then the owner
of the first row is compared. -/
def verifyReplyOwner (replyId owner : String) : Op Store Unit :=
  fun s =>
    match s.replies.filter (fun r => r.id = replyId) with
    | [] => (Except.error (Err.NotFoundError "balasan tidak ditemukan"), s)
    | reply :: _ =>
      if reply.owner ≠ owner then
        (Except.error (Err.AuthorizationError "anda tidak berhak mengakses resource ini"), s)
      else
        (Except.ok (), s)

/-- The method `deleteReply`: `UPDATE replies SET is_delete = true WHERE id = $1`. -/
def deleteReply (replyId : String) : Op Store Unit :=
  fun s =>
    let updated := s.replies.map
      (fun r => if r.id = replyId then { r with is_delete := true } else r)
    (Except.ok (), { s with replies := updated })

/-- The rows of the `SELECT` of `getRepliesByCommentIds`: the replies joined with their
owners, `WHERE r.comment_id = ANY($1::varchar[])`, `ORDER BY r.date ASC`. The driver sends
each element of the array as text, or as `NULL`, which equals nothing; `sqlText` is that
rendering. SQL leaves the order of rows with equal dates open; the insertion sort keeps them
in table order, which is one of the orders the database may answer with.
`selectRepliesByCommentIdsOn` below takes that order as a parameter. -/
def selectRepliesByCommentIds (sqlText : JsVal → Option String) (commentIds : List JsVal)
    (s : Store) : List ReplyPayload :=
  let joined := s.replies.flatMap
    (fun r => (s.users.filter (fun u => r.owner = u.id)).map (fun u => (r, u)))
  let rows := (joined.filter
      (fun ru => commentIds.any (fun v => sqlText v = some ru.1.comment_id))).insertionSort
    (fun a b => a.1.date ≤ b.1.date)
  rows.map (fun ru =>
    { id := JsVal.str ru.1.id
      content := JsVal.str ru.1.content
      date := JsVal.date (some ru.1.date)
      username := JsVal.str ru.2.username
      is_delete := JsVal.bool ru.1.is_delete
      comment_id := JsVal.str ru.1.comment_id })

/-- The method `getRepliesByCommentIds`, with the statements it sends to the pool: none
when `commentIds` is empty, the `SELECT` otherwise. -/
def getRepliesByCommentIds (sqlText : JsVal → Option String) (commentIds : List JsVal)
    (s : Store) : Queried (List ReplyPayload) :=
  if commentIds.length = 0 then
    { result := Except.ok [], state := s, queries := [] }
  else
    { result := Except.ok (selectRepliesByCommentIds sqlText commentIds s), state := s,
      queries := [Query.selectRepliesByCommentIds commentIds] }

end ReplyRepositoryPostgres

/-- The object `new ReplyRepositoryPostgres(pool, idGenerator)`, as the thread-detail use
case sees it. -/
def replyRepositoryPostgres (sqlText : JsVal → Option String) : ReplyRepository Store where
  getRepliesByCommentIds := fun commentIds s =>
    ((ReplyRepositoryPostgres.getRepliesByCommentIds sqlText commentIds s).result,
      (ReplyRepositoryPostgres.getRepliesByCommentIds sqlText commentIds s).state)

/-- The thread-detail use case wired to the Postgres repositories, as the container does. -/
def getThreadDetailsUseCase (sqlText : JsVal → Option String) :
    GetThreadDetailsUseCase Store where
  threadRepository := threadRepositoryPostgres
  commentRepository := commentRepositoryPostgres
  replyRepository := replyRepositoryPostgres sqlText

/-- One call of a method of the comment repository or the reply repository, with its
arguments. -/
inductive RepositoryCall where
  | addComment (generated : String) (now : Int) (newComment : NewComment)
  | verifyAvailableCommentInThread (commentId threadId : String)
  | verifyCommentOwner (commentId owner : String)
  | deleteComment (commentId : String)
  | getCommentsByThreadId (threadId : String)
  | addReply (generated : String) (now : Int) (newReply : NewReply)
  | verifyAvailableReplyInComment (replyId commentId : String)
  | verifyReplyOwner (replyId owner : String)
  | deleteReply (replyId : String)
  | getRepliesByCommentIds (commentIds : List JsVal)
  deriving DecidableEq, Repr

/-- The database after one call, whether the call resolves or rejects. -/
def RepositoryCall.after {α β : Type} (newAddedComment : AddedRow → Except Err α)
    (newAddedReply : AddedRow → Except Err β) (sqlText : JsVal → Option String) :
    RepositoryCall → Store → Store
  | addComment generated now newComment, s =>
    (CommentRepositoryPostgres.addComment newAddedComment generated now newComment s).2
  | verifyAvailableCommentInThread commentId threadId, s =>
    (CommentRepositoryPostgres.verifyAvailableCommentInThread commentId threadId s).2
  | verifyCommentOwner commentId owner, s =>
    (CommentRepositoryPostgres.verifyCommentOwner commentId owner s).2
  | deleteComment commentId, s => (CommentRepositoryPostgres.deleteComment commentId s).2
  | getCommentsByThreadId threadId, s =>
    (CommentRepositoryPostgres.getCommentsByThreadId threadId s).2
  | addReply generated now newReply, s =>
    (ReplyRepositoryPostgres.addReply newAddedReply generated now newReply s).2
  | verifyAvailableReplyInComment replyId commentId, s =>
    (ReplyRepositoryPostgres.verifyAvailableReplyInComment replyId commentId s).2
  | verifyReplyOwner replyId owner, s =>
    (ReplyRepositoryPostgres.verifyReplyOwner replyId owner s).2
  | deleteReply replyId, s => (ReplyRepositoryPostgres.deleteReply replyId s).2
  | getRepliesByCommentIds commentIds, s =>
    (ReplyRepositoryPostgres.getRepliesByCommentIds sqlText commentIds s).state

/-- The database after a sequence of calls, made one after the other. -/
def RepositoryCall.afterAll {α β : Type} (newAddedComment : AddedRow → Except Err α)
    (newAddedReply : AddedRow → Except Err β) (sqlText : JsVal → Option String)
    (calls : List RepositoryCall) (s : Store) : Store :=
  calls.foldl (fun st c => RepositoryCall.after newAddedComment newAddedReply sqlText c st) s

/-! ## The correspondence between the two repositories -/

/-- The kinds of outcome of a repository check or write: it resolves, or it rejects with a
`NotFoundError`, an `AuthorizationError` or another error. -/
inductive OutcomeKind where
  | success
  | notFound
  | authorization
  | other
  deriving DecidableEq, Repr

/-- The kind of an outcome, whatever the value or the message. -/
def outcomeKind {α : Type} : Except Err α → OutcomeKind
  | Except.ok _ => OutcomeKind.success
  | Except.error (Err.NotFoundError _) => OutcomeKind.notFound
  | Except.error (Err.AuthorizationError _) => OutcomeKind.authorization
  | Except.error (Err.Error _) => OutcomeKind.other

/-- A reply row read as a comment row: the parent column `comment_id` stands where
`thread_id` stands, the other columns are the same. -/
def ReplyRow.asComment (r : ReplyRow) : CommentRow :=
  { id := r.id, content := r.content, owner := r.owner, thread_id := r.comment_id,
    date := r.date, is_delete := r.is_delete }

/-! ## The order of rows with equal dates

`ORDER BY c.date ASC` and `ORDER BY r.date ASC` fix the order of two rows only when their
dates differ. Among rows with equal dates the order is the one in which the executor of the
database meets them, and an `UPDATE` writes the new version of a row in another place than
the old one. The definitions of this section take that order as the parameter `scan`: the
order in which the executor hands the selected rows to the sort. Every order that
`ORDER BY` allows is the answer for some `scan` that permutes its rows; with `scan` the
identity the definitions are `getCommentsByThreadId` and `getRepliesByCommentIds` above. -/

namespace CommentRepositoryPostgres

/-- The method `getCommentsByThreadId` on an executor that meets the selected rows in the
order `scan`: the comments of the thread joined with their owners, `ORDER BY c.date ASC`,
rows with equal dates in the order of `scan`. -/
def getCommentsByThreadIdOn
    (scan : List (CommentRow × UserRow) → List (CommentRow × UserRow))
    (threadId : String) : Op Store (List CommentPayload) :=
  fun s =>
    let joined := s.comments.flatMap
      (fun c => (s.users.filter (fun u => c.owner = u.id)).map (fun u => (c, u)))
    let rows := (scan (joined.filter (fun cu => cu.1.thread_id = threadId))).insertionSort
      (fun a b => a.1.date ≤ b.1.date)
    (Except.ok (rows.map (fun cu =>
        { id := JsVal.str cu.1.id
          username := JsVal.str cu.2.username
          date := JsVal.date (some cu.1.date)
          content := JsVal.str cu.1.content
          is_delete := JsVal.bool cu.1.is_delete })), s)

end CommentRepositoryPostgres

namespace ReplyRepositoryPostgres

/-- The rows of the `SELECT` of `getRepliesByCommentIds` on an executor that meets the
selected rows in the order `scan`: the replies joined with their owners,
`WHERE r.comment_id = ANY($1::varchar[])`, `ORDER BY r.date ASC`, rows with equal dates in
the order of `scan`. -/
def selectRepliesByCommentIdsOn
    (scan : List (ReplyRow × UserRow) → List (ReplyRow × UserRow))
    (sqlText : JsVal → Option String) (commentIds : List JsVal) (s : Store) :
    List ReplyPayload :=
  let joined := s.replies.flatMap
    (fun r => (s.users.filter (fun u => r.owner = u.id)).map (fun u => (r, u)))
  let rows := (scan (joined.filter
      (fun ru => commentIds.any (fun v => sqlText v = some ru.1.comment_id)))).insertionSort
    (fun a b => a.1.date ≤ b.1.date)
  rows.map (fun ru =>
    { id := JsVal.str ru.1.id
      content := JsVal.str ru.1.content
      date := JsVal.date (some ru.1.date)
      username := JsVal.str ru.2.username
      is_delete := JsVal.bool ru.1.is_delete
      comment_id := JsVal.str ru.1.comment_id })

/-- The method `getRepliesByCommentIds` on an executor that meets the selected rows in the
order `scan`, with the statements it sends to the pool: none when `commentIds` is empty, the
`SELECT` otherwise. -/
def getRepliesByCommentIdsOn
    (scan : List (ReplyRow × UserRow) → List (ReplyRow × UserRow))
    (sqlText : JsVal → Option String) (commentIds : List JsVal) (s : Store) :
    Queried (List ReplyPayload) :=
  if commentIds.length = 0 then
    { result := Except.ok [], state := s, queries := [] }
  else
    { result := Except.ok (selectRepliesByCommentIdsOn scan sqlText commentIds s), state := s,
      queries := [Query.selectRepliesByCommentIds commentIds] }

end ReplyRepositoryPostgres

/-- The object `new CommentRepositoryPostgres(pool, idGenerator)` on a database whose
executor meets the selected rows in the order `scan`. -/
def commentRepositoryPostgresOn
    (scan : List (CommentRow × UserRow) → List (CommentRow × UserRow)) :
    CommentRepository Store where
  verifyAvailableCommentInThread := CommentRepositoryPostgres.verifyAvailableCommentInThread
  verifyCommentOwner := CommentRepositoryPostgres.verifyCommentOwner
  deleteComment := CommentRepositoryPostgres.deleteComment
  getCommentsByThreadId := CommentRepositoryPostgres.getCommentsByThreadIdOn scan

/-- The object `new ReplyRepositoryPostgres(pool, idGenerator)`, as the thread-detail use
case sees it, on a database whose executor meets the selected rows in the order `scan`. -/
def replyRepositoryPostgresOn
    (scan : List (ReplyRow × UserRow) → List (ReplyRow × UserRow))
    (sqlText : JsVal → Option String) : ReplyRepository Store where
  getRepliesByCommentIds := fun commentIds s =>
    ((ReplyRepositoryPostgres.getRepliesByCommentIdsOn scan sqlText commentIds s).result,
      (ReplyRepositoryPostgres.getRepliesByCommentIdsOn scan sqlText commentIds s).state)

/-- The thread-detail use case wired to the Postgres repositories, as the container does,
on a database whose executor meets the selected comments in the order `scanComments` and
the selected replies in the order `scanReplies`. -/
def getThreadDetailsUseCaseOn
    (scanComments : List (CommentRow × UserRow) → List (CommentRow × UserRow))
    (scanReplies : List (ReplyRow × UserRow) → List (ReplyRow × UserRow))
    (sqlText : JsVal → Option String) : GetThreadDetailsUseCase Store where
  threadRepository := threadRepositoryPostgres
  commentRepository := commentRepositoryPostgresOn scanComments
  replyRepository := replyRepositoryPostgresOn scanReplies sqlText

/-- The content a deleted comment shows in place of its own, set on the detail comments of
the given id. -/
def maskComment (commentId : String) (dc : DetailComment) : DetailComment :=
  if dc.id = JsVal.str commentId
  then { dc with content := JsVal.str "**komentar telah dihapus**" } else dc

/-! ## Example data

The database of the HTTP tests and the mocks of GetThreadDetailUseCase.test.js, at which
the theorems below are instantiated. -/

/-- A database with two users, one thread of the first user and one comment on it. -/
def exampleStore : Store :=
  { users := [{ id := "user-A", username := "dicoding" },
              { id := "user-B", username := "johndoe" }]
    threads := [{ id := "thread-123", title := "Judul Thread", body := "Body Thread",
                  owner := "user-A", date := 1672531200000 }]
    comments := [{ id := "comment-123", content := "Komentar A", owner := "user-A",
                   thread_id := "thread-123", date := 1672531260000, is_delete := false }]
    replies := [] }

/-- A comment payload with every property present and the empty string as content. -/
def emptyContentComment (isDelete : Bool) : CommentPayload :=
  { id := JsVal.str "comment-123", username := JsVal.str "dicoding",
    date := JsVal.date (some 1628407149775), content := JsVal.str "",
    is_delete := JsVal.bool isDelete }

/-- The payload of DetailComment.test.js, with the given deletion flag. -/
def testComment (isDelete : Bool) : CommentPayload :=
  { id := JsVal.str "comment-123", username := JsVal.str "dicoding",
    date := JsVal.date (some 1628407149775), content := JsVal.str "sebuah komentar",
    is_delete := JsVal.bool isDelete }

/-- The record `mockThread` of the use case test. -/
def mockThread : ThreadPayload :=
  { id := JsVal.str "thread-123", title := JsVal.str "sebuah thread",
    body := JsVal.str "sebuah body thread", date := JsVal.date (some 1628407149775),
    username := JsVal.str "dicoding" }

/-- The records `mockComments` of the use case test. -/
def mockComments : List CommentPayload :=
  [{ id := JsVal.str "comment-123", username := JsVal.str "johndoe",
     date := JsVal.date (some 1628407353555), content := JsVal.str "sebuah comment",
     is_delete := JsVal.bool false },
   { id := JsVal.str "comment-456", username := JsVal.str "dicoding",
     date := JsVal.date (some 1628407581338), content := JsVal.str "komentar ini telah dihapus",
     is_delete := JsVal.bool true }]

/-- The records `mockReplies` of the use case test. -/
def mockReplies : List ReplyPayload :=
  [{ id := JsVal.str "reply-123", content := JsVal.str "sebuah balasan",
     date := JsVal.date (some 1628409588766), username := JsVal.str "johndoe",
     is_delete := JsVal.bool false, comment_id := JsVal.str "comment-123" },
   { id := JsVal.str "reply-456", content := JsVal.str "balasan ini telah dihapus",
     date := JsVal.date (some 1628410021522), username := JsVal.str "dicoding",
     is_delete := JsVal.bool true, comment_id := JsVal.str "comment-456" }]

/-- The mocked thread repository of the use case test: the thread is found. -/
def mockThreadRepository : ThreadRepository Unit where
  verifyAvailableThread := fun _ s => (Except.ok (), s)
  getThreadById := fun _ s => (Except.ok mockThread, s)

/-- The mocked comment repository of the use case test, returning the given comments. -/
def mockCommentRepository (comments : List CommentPayload) : CommentRepository Unit where
  verifyAvailableCommentInThread := fun _ _ s => (Except.ok (), s)
  verifyCommentOwner := fun _ _ s => (Except.ok (), s)
  deleteComment := fun _ s => (Except.ok (), s)
  getCommentsByThreadId := fun _ s => (Except.ok comments, s)

/-- The mocked reply repository of the use case test. -/
def mockReplyRepository : ReplyRepository Unit where
  getRepliesByCommentIds := fun _ s => (Except.ok mockReplies, s)

/-- The use case of the test, built on the mocks. -/
def mockUseCase (comments : List CommentPayload) : GetThreadDetailsUseCase Unit where
  threadRepository := mockThreadRepository
  commentRepository := mockCommentRepository comments
  replyRepository := mockReplyRepository

/-- A thread repository in which no thread is found. -/
def missingThreadRepository : ThreadRepository Unit where
  verifyAvailableThread := fun _ s =>
    (Except.error (Err.NotFoundError "thread tidak ditemukan"), s)
  getThreadById := fun _ s =>
    (Except.error (Err.NotFoundError "thread tidak ditemukan"), s)

/-- A comment payload whose `id` is the number 0, the other properties as in the entity
test. -/
def zeroIdComment : CommentPayload :=
  { id := JsVal.num 0, username := JsVal.str "dicoding",
    date := JsVal.date (some 1628407149775), content := JsVal.str "sebuah komentar",
    is_delete := JsVal.bool false }

/-- A rendering of array elements in which a string is sent as it is and every other value
as `NULL`. -/
def textOfString : JsVal → Option String
  | JsVal.str t => some t
  | _ => none

/-- The database of the thread-detail HTTP test: a thread with a comment of the second user,
a deleted comment of the first user, and two replies to the first comment, one deleted. -/
def threadStore : Store :=
  { users := [{ id := "user-A", username := "dicoding" },
              { id := "user-B", username := "johndoe" }]
    threads := [{ id := "thread-123", title := "Judul Thread", body := "Body Thread",
                  owner := "user-A", date := 1672531200000 }]
    comments := [{ id := "comment-123", content := "Komentar A", owner := "user-B",
                   thread_id := "thread-123", date := 1672531260000, is_delete := false },
                 { id := "comment-456", content := "Komentar B", owner := "user-A",
                   thread_id := "thread-123", date := 1672531320000, is_delete := true }]
    replies := [{ id := "reply-123", content := "Balasan A", owner := "user-A",
                  comment_id := "comment-123", date := 1672531380000, is_delete := false },
                { id := "reply-456", content := "Balasan B", owner := "user-B",
                  comment_id := "comment-123", date := 1672531440000, is_delete := true }] }

/-- The thread detail of `threadStore`, as the HTTP test expects it. -/
def threadStoreDetail : DetailThread :=
  { id := JsVal.str "thread-123", title := JsVal.str "Judul Thread",
    body := JsVal.str "Body Thread", date := JsVal.date (some 1672531200000),
    username := JsVal.str "dicoding"
    comments :=
      [{ id := JsVal.str "comment-123", username := JsVal.str "johndoe",
         date := JsVal.date (some 1672531260000), content := JsVal.str "Komentar A"
         replies :=
           [{ id := JsVal.str "reply-123", content := JsVal.str "Balasan A",
              date := JsVal.date (some 1672531380000), username := JsVal.str "dicoding" },
            { id := JsVal.str "reply-456", content := JsVal.str "**balasan telah dihapus**",
              date := JsVal.date (some 1672531440000), username := JsVal.str "johndoe" }] },
       { id := JsVal.str "comment-456", username := JsVal.str "dicoding",
         date := JsVal.date (some 1672531320000),
         content := JsVal.str "**komentar telah dihapus**", replies := [] }] }

/-- A deleted comment whose stored content is the text of the sentinel. -/
def sentinelComment : CommentPayload :=
  { id := JsVal.str "comment-123", username := JsVal.str "dicoding",
    date := JsVal.date (some 1628407149775),
    content := JsVal.str "**komentar telah dihapus**", is_delete := JsVal.bool true }

/-- The payload of DetailReply.test.js, with the given deletion flag. -/
def testReply (isDelete : Bool) : ReplyPayload :=
  { id := JsVal.str "reply-123", content := JsVal.str "sebuah balasan",
    date := JsVal.date (some 1628407149775), username := JsVal.str "dicoding",
    is_delete := JsVal.bool isDelete, comment_id := JsVal.str "comment-123" }

/-- A comment to which none of `mockReplies` is a reply. -/
def lonelyComment : CommentPayload :=
  { id := JsVal.str "comment-789", username := JsVal.str "johndoe",
    date := JsVal.date (some 1628407353555), content := JsVal.str "sebuah comment",
    is_delete := JsVal.bool false }

/-- The records `mockComments` with another stored content for the deleted comment. -/
def mockCommentsAltered : List CommentPayload :=
  [{ id := JsVal.str "comment-123", username := JsVal.str "johndoe",
     date := JsVal.date (some 1628407353555), content := JsVal.str "sebuah comment",
     is_delete := JsVal.bool false },
   { id := JsVal.str "comment-456", username := JsVal.str "dicoding",
     date := JsVal.date (some 1628407581338), content := JsVal.str "teks lain",
     is_delete := JsVal.bool true }]

/-- The records `mockReplies` with another stored content for the deleted reply. -/
def mockRepliesAltered : List ReplyPayload :=
  [{ id := JsVal.str "reply-123", content := JsVal.str "sebuah balasan",
     date := JsVal.date (some 1628409588766), username := JsVal.str "johndoe",
     is_delete := JsVal.bool false, comment_id := JsVal.str "comment-123" },
   { id := JsVal.str "reply-456", content := JsVal.str "teks lain",
     date := JsVal.date (some 1628410021522), username := JsVal.str "dicoding",
     is_delete := JsVal.bool true, comment_id := JsVal.str "comment-456" }]

/-- The use case of the test on mocks that return the given comments and replies. -/
def mockUseCaseOf (comments : List CommentPayload) (replies : List ReplyPayload) :
    GetThreadDetailsUseCase Unit where
  threadRepository := mockThreadRepository
  commentRepository := mockCommentRepository comments
  replyRepository := { getRepliesByCommentIds := fun _ s => (Except.ok replies, s) }

/-- The database `threadStore` with its replies read as the comments table. -/
def threadStoreMirror : Store :=
  { threadStore with comments := threadStore.replies.map ReplyRow.asComment }

/-- An executor that meets the rows whose flag an `UPDATE` has set after the other rows:
the new version of an updated row is written behind the rows that are there. -/
def flaggedLast (rows : List (CommentRow × UserRow)) : List (CommentRow × UserRow) :=
  rows.filter (fun cu => !cu.1.is_delete) ++ rows.filter (fun cu => cu.1.is_delete)

/-- The database `threadStore` with two comments of the same date on the thread, neither
deleted. -/
def tieStore : Store :=
  { threadStore with
    comments := [{ id := "comment-123", content := "Komentar A", owner := "user-B",
                   thread_id := "thread-123", date := 1672531260000, is_delete := false },
                 { id := "comment-456", content := "Komentar B", owner := "user-A",
                   thread_id := "thread-123", date := 1672531260000, is_delete := false }] }

/-- The two replies of `threadStore` to the first comment, as the thread detail shows
them. -/
def tieStoreReplies : List DetailReply :=
  [{ id := JsVal.str "reply-123", content := JsVal.str "Balasan A",
     date := JsVal.date (some 1672531380000), username := JsVal.str "dicoding" },
   { id := JsVal.str "reply-456", content := JsVal.str "**balasan telah dihapus**",
     date := JsVal.date (some 1672531440000), username := JsVal.str "johndoe" }]

/-- The thread detail of `tieStore` on the executor `flaggedLast`. -/
def tieStoreDetail : DetailThread :=
  { id := JsVal.str "thread-123", title := JsVal.str "Judul Thread",
    body := JsVal.str "Body Thread", date := JsVal.date (some 1672531200000),
    username := JsVal.str "dicoding"
    comments :=
      [{ id := JsVal.str "comment-123", username := JsVal.str "johndoe",
         date := JsVal.date (some 1672531260000), content := JsVal.str "Komentar A"
         replies := tieStoreReplies },
       { id := JsVal.str "comment-456", username := JsVal.str "dicoding",
         date := JsVal.date (some 1672531260000), content := JsVal.str "Komentar B"
         replies := [] }] }

/-- The thread detail of `tieStore` on the executor `flaggedLast` after the second user has
deleted the first comment. -/
def tieStoreDetailAfter : DetailThread :=
  { id := JsVal.str "thread-123", title := JsVal.str "Judul Thread",
    body := JsVal.str "Body Thread", date := JsVal.date (some 1672531200000),
    username := JsVal.str "dicoding"
    comments :=
      [{ id := JsVal.str "comment-456", username := JsVal.str "dicoding",
         date := JsVal.date (some 1672531260000), content := JsVal.str "Komentar B"
         replies := [] },
       { id := JsVal.str "comment-123", username := JsVal.str "johndoe",
         date := JsVal.date (some 1672531260000),
         content := JsVal.str "**komentar telah dihapus**"
         replies := tieStoreReplies }] }

/-! ## The delete-authorization chain on the Postgres repositories -/

/-! ### The Postgres checks read only -/

/-- The check `verifyAvailableThread` leaves the database as it is. -/
theorem ThreadRepositoryPostgres.verifyAvailableThread_state (threadId : String) (s : Store) :
    (ThreadRepositoryPostgres.verifyAvailableThread threadId s).2 = s := by
  unfold ThreadRepositoryPostgres.verifyAvailableThread
  split <;> rfl

/-- The check `verifyAvailableCommentInThread` leaves the database as it is. -/
theorem CommentRepositoryPostgres.verifyAvailableCommentInThread_state
    (commentId threadId : String) (s : Store) :
    (CommentRepositoryPostgres.verifyAvailableCommentInThread commentId threadId s).2 = s := by
  unfold CommentRepositoryPostgres.verifyAvailableCommentInThread
  simp only
  split <;> rfl

/-- The check `verifyCommentOwner` leaves the database as it is. -/
theorem CommentRepositoryPostgres.verifyCommentOwner_state (commentId owner : String)
    (s : Store) : (CommentRepositoryPostgres.verifyCommentOwner commentId owner s).2 = s := by
  unfold CommentRepositoryPostgres.verifyCommentOwner
  split
  · rfl
  · split <;> rfl

/-- The run of the delete use case on the Postgres repositories, check by check. -/
theorem deleteCommentUseCase_execute (p : DeleteCommentPayload) (s : Store) :
    deleteCommentUseCase.execute p s =
      match (ThreadRepositoryPostgres.verifyAvailableThread p.threadId s).1 with
      | Except.error e =>
        { result := Except.error e, state := s,
          calls := [Call.verifyAvailableThread p.threadId] }
      | Except.ok _ =>
        match (CommentRepositoryPostgres.verifyAvailableCommentInThread
          p.commentId p.threadId s).1 with
        | Except.error e =>
          { result := Except.error e, state := s,
            calls := [Call.verifyAvailableThread p.threadId,
              Call.verifyAvailableCommentInThread p.commentId p.threadId] }
        | Except.ok _ =>
          match (CommentRepositoryPostgres.verifyCommentOwner p.commentId p.owner s).1 with
          | Except.error e =>
            { result := Except.error e, state := s,
              calls := [Call.verifyAvailableThread p.threadId,
                Call.verifyAvailableCommentInThread p.commentId p.threadId,
                Call.verifyCommentOwner p.commentId p.owner] }
          | Except.ok _ =>
            { result := Except.ok (),
              state := (CommentRepositoryPostgres.deleteComment p.commentId s).2,
              calls := [Call.verifyAvailableThread p.threadId,
                Call.verifyAvailableCommentInThread p.commentId p.threadId,
                Call.verifyCommentOwner p.commentId p.owner,
                Call.deleteComment p.commentId] } := by
  have h1 := ThreadRepositoryPostgres.verifyAvailableThread_state p.threadId s
  have h2 := CommentRepositoryPostgres.verifyAvailableCommentInThread_state
    p.commentId p.threadId s
  have h3 := CommentRepositoryPostgres.verifyCommentOwner_state p.commentId p.owner s
  simp only [DeleteCommentUseCase.execute, bind, Run.andThen, Run.call, deleteCommentUseCase,
    threadRepositoryPostgres, commentRepositoryPostgres]
  rw [h1]
  cases hr1 : (ThreadRepositoryPostgres.verifyAvailableThread p.threadId s).1 with
  | error e => rfl
  | ok u =>
    simp only [h2]
    cases hr2 : (CommentRepositoryPostgres.verifyAvailableCommentInThread
      p.commentId p.threadId s).1 with
    | error e => simp
    | ok u2 =>
      simp only [h3]
      cases hr3 : (CommentRepositoryPostgres.verifyCommentOwner p.commentId p.owner s).1 with
      | error e => simp
      | ok u3 => simp [CommentRepositoryPostgres.deleteComment]

/-! ### What the Postgres checks answer -/

/-- The check `verifyAvailableThread` succeeds exactly when a thread row has the id. -/
theorem ThreadRepositoryPostgres.verifyAvailableThread_ok_iff (threadId : String) (s : Store) :
    (ThreadRepositoryPostgres.verifyAvailableThread threadId s).1 = Except.ok () ↔
      ∃ t ∈ s.threads, t.id = threadId := by
  unfold ThreadRepositoryPostgres.verifyAvailableThread
  split
  · rename_i h
    simp only [List.length_eq_zero, List.filter_eq_nil_iff, decide_eq_true_eq] at h
    simp only [reduceCtorEq, false_iff, not_exists, not_and]
    exact h
  · rename_i h
    simp only [List.length_eq_zero, List.filter_eq_nil_iff, decide_eq_true_eq, not_forall] at h
    simp only [true_iff]
    obtain ⟨t, ht, hid⟩ := h
    exact ⟨t, ht, not_not.mp hid⟩

/-- The error of `verifyAvailableThread` when no thread row has the id. -/
theorem ThreadRepositoryPostgres.verifyAvailableThread_error (threadId : String) (s : Store)
    (h : ∀ t ∈ s.threads, t.id ≠ threadId) :
    (ThreadRepositoryPostgres.verifyAvailableThread threadId s).1 =
      Except.error (Err.NotFoundError "thread tidak ditemukan") := by
  unfold ThreadRepositoryPostgres.verifyAvailableThread
  rw [if_pos]
  simp only [List.length_eq_zero, List.filter_eq_nil_iff, decide_eq_true_eq]
  exact h

/-- The check `verifyAvailableCommentInThread` succeeds exactly when a comment row has the
id and the thread id and is not deleted. -/
theorem CommentRepositoryPostgres.verifyAvailableCommentInThread_ok_iff
    (commentId threadId : String) (s : Store) :
    (CommentRepositoryPostgres.verifyAvailableCommentInThread commentId threadId s).1 =
        Except.ok () ↔
      ∃ c ∈ s.comments, c.id = commentId ∧ c.thread_id = threadId ∧ c.is_delete = false := by
  unfold CommentRepositoryPostgres.verifyAvailableCommentInThread
  simp only
  split
  · rename_i h
    simp only [List.length_eq_zero, List.filter_eq_nil_iff, decide_eq_true_eq] at h
    simp only [reduceCtorEq, false_iff, not_exists, not_and]
    intro c hc h1 h2
    have := h c hc
    tauto
  · rename_i h
    simp only [List.length_eq_zero, List.filter_eq_nil_iff, decide_eq_true_eq, not_forall] at h
    simp only [true_iff]
    obtain ⟨c, hc, hid⟩ := h
    exact ⟨c, hc, not_not.mp hid⟩

/-- The error of `verifyAvailableCommentInThread` when no comment row qualifies. -/
theorem CommentRepositoryPostgres.verifyAvailableCommentInThread_error
    (commentId threadId : String) (s : Store)
    (h : ∀ c ∈ s.comments, ¬ (c.id = commentId ∧ c.thread_id = threadId ∧ c.is_delete = false)) :
    (CommentRepositoryPostgres.verifyAvailableCommentInThread commentId threadId s).1 =
      Except.error (Err.NotFoundError "komentar tidak ditemukan di thread ini") := by
  unfold CommentRepositoryPostgres.verifyAvailableCommentInThread
  simp only
  rw [if_pos]
  simp only [List.length_eq_zero, List.filter_eq_nil_iff, decide_eq_true_eq]
  exact h

/-- The error of `verifyCommentOwner` when the comment exists and no row with its id has
the given owner. -/
theorem CommentRepositoryPostgres.verifyCommentOwner_mismatch (commentId owner : String)
    (s : Store) (hex : ∃ c ∈ s.comments, c.id = commentId)
    (h : ∀ c ∈ s.comments, c.id = commentId → c.owner ≠ owner) :
    (CommentRepositoryPostgres.verifyCommentOwner commentId owner s).1 =
      Except.error (Err.AuthorizationError "anda tidak berhak mengakses resource ini") := by
  unfold CommentRepositoryPostgres.verifyCommentOwner
  split
  · rename_i hnil
    obtain ⟨c, hc, hid⟩ := hex
    have : c ∈ s.comments.filter (fun c => c.id = commentId) := by
      simp [List.mem_filter, hc, hid]
    rw [hnil] at this
    exact absurd this (List.not_mem_nil c)
  · rename_i comment rest hcons
    have hm : comment ∈ s.comments.filter (fun c => c.id = commentId) := by
      rw [hcons]; exact List.mem_cons_self _ _
    simp only [List.mem_filter, decide_eq_true_eq] at hm
    rw [if_pos (h comment hm.1 hm.2)]

/-- The table `comments` after `deleteComment`. -/
theorem CommentRepositoryPostgres.deleteComment_comments (commentId : String) (s : Store) :
    (CommentRepositoryPostgres.deleteComment commentId s).2.comments =
      s.comments.map (fun c => if c.id = commentId then { c with is_delete := true } else c) :=
  rfl

/-- Claim C1: on every database state and payload, `DeleteCommentUseCase.execute` calls
`deleteComment(commentId)` if and only if `verifyAvailableThread(threadId)`,
`verifyAvailableCommentInThread(commentId, threadId)` and
`verifyCommentOwner(commentId, owner)` all succeed; when it does, the four calls were made in
that order, `execute` succeeds, and afterwards the comment row exists and every row with that
id has `is_delete = true`. -/
theorem delete_called_iff_checks_pass (s : Store) (p : DeleteCommentPayload) :
    (Call.deleteComment p.commentId ∈ (deleteCommentUseCase.execute p s).calls ↔
      (ThreadRepositoryPostgres.verifyAvailableThread p.threadId s).1 = Except.ok () ∧
      (CommentRepositoryPostgres.verifyAvailableCommentInThread p.commentId p.threadId s).1
        = Except.ok () ∧
      (CommentRepositoryPostgres.verifyCommentOwner p.commentId p.owner s).1 = Except.ok ()) ∧
    (Call.deleteComment p.commentId ∈ (deleteCommentUseCase.execute p s).calls →
      (deleteCommentUseCase.execute p s).calls =
        [Call.verifyAvailableThread p.threadId,
          Call.verifyAvailableCommentInThread p.commentId p.threadId,
          Call.verifyCommentOwner p.commentId p.owner,
          Call.deleteComment p.commentId] ∧
      (deleteCommentUseCase.execute p s).result = Except.ok () ∧
      (∃ c ∈ (deleteCommentUseCase.execute p s).state.comments, c.id = p.commentId) ∧
      ∀ c ∈ (deleteCommentUseCase.execute p s).state.comments,
        c.id = p.commentId → c.is_delete = true) := by
  have hvc := CommentRepositoryPostgres.verifyAvailableCommentInThread_ok_iff
    p.commentId p.threadId s
  rw [deleteCommentUseCase_execute]
  cases h1 : (ThreadRepositoryPostgres.verifyAvailableThread p.threadId s).1 with
  | error e => simp
  | ok u1 =>
    cases h2 : (CommentRepositoryPostgres.verifyAvailableCommentInThread
      p.commentId p.threadId s).1 with
    | error e => simp
    | ok u2 =>
      cases h3 : (CommentRepositoryPostgres.verifyCommentOwner p.commentId p.owner s).1 with
      | error e => simp
      | ok u3 =>
        obtain ⟨c, hc, hid, -, -⟩ := hvc.mp h2
        simp only [List.mem_cons, List.mem_singleton, or_true, and_self, true_iff, true_and,
          forall_true_left, CommentRepositoryPostgres.deleteComment_comments, List.mem_map,
          reduceCtorEq, false_or, List.not_mem_nil, or_false]
        refine ⟨⟨{ c with is_delete := true }, ⟨c, hc, by simp [hid]⟩, hid⟩, ?_⟩
        rintro c2 ⟨c1, -, rfl⟩ hid2
        by_cases hc1 : c1.id = p.commentId
        · simp [hc1]
        · rw [if_neg hc1] at hid2
          exact absurd hid2 hc1

/-- The theorem for C1 at the database of the HTTP test: the owner deletes the comment, the
call is made, the run succeeds and the row is flagged. -/
theorem delete_called_iff_checks_pass_witness :
    Call.deleteComment "comment-123" ∈
        (deleteCommentUseCase.execute
          { threadId := "thread-123", commentId := "comment-123", owner := "user-A" }
          exampleStore).calls ∧
      (deleteCommentUseCase.execute
          { threadId := "thread-123", commentId := "comment-123", owner := "user-A" }
          exampleStore).result = Except.ok () ∧
      ∀ c ∈ (deleteCommentUseCase.execute
          { threadId := "thread-123", commentId := "comment-123", owner := "user-A" }
          exampleStore).state.comments, c.id = "comment-123" → c.is_delete = true :=
  have h := delete_called_iff_checks_pass exampleStore
    { threadId := "thread-123", commentId := "comment-123", owner := "user-A" }
  have hin := h.1.mpr ⟨rfl, rfl, rfl⟩
  ⟨hin, (h.2 hin).2.1, (h.2 hin).2.2.2⟩

/-- Claim C2: when `DeleteCommentUseCase.execute` fails, its error is the error of the first
check that fails, in the order thread, comment in thread, owner. A missing thread gives the
thread NotFoundError whatever the comment and the owner are; with the thread present, a
comment that is missing, deleted or in another thread gives the comment NotFoundError; and
such a comment never gives AuthorizationError, whoever asks. -/
theorem delete_fails_with_first_violated_check (s : Store) (p : DeleteCommentPayload) :
    (∀ e, (deleteCommentUseCase.execute p s).result = Except.error e →
      (ThreadRepositoryPostgres.verifyAvailableThread p.threadId s).1 = Except.error e ∨
      ((ThreadRepositoryPostgres.verifyAvailableThread p.threadId s).1 = Except.ok () ∧
        (CommentRepositoryPostgres.verifyAvailableCommentInThread p.commentId p.threadId s).1
          = Except.error e) ∨
      ((ThreadRepositoryPostgres.verifyAvailableThread p.threadId s).1 = Except.ok () ∧
        (CommentRepositoryPostgres.verifyAvailableCommentInThread p.commentId p.threadId s).1
          = Except.ok () ∧
        (CommentRepositoryPostgres.verifyCommentOwner p.commentId p.owner s).1
          = Except.error e)) ∧
    ((∀ t ∈ s.threads, t.id ≠ p.threadId) →
      (deleteCommentUseCase.execute p s).result =
        Except.error (Err.NotFoundError "thread tidak ditemukan")) ∧
    ((∃ t ∈ s.threads, t.id = p.threadId) →
      (∀ c ∈ s.comments,
        ¬ (c.id = p.commentId ∧ c.thread_id = p.threadId ∧ c.is_delete = false)) →
      (deleteCommentUseCase.execute p s).result =
        Except.error (Err.NotFoundError "komentar tidak ditemukan di thread ini")) ∧
    ((∀ c ∈ s.comments,
        ¬ (c.id = p.commentId ∧ c.thread_id = p.threadId ∧ c.is_delete = false)) →
      (∃ m, (deleteCommentUseCase.execute p s).result = Except.error (Err.NotFoundError m)) ∧
      ∀ m, (deleteCommentUseCase.execute p s).result ≠
        Except.error (Err.AuthorizationError m)) := by
  have hstep := deleteCommentUseCase_execute p s
  have hthread : (∀ t ∈ s.threads, t.id ≠ p.threadId) →
      (deleteCommentUseCase.execute p s).result =
        Except.error (Err.NotFoundError "thread tidak ditemukan") := by
    intro h
    rw [hstep, ThreadRepositoryPostgres.verifyAvailableThread_error p.threadId s h]
  have hcomment : (∃ t ∈ s.threads, t.id = p.threadId) →
      (∀ c ∈ s.comments,
        ¬ (c.id = p.commentId ∧ c.thread_id = p.threadId ∧ c.is_delete = false)) →
      (deleteCommentUseCase.execute p s).result =
        Except.error (Err.NotFoundError "komentar tidak ditemukan di thread ini") := by
    intro ht hc
    rw [hstep, (ThreadRepositoryPostgres.verifyAvailableThread_ok_iff p.threadId s).mpr ht,
      CommentRepositoryPostgres.verifyAvailableCommentInThread_error p.commentId p.threadId s hc]
  refine ⟨?_, hthread, hcomment, ?_⟩
  · intro e
    rw [hstep]
    cases h1 : (ThreadRepositoryPostgres.verifyAvailableThread p.threadId s).1 with
    | error e1 => simp
    | ok u1 =>
      cases h2 : (CommentRepositoryPostgres.verifyAvailableCommentInThread
        p.commentId p.threadId s).1 with
      | error e2 => simp
      | ok u2 =>
        cases h3 : (CommentRepositoryPostgres.verifyCommentOwner p.commentId p.owner s).1 with
        | error e3 => simp
        | ok u3 => simp
  · intro hc
    by_cases ht : ∃ t ∈ s.threads, t.id = p.threadId
    · rw [hcomment ht hc]
      exact ⟨⟨_, rfl⟩, fun m h => by simp at h⟩
    · rw [hthread (by
        intro t hmem hid
        exact ht ⟨t, hmem, hid⟩)]
      exact ⟨⟨_, rfl⟩, fun m h => by simp at h⟩

/-- The theorem for C2 at the database of the HTTP test: a stranger asks to delete a
comment that does not exist, in a thread that does; the answer is the comment NotFoundError. -/
theorem delete_fails_with_first_violated_check_witness :
    (deleteCommentUseCase.execute
        { threadId := "thread-123", commentId := "comment-xxx", owner := "user-B" }
        exampleStore).result =
      Except.error (Err.NotFoundError "komentar tidak ditemukan di thread ini") :=
  (delete_fails_with_first_violated_check exampleStore
    { threadId := "thread-123", commentId := "comment-xxx", owner := "user-B" }).2.2.1
    ⟨_, List.mem_cons_self _ _, rfl⟩ (by decide)

/-- Claim C3: when `DeleteCommentUseCase.execute` fails, the database is left as it was. In
particular, when the thread exists, the comment exists undeleted in it and no stored row
with that id belongs to the requester, the result is AuthorizationError and the comment row
is still there, with `is_delete = false`. -/
theorem delete_failure_leaves_store (s : Store) (p : DeleteCommentPayload) :
    (∀ e, (deleteCommentUseCase.execute p s).result = Except.error e →
      (deleteCommentUseCase.execute p s).state = s) ∧
    (∀ c ∈ s.comments, (∃ t ∈ s.threads, t.id = p.threadId) →
      c.id = p.commentId → c.thread_id = p.threadId → c.is_delete = false →
      (∀ c2 ∈ s.comments, c2.id = p.commentId → c2.owner ≠ p.owner) →
      (deleteCommentUseCase.execute p s).result =
          Except.error (Err.AuthorizationError "anda tidak berhak mengakses resource ini") ∧
        (deleteCommentUseCase.execute p s).state = s ∧
        c ∈ (deleteCommentUseCase.execute p s).state.comments) := by
  have hstep := deleteCommentUseCase_execute p s
  have hfail : ∀ e, (deleteCommentUseCase.execute p s).result = Except.error e →
      (deleteCommentUseCase.execute p s).state = s := by
    intro e
    rw [hstep]
    cases h1 : (ThreadRepositoryPostgres.verifyAvailableThread p.threadId s).1 with
    | error e1 => simp
    | ok u1 =>
      cases h2 : (CommentRepositoryPostgres.verifyAvailableCommentInThread
        p.commentId p.threadId s).1 with
      | error e2 => simp
      | ok u2 =>
        cases h3 : (CommentRepositoryPostgres.verifyCommentOwner p.commentId p.owner s).1 with
        | error e3 => simp
        | ok u3 => simp
  refine ⟨hfail, ?_⟩
  intro c hc ht hid hth hdel hown
  have hres : (deleteCommentUseCase.execute p s).result =
      Except.error (Err.AuthorizationError "anda tidak berhak mengakses resource ini") := by
    rw [hstep, (ThreadRepositoryPostgres.verifyAvailableThread_ok_iff p.threadId s).mpr ht,
      (CommentRepositoryPostgres.verifyAvailableCommentInThread_ok_iff
        p.commentId p.threadId s).mpr ⟨c, hc, hid, hth, hdel⟩,
      CommentRepositoryPostgres.verifyCommentOwner_mismatch p.commentId p.owner s
        ⟨c, hc, hid⟩ hown]
  have hst := hfail _ hres
  refine ⟨hres, hst, ?_⟩
  rw [hst]
  exact hc

/-- The theorem for C3 at the database of the HTTP test: the other user asks to delete the
comment; the answer is AuthorizationError and the database is unchanged. -/
theorem delete_failure_leaves_store_witness :
    (deleteCommentUseCase.execute
        { threadId := "thread-123", commentId := "comment-123", owner := "user-B" }
        exampleStore).result =
        Except.error (Err.AuthorizationError "anda tidak berhak mengakses resource ini") ∧
      (deleteCommentUseCase.execute
        { threadId := "thread-123", commentId := "comment-123", owner := "user-B" }
        exampleStore).state = exampleStore :=
  have h := (delete_failure_leaves_store exampleStore
    { threadId := "thread-123", commentId := "comment-123", owner := "user-B" }).2
    { id := "comment-123", content := "Komentar A", owner := "user-A",
      thread_id := "thread-123", date := 1672531260000, is_delete := false }
    (List.mem_cons_self _ _) ⟨_, List.mem_cons_self _ _, rfl⟩ rfl rfl rfl (by decide)
  ⟨h.1, h.2.1⟩

/-! ## The thread-detail aggregator -/

section Aggregator

variable {σ : Type}

/-- The loop `mapThrow` returns a list exactly when the callback returns on every element,
and the list holds the results in order. -/
theorem mapThrow_eq_ok_iff {α β : Type} (f : α → Except Err β) (l : List α) (bs : List β) :
    mapThrow f l = Except.ok bs ↔ List.Forall₂ (fun a b => f a = Except.ok b) l bs := by
  induction l generalizing bs with
  | nil =>
    cases bs <;> simp [mapThrow]
  | cons a as ih =>
    unfold mapThrow
    cases hfa : f a with
    | error e =>
      simp only [reduceCtorEq, false_iff]
      intro h
      cases h with
      | cons h1 _ => rw [hfa] at h1; exact absurd h1 (by simp)
    | ok b =>
      cases hrest : mapThrow f as with
      | error e =>
        simp only [reduceCtorEq, false_iff]
        intro h
        cases h with
        | cons _ h2 => rw [← ih] at h2; rw [hrest] at h2; exact absurd h2 (by simp)
      | ok bs2 =>
        simp only [Except.ok.injEq]
        constructor
        · rintro rfl
          exact List.Forall₂.cons hfa ((ih bs2).mp hrest)
        · intro h
          cases h with
          | cons h1 h2 =>
            rw [hfa] at h1
            rw [← ih, hrest] at h2
            simp only [Except.ok.injEq] at h1 h2
            rw [h1, h2]

/-- The loop `mapThrow` returns when the callback returns on every element. -/
theorem mapThrow_ok_of_forall {α β : Type} (f : α → Except Err β) (l : List α)
    (h : ∀ a ∈ l, ∃ b, f a = Except.ok b) : ∃ bs, mapThrow f l = Except.ok bs := by
  induction l with
  | nil => exact ⟨[], rfl⟩
  | cons a as ih =>
    obtain ⟨b, hb⟩ := h a (List.mem_cons_self _ _)
    obtain ⟨bs, hbs⟩ := ih (fun x hx => h x (List.mem_cons_of_mem _ hx))
    exact ⟨b :: bs, by simp [mapThrow, hb, hbs]⟩

/-- Against a string, `===` is equality of values. -/
theorem JsVal.strictEq_str (v : JsVal) (i : String) :
    v.strictEq (JsVal.str i) = decide (v = JsVal.str i) := by
  cases v <;> simp [JsVal.strictEq]

/-- What `new DetailComment(c)` copies when it accepts `c`, whose id is then a string. -/
theorem detailComment_new_ok_fields (c : CommentPayload) (dc : DetailComment)
    (h : DetailComment.new c = Except.ok dc) :
    dc.id = c.id ∧ dc.username = c.username ∧ dc.date = c.date ∧ dc.replies = []
      ∧ ∃ i, c.id = JsVal.str i := by
  unfold DetailComment.new DetailComment._verifyPayload at h
  cases hm : DetailComment.missingProperty c
  · cases hw : DetailComment.wrongType c
    · simp only [hm, hw, Bool.false_eq_true, if_false, Except.ok.injEq] at h
      subst h
      refine ⟨rfl, rfl, rfl, rfl, ?_⟩
      simp only [DetailComment.wrongType, Bool.or_eq_false_iff] at hw
      have hid := hw.1.1.1.1
      cases hc : c.id <;> simp [hc, JsVal.typeof] at hid
      exact ⟨_, rfl⟩
    · simp [hm, hw] at h
  · simp [hm] at h

/-- What `new DetailReply(r)` copies when it accepts `r`. -/
theorem detailReply_new_ok_fields (r : ReplyPayload) (dr : DetailReply)
    (h : DetailReply.new r = Except.ok dr) :
    dr.id = r.id ∧ dr.date = r.date ∧ dr.username = r.username := by
  unfold DetailReply.new at h
  cases hm : DetailReply.missingProperty r
  · cases hw : DetailReply.wrongType r
    · simp only [hm, hw, Bool.false_eq_true, if_false, Except.ok.injEq] at h
      subst h
      exact ⟨rfl, rfl, rfl⟩
    · simp [hm, hw] at h
  · simp [hm] at h

/-- The callback of `comments.map` on a comment the entity accepts, when every fetched
reply is one `DetailReply` accepts. -/
theorem GetThreadDetailsUseCase.detailCommentOf_ok (replies : List ReplyPayload)
    (c : CommentPayload) (dc0 : DetailComment) (hc : DetailComment.new c = Except.ok dc0)
    (hr : ∀ r ∈ replies, ∃ dr, DetailReply.new r = Except.ok dr) :
    ∃ rs, GetThreadDetailsUseCase.detailCommentOf replies c
          = Except.ok { dc0 with replies := rs } ∧
      List.Forall₂ (fun r dr => DetailReply.new r = Except.ok dr)
        (replies.filter (fun r => decide (r.comment_id = c.id))) rs := by
  obtain ⟨-, -, -, -, i, hi⟩ := detailComment_new_ok_fields c dc0 hc
  have hfilter : replies.filter (fun reply => reply.comment_id.strictEq c.id)
      = replies.filter (fun r => decide (r.comment_id = c.id)) := by
    congr 1
    funext r
    rw [hi, JsVal.strictEq_str]
  obtain ⟨rs, hrs⟩ := mapThrow_ok_of_forall DetailReply.new
    (replies.filter (fun r => decide (r.comment_id = c.id)))
    (fun r hmem => hr r (List.mem_of_mem_filter hmem))
  refine ⟨rs, ?_, (mapThrow_eq_ok_iff _ _ _).mp hrs⟩
  simp only [GetThreadDetailsUseCase.detailCommentOf, hc, hfilter, hrs, bind, Except.bind, pure,
    Except.pure]

/-- The run of the thread-detail use case when the thread is found, at least one comment
is fetched and the callback of `comments.map` throws on none. -/
theorem GetThreadDetailsUseCase.execute_of_comments (uc : GetThreadDetailsUseCase σ)
    (verify : ThreadPayload → Except Err Unit) (threadId : String) (s s1 s2 s3 s4 : σ)
    (thread : ThreadPayload) (comments : List CommentPayload) (replies : List ReplyPayload)
    (dcs : List DetailComment)
    (h1 : uc.threadRepository.verifyAvailableThread threadId s = (Except.ok (), s1))
    (h2 : uc.threadRepository.getThreadById threadId s1 = (Except.ok thread, s2))
    (h3 : uc.commentRepository.getCommentsByThreadId threadId s2 = (Except.ok comments, s3))
    (h4 : verify thread = Except.ok ())
    (hne : comments ≠ [])
    (h5 : uc.replyRepository.getRepliesByCommentIds (comments.map (fun c => c.id)) s3
      = (Except.ok replies, s4))
    (h6 : mapThrow (GetThreadDetailsUseCase.detailCommentOf replies) comments = Except.ok dcs) :
    uc.execute verify threadId s =
      { result := Except.ok
          { id := thread.id, title := thread.title, body := thread.body, date := thread.date,
            username := thread.username, comments := dcs }
        state := s4
        calls := [Call.verifyAvailableThread threadId, Call.getThreadById threadId,
          Call.getCommentsByThreadId threadId,
          Call.getRepliesByCommentIds (comments.map (fun c => c.id))] } := by
  have hlen : comments.length ≠ 0 := by
    intro h; exact hne (List.length_eq_zero.mp h)
  simp [GetThreadDetailsUseCase.execute, bind, Run.andThen, Run.call, Run.eval, pure,
    DetailThread.new, h1, h2, h3, h4, h5, h6, hlen]

/-- Every comment the entity accepts gets its detail comment from the callback, in order. -/
theorem GetThreadDetailsUseCase.detailComments_ok (replies : List ReplyPayload)
    (comments : List CommentPayload)
    (hc : ∀ c ∈ comments, ∃ dc, DetailComment.new c = Except.ok dc)
    (hr : ∀ r ∈ replies, ∃ dr, DetailReply.new r = Except.ok dr) :
    ∃ dcs, mapThrow (GetThreadDetailsUseCase.detailCommentOf replies) comments = Except.ok dcs ∧
      List.Forall₂
        (fun c dc => ∃ dc0, DetailComment.new c = Except.ok dc0 ∧
          dc.id = dc0.id ∧ dc.username = dc0.username ∧ dc.date = dc0.date ∧
          dc.content = dc0.content ∧
          List.Forall₂ (fun r dr => DetailReply.new r = Except.ok dr)
            (replies.filter (fun r => decide (r.comment_id = c.id))) dc.replies)
        comments dcs := by
  induction comments with
  | nil => exact ⟨[], rfl, List.Forall₂.nil⟩
  | cons c cs ih =>
    obtain ⟨dc0, h0⟩ := hc c (List.mem_cons_self _ _)
    obtain ⟨rs, hrs, hfor⟩ := GetThreadDetailsUseCase.detailCommentOf_ok replies c dc0 h0 hr
    obtain ⟨ds, hds, hall⟩ := ih (fun x hx => hc x (List.mem_cons_of_mem _ hx))
    refine ⟨{ dc0 with replies := rs } :: ds, ?_, ?_⟩
    · simp only [mapThrow, hrs, hds]
    · exact List.Forall₂.cons ⟨dc0, h0, rfl, rfl, rfl, rfl, hfor⟩ hall

/-- Two lists related elementwise have equal images under maps the relation equates. -/
theorem forall₂_map_eq {α β γ : Type} {R : α → β → Prop} (f : α → γ) (g : β → γ)
    (h : ∀ a b, R a b → f a = g b) {l1 : List α} {l2 : List β} (hall : List.Forall₂ R l1 l2) :
    l1.map f = l2.map g := by
  induction hall with
  | nil => rfl
  | cons hab _ ih => simp only [List.map_cons, h _ _ hab, ih]

/-- Every element of the right list of two lists related elementwise has a partner. -/
theorem forall₂_exists_left {α β : Type} {R : α → β → Prop} {l1 : List α} {l2 : List β}
    (hall : List.Forall₂ R l1 l2) : ∀ b ∈ l2, ∃ a ∈ l1, R a b := by
  induction hall with
  | nil => intro b hb; exact absurd hb (List.not_mem_nil b)
  | @cons a b as bs hab _ ih =>
    intro x hx
    rcases List.mem_cons.mp hx with rfl | hx
    · exact ⟨a, List.mem_cons_self _ _, hab⟩
    · obtain ⟨y, hy, hr⟩ := ih x hx
      exact ⟨y, List.mem_cons_of_mem _ hy, hr⟩

/-- The run of the thread-detail use case when the thread is found and has no comment. -/
theorem GetThreadDetailsUseCase.execute_of_no_comments (uc : GetThreadDetailsUseCase σ)
    (verify : ThreadPayload → Except Err Unit) (threadId : String) (s s1 s2 s3 : σ)
    (thread : ThreadPayload)
    (h1 : uc.threadRepository.verifyAvailableThread threadId s = (Except.ok (), s1))
    (h2 : uc.threadRepository.getThreadById threadId s1 = (Except.ok thread, s2))
    (h3 : uc.commentRepository.getCommentsByThreadId threadId s2 = (Except.ok [], s3))
    (h4 : verify thread = Except.ok ()) :
    uc.execute verify threadId s =
      { result := Except.ok
          { id := thread.id, title := thread.title, body := thread.body, date := thread.date,
            username := thread.username, comments := [] }
        state := s3
        calls := [Call.verifyAvailableThread threadId, Call.getThreadById threadId,
          Call.getCommentsByThreadId threadId] } := by
  simp [GetThreadDetailsUseCase.execute, bind, Run.andThen, Run.call, Run.eval, pure,
    DetailThread.new, h1, h2, h3, h4]

/-- Every record of `mockComments` is one `DetailComment` accepts. -/
theorem mockComments_valid : ∀ c ∈ mockComments, ∃ dc, DetailComment.new c = Except.ok dc := by
  intro c hc
  simp only [mockComments, List.mem_cons, List.mem_singleton, List.not_mem_nil, or_false] at hc
  rcases hc with rfl | rfl
  · exact ⟨_, rfl⟩
  · exact ⟨_, rfl⟩

/-- Every record of `mockReplies` is one `DetailReply` accepts. -/
theorem mockReplies_valid : ∀ r ∈ mockReplies, ∃ dr, DetailReply.new r = Except.ok dr := by
  intro r hr
  simp only [mockReplies, List.mem_cons, List.mem_singleton, List.not_mem_nil, or_false] at hr
  rcases hr with rfl | rfl
  · exact ⟨_, rfl⟩
  · exact ⟨_, rfl⟩

/-- Claim C4: when the thread is found, the collaborators return a thread record the
`DetailThread` guard accepts, a non-empty list of comment records `DetailComment` accepts
and a list of reply records `DetailReply` accepts, `GetThreadDetailsUseCase.execute` returns
the `DetailThread` of the thread record whose comments correspond one to one, in order, to
the fetched comments: each is the `DetailComment` projection of its comment, and its replies
are the `DetailReply` projections, in fetch order, of exactly the fetched replies whose
`comment_id` equals the comment's id. The deletion flag of the comment plays no part. -/
theorem getThreadDetails_nests_replies (uc : GetThreadDetailsUseCase σ)
    (verify : ThreadPayload → Except Err Unit) (threadId : String) (s s1 s2 s3 s4 : σ)
    (thread : ThreadPayload) (comments : List CommentPayload) (replies : List ReplyPayload)
    (h1 : uc.threadRepository.verifyAvailableThread threadId s = (Except.ok (), s1))
    (h2 : uc.threadRepository.getThreadById threadId s1 = (Except.ok thread, s2))
    (h3 : uc.commentRepository.getCommentsByThreadId threadId s2 = (Except.ok comments, s3))
    (h4 : verify thread = Except.ok ())
    (hne : comments ≠ [])
    (h5 : uc.replyRepository.getRepliesByCommentIds (comments.map (fun c => c.id)) s3
      = (Except.ok replies, s4))
    (hc : ∀ c ∈ comments, ∃ dc, DetailComment.new c = Except.ok dc)
    (hr : ∀ r ∈ replies, ∃ dr, DetailReply.new r = Except.ok dr) :
    ∃ detailComments,
      (uc.execute verify threadId s).result =
        Except.ok
          { id := thread.id, title := thread.title, body := thread.body, date := thread.date,
            username := thread.username, comments := detailComments } ∧
      detailComments.length = comments.length ∧
      List.Forall₂
        (fun c dc => ∃ dc0, DetailComment.new c = Except.ok dc0 ∧
          dc.id = dc0.id ∧ dc.username = dc0.username ∧ dc.date = dc0.date ∧
          dc.content = dc0.content ∧
          List.Forall₂ (fun r dr => DetailReply.new r = Except.ok dr)
            (replies.filter (fun r => decide (r.comment_id = c.id))) dc.replies)
        comments detailComments := by
  obtain ⟨dcs, hdcs, hall⟩ := GetThreadDetailsUseCase.detailComments_ok replies comments hc hr
  refine ⟨dcs, ?_, hall.length_eq.symm, hall⟩
  rw [GetThreadDetailsUseCase.execute_of_comments uc verify threadId s s1 s2 s3 s4 thread
    comments replies dcs h1 h2 h3 h4 hne h5 hdcs]

/-- The theorem for C4 at the mocks of the use case test. -/
theorem getThreadDetails_nests_replies_witness :
    ∃ detailComments,
      ((mockUseCase mockComments).execute (fun _ => Except.ok ()) "thread-123" ()).result =
        Except.ok
          { id := mockThread.id, title := mockThread.title, body := mockThread.body,
            date := mockThread.date, username := mockThread.username,
            comments := detailComments } ∧
      detailComments.length = mockComments.length ∧
      List.Forall₂
        (fun c dc => ∃ dc0, DetailComment.new c = Except.ok dc0 ∧
          dc.id = dc0.id ∧ dc.username = dc0.username ∧ dc.date = dc0.date ∧
          dc.content = dc0.content ∧
          List.Forall₂ (fun r dr => DetailReply.new r = Except.ok dr)
            (mockReplies.filter (fun r => decide (r.comment_id = c.id))) dc.replies)
        mockComments detailComments :=
  getThreadDetails_nests_replies (mockUseCase mockComments) (fun _ => Except.ok ()) "thread-123"
    () () () () () mockThread mockComments mockReplies rfl rfl rfl rfl (by simp [mockComments])
    rfl mockComments_valid mockReplies_valid

/-- Claim C7: when `verifyAvailableThread(threadId)` fails with an error,
`GetThreadDetailsUseCase.execute` fails with that same error, so it returns no
`DetailThread`, and `verifyAvailableThread` is the only call it has made: none of
`getThreadById`, `getCommentsByThreadId` and `getRepliesByCommentIds` is called. -/
theorem getThreadDetails_verify_fails (uc : GetThreadDetailsUseCase σ)
    (verify : ThreadPayload → Except Err Unit) (threadId : String) (s : σ) (e : Err)
    (h : (uc.threadRepository.verifyAvailableThread threadId s).1 = Except.error e) :
    (uc.execute verify threadId s).result = Except.error e ∧
      (uc.execute verify threadId s).calls = [Call.verifyAvailableThread threadId] ∧
      (uc.execute verify threadId s).state
        = (uc.threadRepository.verifyAvailableThread threadId s).2 := by
  simp [GetThreadDetailsUseCase.execute, bind, Run.andThen, Run.call, h]

/-- The theorem for C7 at a thread repository that finds no thread. -/
theorem getThreadDetails_verify_fails_witness :
    (GetThreadDetailsUseCase.execute
        { threadRepository := missingThreadRepository
          commentRepository := mockCommentRepository mockComments
          replyRepository := mockReplyRepository }
        (fun _ => Except.ok ()) "thread-xxx" ()).result =
        Except.error (Err.NotFoundError "thread tidak ditemukan") ∧
      (GetThreadDetailsUseCase.execute
        { threadRepository := missingThreadRepository
          commentRepository := mockCommentRepository mockComments
          replyRepository := mockReplyRepository }
        (fun _ => Except.ok ()) "thread-xxx" ()).calls =
        [Call.verifyAvailableThread "thread-xxx"] :=
  have h := getThreadDetails_verify_fails
    { threadRepository := missingThreadRepository
      commentRepository := mockCommentRepository mockComments
      replyRepository := mockReplyRepository }
    (fun _ => Except.ok ()) "thread-xxx" () (Err.NotFoundError "thread tidak ditemukan") rfl
  ⟨h.1, h.2.1⟩

/-- Claim C8: when the thread is found, `getThreadById` returns a record the `DetailThread`
guard accepts and `getCommentsByThreadId` returns the empty list,
`GetThreadDetailsUseCase.execute` returns the `DetailThread` of the thread record with no
comments, after the three calls `verifyAvailableThread`, `getThreadById` and
`getCommentsByThreadId`: `getRepliesByCommentIds` is not called, with any argument. -/
theorem getThreadDetails_no_comments (uc : GetThreadDetailsUseCase σ)
    (verify : ThreadPayload → Except Err Unit) (threadId : String) (s s1 s2 s3 : σ)
    (thread : ThreadPayload)
    (h1 : uc.threadRepository.verifyAvailableThread threadId s = (Except.ok (), s1))
    (h2 : uc.threadRepository.getThreadById threadId s1 = (Except.ok thread, s2))
    (h3 : uc.commentRepository.getCommentsByThreadId threadId s2 = (Except.ok [], s3))
    (h4 : verify thread = Except.ok ()) :
    (uc.execute verify threadId s).result =
        Except.ok
          { id := thread.id, title := thread.title, body := thread.body, date := thread.date,
            username := thread.username, comments := [] } ∧
      (uc.execute verify threadId s).calls =
        [Call.verifyAvailableThread threadId, Call.getThreadById threadId,
          Call.getCommentsByThreadId threadId] ∧
      (∀ ids, Call.getRepliesByCommentIds ids ∉ (uc.execute verify threadId s).calls) ∧
      (uc.execute verify threadId s).state = s3 := by
  rw [GetThreadDetailsUseCase.execute_of_no_comments uc verify threadId s s1 s2 s3 thread
    h1 h2 h3 h4]
  simp

/-- The theorem for C8 at the mocks of the use case test, with no comment fetched. -/
theorem getThreadDetails_no_comments_witness :
    ((mockUseCase []).execute (fun _ => Except.ok ()) "thread-123" ()).result =
        Except.ok
          { id := mockThread.id, title := mockThread.title, body := mockThread.body,
            date := mockThread.date, username := mockThread.username, comments := [] } ∧
      ∀ ids, Call.getRepliesByCommentIds ids ∉
        ((mockUseCase []).execute (fun _ => Except.ok ()) "thread-123" ()).calls :=
  have h := getThreadDetails_no_comments (mockUseCase []) (fun _ => Except.ok ()) "thread-123"
    () () () () mockThread rfl rfl rfl rfl
  ⟨h.1, h.2.2.1⟩

/-- Claim C9: when the thread is found and the fetched records are accepted by their
entities, if the fetched comments and the fetched replies are each non-decreasing by date,
then `GetThreadDetailsUseCase.execute` returns a `DetailThread` whose comments are
non-decreasing by date and in which the replies of every comment are non-decreasing by date.
No record is moved: the comments are the fetched comments, id by id and date by date in the
same order, and the replies of a comment are a subsequence of the fetched replies, so
records with equal dates keep their input order. -/
theorem getThreadDetails_keeps_date_order (uc : GetThreadDetailsUseCase σ)
    (verify : ThreadPayload → Except Err Unit) (threadId : String) (s s1 s2 s3 s4 : σ)
    (thread : ThreadPayload) (comments : List CommentPayload) (replies : List ReplyPayload)
    (h1 : uc.threadRepository.verifyAvailableThread threadId s = (Except.ok (), s1))
    (h2 : uc.threadRepository.getThreadById threadId s1 = (Except.ok thread, s2))
    (h3 : uc.commentRepository.getCommentsByThreadId threadId s2 = (Except.ok comments, s3))
    (h4 : verify thread = Except.ok ())
    (h5 : uc.replyRepository.getRepliesByCommentIds (comments.map (fun c => c.id)) s3
      = (Except.ok replies, s4))
    (hc : ∀ c ∈ comments, ∃ dc, DetailComment.new c = Except.ok dc)
    (hr : ∀ r ∈ replies, ∃ dr, DetailReply.new r = Except.ok dr)
    (hcs : comments.Pairwise (fun a b => JsVal.dateLe a.date b.date))
    (hrs : replies.Pairwise (fun a b => JsVal.dateLe a.date b.date)) :
    ∃ detailThread,
      (uc.execute verify threadId s).result = Except.ok detailThread ∧
      detailThread.comments.Pairwise (fun a b => JsVal.dateLe a.date b.date) ∧
      (∀ dc ∈ detailThread.comments,
        dc.replies.Pairwise (fun a b => JsVal.dateLe a.date b.date)) ∧
      detailThread.comments.map (fun dc => (dc.id, dc.date))
        = comments.map (fun c => (c.id, c.date)) ∧
      (∀ dc ∈ detailThread.comments,
        List.Sublist (dc.replies.map (fun dr => (dr.id, dr.date)))
          (replies.map (fun r => (r.id, r.date)))) := by
  by_cases hne : comments = []
  · subst hne
    refine ⟨{ id := thread.id, title := thread.title, body := thread.body, date := thread.date,
              username := thread.username, comments := [] }, ?_, ?_⟩
    · rw [GetThreadDetailsUseCase.execute_of_no_comments uc verify threadId s s1 s2 s3 thread
        h1 h2 h3 h4]
    · simp
  · obtain ⟨dcs, hdcs, hall⟩ := GetThreadDetailsUseCase.detailComments_ok replies comments hc hr
    refine ⟨{ id := thread.id, title := thread.title, body := thread.body, date := thread.date,
              username := thread.username, comments := dcs }, ?_, ?_⟩
    · rw [GetThreadDetailsUseCase.execute_of_comments uc verify threadId s s1 s2 s3 s4 thread
        comments replies dcs h1 h2 h3 h4 hne h5 hdcs]
    · have hkeys : comments.map (fun c => (c.id, c.date)) = dcs.map (fun dc => (dc.id, dc.date)) := by
        refine forall₂_map_eq _ _ ?_ hall
        rintro c dc ⟨dc0, h0, hid, -, hdate, -, -⟩
        obtain ⟨hid0, -, hdate0, -, -⟩ := detailComment_new_ok_fields c dc0 h0
        simp only [hid, hdate, hid0, hdate0]
      have hreplies : ∀ dc ∈ dcs, ∃ c ∈ comments,
          (replies.filter (fun r => decide (r.comment_id = c.id))).map (fun r => (r.id, r.date))
            = dc.replies.map (fun dr => (dr.id, dr.date)) := by
        intro dc hdc
        obtain ⟨c, hcmem, dc0, -, -, -, -, -, hfor⟩ := forall₂_exists_left hall dc hdc
        refine ⟨c, hcmem, forall₂_map_eq _ _ ?_ hfor⟩
        intro r dr hnew
        obtain ⟨hid, hdate, -⟩ := detailReply_new_ok_fields r dr hnew
        simp only [hid, hdate]
      have hsub : ∀ dc ∈ dcs, List.Sublist (dc.replies.map (fun dr => (dr.id, dr.date)))
          (replies.map (fun r => (r.id, r.date))) := by
        intro dc hdc
        obtain ⟨c, -, heq⟩ := hreplies dc hdc
        rw [← heq]
        exact (List.filter_sublist replies).map _
      have hpw : ∀ {α : Type} (key : α → JsVal × JsVal) (l : List α),
          l.Pairwise (fun a b => JsVal.dateLe (key a).2 (key b).2) ↔
            (l.map key).Pairwise (fun a b => JsVal.dateLe a.2 b.2) := by
        intro α key l
        rw [List.pairwise_map]
      refine ⟨?_, ?_, hkeys.symm, hsub⟩
      · have := (hpw (fun c : CommentPayload => (c.id, c.date)) comments).mp hcs
        rw [hkeys] at this
        exact (hpw (fun dc : DetailComment => (dc.id, dc.date)) dcs).mpr this
      · intro dc hdc
        have := (hpw (fun r : ReplyPayload => (r.id, r.date)) replies).mp hrs
        exact (hpw (fun dr : DetailReply => (dr.id, dr.date)) dc.replies).mpr
          (this.sublist (hsub dc hdc))

/-- The theorem for C9 at the mocks of the use case test, whose comments and replies are
in date order. -/
theorem getThreadDetails_keeps_date_order_witness :
    ∃ detailThread,
      ((mockUseCase mockComments).execute (fun _ => Except.ok ()) "thread-123" ()).result
        = Except.ok detailThread ∧
      detailThread.comments.Pairwise (fun a b => JsVal.dateLe a.date b.date) ∧
      ∀ dc ∈ detailThread.comments,
        dc.replies.Pairwise (fun a b => JsVal.dateLe a.date b.date) :=
  have h := getThreadDetails_keeps_date_order (mockUseCase mockComments)
    (fun _ => Except.ok ()) "thread-123" () () () () () mockThread mockComments mockReplies
    rfl rfl rfl rfl rfl mockComments_valid mockReplies_valid
    (by simp [mockComments, JsVal.dateLe]) (by simp [mockReplies, JsVal.dateLe])
  h.elim (fun dt hdt => ⟨dt, hdt.1, hdt.2.1, hdt.2.2.1⟩)

end Aggregator

/-! ## The `DetailComment` entity -/

/-- Claim C5, as amended: for every payload with `is_delete = true` whose `id`, `username`
and `content` are non-empty strings, of any length and any characters, and whose `date` is a
`Date`, `new DetailComment(payload)` succeeds and its content is exactly
`**komentar telah dihapus**`. -/
theorem DetailComment.new_deleted (i u c : String) (t : Option Int)
    (hi : i ≠ "") (hu : u ≠ "") (hc : c ≠ "") :
    DetailComment.new
        { id := JsVal.str i, username := JsVal.str u, date := JsVal.date t,
          content := JsVal.str c, is_delete := JsVal.bool true }
      = Except.ok
        { id := JsVal.str i, username := JsVal.str u, date := JsVal.date t,
          content := JsVal.str "**komentar telah dihapus**", replies := [] } := by
  simp [DetailComment.new, DetailComment._verifyPayload, DetailComment.missingProperty,
    DetailComment.wrongType, JsVal.truthy, JsVal.typeof, JsVal.instanceofDate, JsVal.strictEq,
    hi, hu, hc]

/-- The theorem for C5 at the payload of the entity test. -/
theorem DetailComment.new_deleted_witness :
    DetailComment.new (testComment true)
      = Except.ok
        { id := JsVal.str "comment-123", username := JsVal.str "dicoding",
          date := JsVal.date (some 1628407149775),
          content := JsVal.str "**komentar telah dihapus**", replies := [] } :=
  DetailComment.new_deleted "comment-123" "dicoding" "sebuah komentar" (some 1628407149775)
    (by decide) (by decide) (by decide)

/-- Claim C5 as stated fails: a deleted comment whose content is the empty string, with a
non-empty string id and username and a `Date` date, is not constructed; it is rejected with
`DETAIL_COMMENT.NOT_CONTAIN_NEEDED_PROPERTY` by the guard `!content`. -/
theorem DetailComment.new_deleted_empty_content :
    (emptyContentComment true).is_delete = JsVal.bool true ∧
      DetailComment.new (emptyContentComment true)
        = Except.error (Err.Error "DETAIL_COMMENT.NOT_CONTAIN_NEEDED_PROPERTY") ∧
      ¬ ∃ dc, DetailComment.new (emptyContentComment true) = Except.ok dc := by
  refine ⟨rfl, rfl, ?_⟩
  rintro ⟨dc, h⟩
  have herr : DetailComment.new (emptyContentComment true)
      = Except.error (Err.Error "DETAIL_COMMENT.NOT_CONTAIN_NEEDED_PROPERTY") := rfl
  rw [herr] at h
  exact absurd h (by simp)

/-- Claim C6: for every payload with `is_delete = false` that `DetailComment` accepts, the
content, id, username and date of the detail comment are the payload's, unchanged. -/
theorem DetailComment.new_not_deleted (p : CommentPayload) (dc : DetailComment)
    (hd : p.is_delete = JsVal.bool false) (h : DetailComment.new p = Except.ok dc) :
    dc.content = p.content ∧ dc.id = p.id ∧ dc.username = p.username ∧ dc.date = p.date := by
  unfold DetailComment.new at h
  split at h
  · exact absurd h (by simp)
  · simp only [hd, JsVal.truthy, Except.ok.injEq] at h
    subst h
    simp

/-- The theorem for C6 at the payload of the entity test. -/
theorem DetailComment.new_not_deleted_witness :
    DetailComment.new (testComment false)
        = Except.ok
          { id := JsVal.str "comment-123", username := JsVal.str "dicoding",
            date := JsVal.date (some 1628407149775), content := JsVal.str "sebuah komentar",
            replies := [] } ∧
      JsVal.str "sebuah komentar" = (testComment false).content :=
  ⟨rfl, (DetailComment.new_not_deleted (testComment false)
    { id := JsVal.str "comment-123", username := JsVal.str "dicoding",
      date := JsVal.date (some 1628407149775), content := JsVal.str "sebuah komentar",
      replies := [] } rfl rfl).1⟩

/-- Claim C10, as amended: `new DetailComment(payload)` fails with
`DETAIL_COMMENT.NOT_CONTAIN_NEEDED_PROPERTY` exactly when `id`, `username`, `date` or
`content` is falsy (absent, or present with a falsy value such as the empty string) or
`is_delete` is absent; a present `is_delete`, even `false`, does not trigger this error. -/
theorem DetailComment.new_eq_error_missing_iff (p : CommentPayload) :
    DetailComment.new p = Except.error (Err.Error "DETAIL_COMMENT.NOT_CONTAIN_NEEDED_PROPERTY") ↔
      (p.id.truthy = false ∨ p.username.truthy = false ∨ p.date.truthy = false
        ∨ p.content.truthy = false ∨ p.is_delete = JsVal.undefined) := by
  have hu : p.is_delete.strictEq JsVal.undefined = true ↔ p.is_delete = JsVal.undefined := by
    cases p.is_delete <;> simp [JsVal.strictEq]
  have key : DetailComment.missingProperty p = true ↔
      (p.id.truthy = false ∨ p.username.truthy = false ∨ p.date.truthy = false
        ∨ p.content.truthy = false ∨ p.is_delete = JsVal.undefined) := by
    simp only [DetailComment.missingProperty, Bool.or_eq_true, Bool.not_eq_true', hu]
    tauto
  rw [← key]
  unfold DetailComment.new DetailComment._verifyPayload
  cases hm : DetailComment.missingProperty p
  · cases hw : DetailComment.wrongType p <;> simp
  · simp

/-- Claim C10 as stated fails: with all five properties present and `content` the empty
string, `new DetailComment(payload)` fails with `DETAIL_COMMENT.NOT_CONTAIN_NEEDED_PROPERTY`,
so the error does not occur exactly when a property is absent. -/
theorem DetailComment.new_present_empty_content :
    ¬ (DetailComment.new (emptyContentComment false)
          = Except.error (Err.Error "DETAIL_COMMENT.NOT_CONTAIN_NEEDED_PROPERTY") ↔
        ((emptyContentComment false).id = JsVal.undefined
          ∨ (emptyContentComment false).username = JsVal.undefined
          ∨ (emptyContentComment false).date = JsVal.undefined
          ∨ (emptyContentComment false).content = JsVal.undefined
          ∨ (emptyContentComment false).is_delete = JsVal.undefined)) := by
  intro h
  have habs := h.mp rfl
  simp [emptyContentComment] at habs

/-! ## The type check of `DetailComment` -/

/-- Claim C11, as amended: for every payload in which `id`, `username`, `date` and `content`
are truthy and `is_delete` is present, if `id`, `username` or `content` is not a string, or
`date` is not a `Date`, or `is_delete` is not a boolean, then `new DetailComment(payload)`
fails with `DETAIL_COMMENT.NOT_MEET_DATA_TYPE_SPECIFICATION`. -/
theorem DetailComment.new_wrong_type (p : CommentPayload)
    (hid : p.id.truthy = true) (hun : p.username.truthy = true) (hdt : p.date.truthy = true)
    (hct : p.content.truthy = true) (hdel : p.is_delete ≠ JsVal.undefined)
    (hbad : (∀ s, p.id ≠ JsVal.str s) ∨ (∀ s, p.username ≠ JsVal.str s)
      ∨ (∀ s, p.content ≠ JsVal.str s) ∨ (∀ t, p.date ≠ JsVal.date t)
      ∨ (∀ b, p.is_delete ≠ JsVal.bool b)) :
    DetailComment.new p
      = Except.error (Err.Error "DETAIL_COMMENT.NOT_MEET_DATA_TYPE_SPECIFICATION") := by
  have hm : DetailComment.missingProperty p = false := by
    have : p.is_delete.strictEq JsVal.undefined = false := by
      cases h : p.is_delete
      all_goals first | rfl | exact absurd h hdel
    simp [DetailComment.missingProperty, hid, hun, hdt, hct, this]
  have hstr : ∀ v : JsVal, (∀ s, v ≠ JsVal.str s) → (v.typeof != "string") = true := by
    intro v hv
    cases v
    all_goals first | rfl | exact absurd rfl (hv _)
  have hw : DetailComment.wrongType p = true := by
    unfold DetailComment.wrongType
    rcases hbad with h | h | h | h | h
    · simp [hstr _ h]
    · simp [hstr _ h]
    · simp [hstr _ h]
    · have : p.date.instanceofDate = false := by
        cases hd : p.date
        all_goals first | rfl | exact absurd hd (h _)
      simp [this]
    · have : (p.is_delete.typeof != "boolean") = true := by
        cases hd : p.is_delete
        all_goals first | rfl | exact absurd hd (h _)
      simp [this]
  simp [DetailComment.new, DetailComment._verifyPayload, hm, hw]

/-- The theorem for C11 at the payload of the entity test, whose `id` is the number 123. -/
theorem DetailComment.new_wrong_type_witness :
    DetailComment.new { zeroIdComment with id := JsVal.num 123 }
      = Except.error (Err.Error "DETAIL_COMMENT.NOT_MEET_DATA_TYPE_SPECIFICATION") :=
  DetailComment.new_wrong_type { zeroIdComment with id := JsVal.num 123 } rfl rfl rfl rfl
    (by simp [zeroIdComment]) (Or.inl (by simp))

/-- Claim C11 as stated fails: with all five properties present and `id` the number 0, which
is not a string, `new DetailComment(payload)` does not fail with
`DETAIL_COMMENT.NOT_MEET_DATA_TYPE_SPECIFICATION`: the first guard answers `!id` with
`DETAIL_COMMENT.NOT_CONTAIN_NEEDED_PROPERTY`. -/
theorem DetailComment.new_falsy_wrong_type :
    zeroIdComment.id ≠ JsVal.undefined ∧ zeroIdComment.username ≠ JsVal.undefined ∧
      zeroIdComment.date ≠ JsVal.undefined ∧ zeroIdComment.content ≠ JsVal.undefined ∧
      zeroIdComment.is_delete ≠ JsVal.undefined ∧
      (∀ s, zeroIdComment.id ≠ JsVal.str s) ∧
      DetailComment.new zeroIdComment
        ≠ Except.error (Err.Error "DETAIL_COMMENT.NOT_MEET_DATA_TYPE_SPECIFICATION") ∧
      DetailComment.new zeroIdComment
        = Except.error (Err.Error "DETAIL_COMMENT.NOT_CONTAIN_NEEDED_PROPERTY") := by
  refine ⟨by simp [zeroIdComment], by simp [zeroIdComment], by simp [zeroIdComment],
    by simp [zeroIdComment], by simp [zeroIdComment], by simp [zeroIdComment], ?_, rfl⟩
  have h : DetailComment.new zeroIdComment
      = Except.error (Err.Error "DETAIL_COMMENT.NOT_CONTAIN_NEEDED_PROPERTY") := rfl
  rw [h]
  simp

/-! ## The comment repository -/

/-- Claim C13: `deleteComment(commentId)` resolves and writes only the flag: the tables
`users`, `threads` and `replies` and the number of comment rows are unchanged, every comment
row keeps its `id`, `content`, `owner`, `thread_id` and `date`, a row with that id has
`is_delete = true` afterwards and every other row is unchanged. -/
theorem deleteComment_frame (commentId : String) (s : Store) :
    (CommentRepositoryPostgres.deleteComment commentId s).1 = Except.ok () ∧
      (CommentRepositoryPostgres.deleteComment commentId s).2.users = s.users ∧
      (CommentRepositoryPostgres.deleteComment commentId s).2.threads = s.threads ∧
      (CommentRepositoryPostgres.deleteComment commentId s).2.replies = s.replies ∧
      (CommentRepositoryPostgres.deleteComment commentId s).2.comments.length
        = s.comments.length ∧
      List.Forall₂
        (fun c c2 => c2.id = c.id ∧ c2.content = c.content ∧ c2.owner = c.owner ∧
          c2.thread_id = c.thread_id ∧ c2.date = c.date ∧
          (c.id = commentId → c2.is_delete = true) ∧ (c.id ≠ commentId → c2 = c))
        s.comments (CommentRepositoryPostgres.deleteComment commentId s).2.comments := by
  refine ⟨rfl, rfl, rfl, rfl, ?_, ?_⟩
  · simp [CommentRepositoryPostgres.deleteComment]
  · rw [CommentRepositoryPostgres.deleteComment_comments]
    induction s.comments with
    | nil => exact List.Forall₂.nil
    | cons c cs ih =>
      refine List.Forall₂.cons ?_ ih
      by_cases h : c.id = commentId
      · simp [h]
      · simp [h]

/-- Claim C16: `verifyAvailableCommentInThread(commentId, threadId)` succeeds if and only if
the table `comments` holds a row with that id, that `thread_id` and `is_delete = false`;
otherwise, whether no row has the id, the row is in another thread or it is deleted, it
fails with the NotFoundError `komentar tidak ditemukan di thread ini`. It reads only. -/
theorem verifyAvailableCommentInThread_spec (commentId threadId : String) (s : Store) :
    ((CommentRepositoryPostgres.verifyAvailableCommentInThread commentId threadId s).1
        = Except.ok () ↔
      ∃ c ∈ s.comments, c.id = commentId ∧ c.thread_id = threadId ∧ c.is_delete = false) ∧
    ((¬ ∃ c ∈ s.comments, c.id = commentId ∧ c.thread_id = threadId ∧ c.is_delete = false) →
      (CommentRepositoryPostgres.verifyAvailableCommentInThread commentId threadId s).1
        = Except.error (Err.NotFoundError "komentar tidak ditemukan di thread ini")) ∧
    (CommentRepositoryPostgres.verifyAvailableCommentInThread commentId threadId s).2 = s := by
  refine ⟨CommentRepositoryPostgres.verifyAvailableCommentInThread_ok_iff commentId threadId s,
    ?_, CommentRepositoryPostgres.verifyAvailableCommentInThread_state commentId threadId s⟩
  intro h
  apply CommentRepositoryPostgres.verifyAvailableCommentInThread_error
  intro c hc hall
  exact h ⟨c, hc, hall⟩

/-- Rows of a table keyed by id are equal when their ids are. -/
theorem eq_of_id_eq_of_nodup {l : List CommentRow} (hkey : (l.map (fun c => c.id)).Nodup)
    {a b : CommentRow} (ha : a ∈ l) (hb : b ∈ l) (h : a.id = b.id) : a = b :=
  List.inj_on_of_nodup_map hkey ha hb h

/-- Claim C17: on a table `comments` keyed by `id`, `verifyCommentOwner(commentId, owner)`
fails with the NotFoundError `komentar tidak ditemukan` if and only if no row has that id,
fails with AuthorizationError if and only if the row with that id has another owner, and
succeeds if and only if the row with that id has the given owner. It reads only. -/
theorem verifyCommentOwner_spec (commentId owner : String) (s : Store)
    (hkey : (s.comments.map (fun c => c.id)).Nodup) :
    ((CommentRepositoryPostgres.verifyCommentOwner commentId owner s).1
        = Except.error (Err.NotFoundError "komentar tidak ditemukan") ↔
      ¬ ∃ c ∈ s.comments, c.id = commentId) ∧
    ((CommentRepositoryPostgres.verifyCommentOwner commentId owner s).1
        = Except.error (Err.AuthorizationError "anda tidak berhak mengakses resource ini") ↔
      ∃ c ∈ s.comments, c.id = commentId ∧ c.owner ≠ owner) ∧
    ((CommentRepositoryPostgres.verifyCommentOwner commentId owner s).1 = Except.ok () ↔
      ∃ c ∈ s.comments, c.id = commentId ∧ c.owner = owner) ∧
    (CommentRepositoryPostgres.verifyCommentOwner commentId owner s).2 = s := by
  refine ⟨?_, ?_, ?_, CommentRepositoryPostgres.verifyCommentOwner_state commentId owner s⟩
  all_goals
    unfold CommentRepositoryPostgres.verifyCommentOwner
    split
    · rename_i hnil
      have hnone : ¬ ∃ c ∈ s.comments, c.id = commentId := by
        rintro ⟨c, hc, hid⟩
        have : c ∈ s.comments.filter (fun c => c.id = commentId) := by
          simp [List.mem_filter, hc, hid]
        rw [hnil] at this
        exact absurd this (List.not_mem_nil c)
      first
        | exact ⟨fun _ => hnone, fun _ => rfl⟩
        | exact ⟨fun h => absurd h (by simp), fun ⟨c, hc, hid, _⟩ => absurd ⟨c, hc, hid⟩ hnone⟩
    · rename_i comment rest hcons
      have hm : comment ∈ s.comments.filter (fun c => c.id = commentId) := by
        rw [hcons]; exact List.mem_cons_self _ _
      simp only [List.mem_filter, decide_eq_true_eq] at hm
      have huniq : ∀ c ∈ s.comments, c.id = commentId → c = comment := fun c hc hid =>
        eq_of_id_eq_of_nodup hkey hc hm.1 (hid.trans hm.2.symm)
      by_cases ho : comment.owner = owner
      · rw [if_neg (not_not.mpr ho)]
        first
          | exact ⟨fun h => absurd h (by simp), fun h => absurd ⟨comment, hm.1, hm.2⟩ h⟩
          | exact ⟨fun h => absurd h (by simp), fun ⟨c, hc, hid, hne⟩ =>
              absurd (huniq c hc hid ▸ ho) hne⟩
          | exact ⟨fun _ => ⟨comment, hm.1, hm.2, ho⟩, fun _ => rfl⟩
      · rw [if_pos ho]
        first
          | exact ⟨fun h => absurd h (by simp), fun h => absurd ⟨comment, hm.1, hm.2⟩ h⟩
          | exact ⟨fun _ => ⟨comment, hm.1, hm.2, ho⟩, fun _ => rfl⟩
          | exact ⟨fun h => absurd h (by simp), fun ⟨c, hc, hid, heq⟩ =>
              absurd (huniq c hc hid ▸ heq) ho⟩

/-- The theorem for C17 at the database of the thread-detail HTTP test: the first user is
refused on the comment of the second. -/
theorem verifyCommentOwner_spec_witness :
    (CommentRepositoryPostgres.verifyCommentOwner "comment-123" "user-A" threadStore).1
      = Except.error (Err.AuthorizationError "anda tidak berhak mengakses resource ini") :=
  (verifyCommentOwner_spec "comment-123" "user-A" threadStore (by decide)).2.1.mpr
    ⟨_, List.mem_cons_self _ _, rfl, by decide⟩

/-- The join of a table with `users` on the owner, restricted by a condition on the row: when
every row that meets the condition has exactly one user row, the rows of the join are the
rows of the table that meet the condition, in table order. -/
theorem join_users_filter_fst {ρ : Type} (owner : ρ → String) (P : ρ → Bool)
    (users : List UserRow) (rows : List ρ)
    (h : ∀ r ∈ rows, P r = true → ∃ u, users.filter (fun u => owner r = u.id) = [u]) :
    ((rows.flatMap (fun r => (users.filter (fun u => owner r = u.id)).map
        (fun u => (r, u)))).filter (fun ru => P ru.1)).map Prod.fst = rows.filter P := by
  induction rows with
  | nil => rfl
  | cons r rs ih =>
    have ih2 := ih (fun x hx => h x (List.mem_cons_of_mem _ hx))
    simp only [List.flatMap_cons, List.filter_append, List.map_append, ih2]
    cases hP : P r
    · have : (List.map (fun u => (r, u)) (users.filter (fun u => owner r = u.id))).filter
          (fun ru => P ru.1) = [] := by
        simp only [List.filter_eq_nil_iff, List.mem_map, List.mem_filter, decide_eq_true_eq]
        rintro ⟨a, b⟩ ⟨x, -, hx⟩
        simp only [Prod.mk.injEq] at hx
        rw [← hx.1, hP]
        simp
      simp [this, hP]
    · obtain ⟨u, hu⟩ := h r (List.mem_cons_self _ _) hP
      simp [hu, hP]

/-- Membership in the join of a table with `users` on the owner. -/
theorem mem_join_users {ρ : Type} (owner : ρ → String) (users : List UserRow) (rows : List ρ)
    (r : ρ) (u : UserRow) :
    (r, u) ∈ rows.flatMap (fun r => (users.filter (fun u => owner r = u.id)).map
        (fun u => (r, u))) ↔ r ∈ rows ∧ u ∈ users ∧ u.id = owner r := by
  simp only [List.mem_flatMap, List.mem_map, List.mem_filter, decide_eq_true_eq, Prod.mk.injEq]
  constructor
  · rintro ⟨r2, hr2, u2, ⟨hu2, hid⟩, rfl, rfl⟩
    exact ⟨hr2, hu2, hid.symm⟩
  · rintro ⟨hr, hu, hid⟩
    exact ⟨r, hr, u, ⟨hu, hid.symm⟩, rfl, rfl⟩

/-- Rows paired with users are totally ordered by the date of the row. -/
instance dateOrderTotal {ρ υ : Type} (date : ρ → Int) :
    IsTotal (ρ × υ) (fun a b => date a.1 ≤ date b.1) :=
  ⟨fun a b => le_total (date a.1) (date b.1)⟩

/-- The order of rows paired with users by the date of the row is transitive. -/
instance dateOrderTrans {ρ υ : Type} (date : ρ → Int) :
    IsTrans (ρ × υ) (fun a b => date a.1 ≤ date b.1) :=
  ⟨fun _ _ _ hab hbc => le_trans hab hbc⟩

/-- Claim C18: `getCommentsByThreadId(threadId)` resolves, reads only, and returns one row
for every comment of the thread and user row of its owner, and nothing else: the row carries
the comment's `id`, `date`, stored `content` and `is_delete` flag, deleted or not, and the
owner's `username`. The rows are in ascending order of date, the list is empty when the
thread has no comment, and when every comment of the thread has exactly one user row as its
owner, the rows are exactly the comments of the thread, each once. -/
theorem getCommentsByThreadId_spec (threadId : String) (s : Store) :
    ∃ rows, CommentRepositoryPostgres.getCommentsByThreadId threadId s = (Except.ok rows, s) ∧
      (∀ p, p ∈ rows ↔ ∃ c ∈ s.comments, ∃ u ∈ s.users, c.thread_id = threadId ∧
        u.id = c.owner ∧
        p = { id := JsVal.str c.id, username := JsVal.str u.username,
              date := JsVal.date (some c.date), content := JsVal.str c.content,
              is_delete := JsVal.bool c.is_delete }) ∧
      rows.Pairwise (fun a b => JsVal.dateLe a.date b.date) ∧
      ((∀ c ∈ s.comments, c.thread_id ≠ threadId) → rows = []) ∧
      ((∀ c ∈ s.comments, c.thread_id = threadId →
          ∃ u, s.users.filter (fun u => c.owner = u.id) = [u]) →
        (rows.map (fun p => p.id)).Perm
          ((s.comments.filter (fun c => c.thread_id = threadId)).map
            (fun c => JsVal.str c.id))) := by
  refine ⟨_, rfl, ?_, ?_, ?_, ?_⟩
  · intro p
    simp only [List.mem_map, List.mem_insertionSort, List.mem_filter, decide_eq_true_eq,
      Prod.exists, mem_join_users (fun c : CommentRow => c.owner)]
    constructor
    · rintro ⟨c, u, ⟨⟨hc, hu, hid⟩, hth⟩, rfl⟩
      exact ⟨c, hc, u, hu, hth, hid, rfl⟩
    · rintro ⟨c, hc, u, hu, hth, hid, rfl⟩
      exact ⟨c, u, ⟨⟨hc, hu, hid⟩, hth⟩, rfl⟩
  · rw [List.pairwise_map]
    exact List.sorted_insertionSort (fun a b : CommentRow × UserRow => a.1.date ≤ b.1.date) _
  · intro h
    have : (s.comments.flatMap (fun c => (s.users.filter (fun u => c.owner = u.id)).map
        (fun u => (c, u)))).filter (fun cu => cu.1.thread_id = threadId) = [] := by
      rw [List.filter_eq_nil_iff]
      rintro ⟨c, u⟩ hmem
      have := ((mem_join_users (fun c : CommentRow => c.owner) s.users s.comments c u).mp hmem).1
      simpa using h c this
    simp only [this, List.insertionSort, List.map_nil]
  · intro h
    have hfst := join_users_filter_fst (fun c : CommentRow => c.owner)
      (fun c => decide (c.thread_id = threadId)) s.users s.comments
      (fun c hc hP => h c hc (by simpa using hP))
    rw [← hfst, List.map_map, List.map_map]
    exact (List.perm_insertionSort _ _).map _

/-! ## The reply repository -/

/-- The condition `r.comment_id = ANY($1)` when the array holds strings, sent as they are. -/
theorem any_sqlText_str (sqlText : JsVal → Option String)
    (htext : ∀ t, sqlText (JsVal.str t) = some t) (ids : List String) (commentId : String) :
    (ids.map JsVal.str).any (fun v => sqlText v = some commentId) = decide (commentId ∈ ids) := by
  rw [Bool.eq_iff_iff]
  simp only [List.any_eq_true, List.mem_map, decide_eq_true_eq]
  constructor
  · rintro ⟨v, ⟨t, ht, rfl⟩, hv⟩
    rw [htext] at hv
    exact Option.some.inj hv ▸ ht
  · intro h
    exact ⟨JsVal.str commentId, ⟨commentId, h, rfl⟩, htext commentId⟩

/-- Claim C19: for every non-empty list of comment ids, strings the driver sends as they
are, `getRepliesByCommentIds(ids)` resolves, reads only, and returns one row for every reply
whose `comment_id` is a member of `ids` and user row of its owner, and nothing else: the row
carries the reply's `id`, `content`, `date`, `is_delete` flag and `comment_id` and the
owner's `username`. The rows are in ascending order of date across all the comments, and
when every such reply has exactly one user row as its owner, the rows are exactly those
replies, each once. -/
theorem getRepliesByCommentIds_spec (sqlText : JsVal → Option String)
    (htext : ∀ t, sqlText (JsVal.str t) = some t) (ids : List String) (hne : ids ≠ [])
    (s : Store) :
    ∃ rows,
      (ReplyRepositoryPostgres.getRepliesByCommentIds sqlText (ids.map JsVal.str) s).result
        = Except.ok rows ∧
      (ReplyRepositoryPostgres.getRepliesByCommentIds sqlText (ids.map JsVal.str) s).state = s ∧
      (∀ p, p ∈ rows ↔ ∃ r ∈ s.replies, ∃ u ∈ s.users, r.comment_id ∈ ids ∧ u.id = r.owner ∧
        p = { id := JsVal.str r.id, content := JsVal.str r.content,
              date := JsVal.date (some r.date), username := JsVal.str u.username,
              is_delete := JsVal.bool r.is_delete, comment_id := JsVal.str r.comment_id }) ∧
      rows.Pairwise (fun a b => JsVal.dateLe a.date b.date) ∧
      ((∀ r ∈ s.replies, r.comment_id ∈ ids →
          ∃ u, s.users.filter (fun u => r.owner = u.id) = [u]) →
        (rows.map (fun p => p.id)).Perm
          ((s.replies.filter (fun r => decide (r.comment_id ∈ ids))).map
            (fun r => JsVal.str r.id))) := by
  have hlen : (ids.map JsVal.str).length ≠ 0 := by
    rw [List.length_map]
    exact fun h => hne (List.length_eq_zero.mp h)
  have hany : (fun ru : ReplyRow × UserRow =>
      (ids.map JsVal.str).any (fun v => sqlText v = some ru.1.comment_id))
      = (fun ru => decide (ru.1.comment_id ∈ ids)) := by
    funext ru
    exact any_sqlText_str sqlText htext ids ru.1.comment_id
  refine ⟨ReplyRepositoryPostgres.selectRepliesByCommentIds sqlText (ids.map JsVal.str) s,
    ?_, ?_, ?_, ?_, ?_⟩
  · simp only [ReplyRepositoryPostgres.getRepliesByCommentIds, if_neg hlen]
  · simp only [ReplyRepositoryPostgres.getRepliesByCommentIds, if_neg hlen]
  · intro p
    simp only [ReplyRepositoryPostgres.selectRepliesByCommentIds, hany, List.mem_map,
      List.mem_insertionSort, List.mem_filter, decide_eq_true_eq, Prod.exists,
      mem_join_users (fun r : ReplyRow => r.owner)]
    constructor
    · rintro ⟨r, u, ⟨⟨hr, hu, hid⟩, hin⟩, rfl⟩
      exact ⟨r, hr, u, hu, hin, hid, rfl⟩
    · rintro ⟨r, hr, u, hu, hin, hid, rfl⟩
      exact ⟨r, u, ⟨⟨hr, hu, hid⟩, hin⟩, rfl⟩
  · simp only [ReplyRepositoryPostgres.selectRepliesByCommentIds]
    rw [List.pairwise_map]
    exact List.sorted_insertionSort (fun a b : ReplyRow × UserRow => a.1.date ≤ b.1.date) _
  · intro h
    have hfst := join_users_filter_fst (fun r : ReplyRow => r.owner)
      (fun r => decide (r.comment_id ∈ ids)) s.users s.replies
      (fun r hr hP => h r hr (by simpa using hP))
    simp only [ReplyRepositoryPostgres.selectRepliesByCommentIds, hany]
    rw [← hfst, List.map_map, List.map_map]
    exact (List.perm_insertionSort _ _).map _

/-- The theorem for C19 at the database of the thread-detail HTTP test: the replies to the
first comment are fetched. -/
theorem getRepliesByCommentIds_spec_witness :
    ∃ rows,
      (ReplyRepositoryPostgres.getRepliesByCommentIds textOfString
          (["comment-123"].map JsVal.str) threadStore).result = Except.ok rows ∧
      rows.Pairwise (fun a b => JsVal.dateLe a.date b.date) :=
  (getRepliesByCommentIds_spec textOfString (fun _ => rfl) ["comment-123"] (by simp)
    threadStore).elim (fun rows h => ⟨rows, h.1, h.2.2.2.1⟩)

/-- Claim C20: `getRepliesByCommentIds([])` resolves to the empty list, so it raises no
error, sends no statement to the pool and leaves the database as it is. -/
theorem getRepliesByCommentIds_empty (sqlText : JsVal → Option String) (s : Store) :
    (ReplyRepositoryPostgres.getRepliesByCommentIds sqlText [] s).result = Except.ok [] ∧
      (ReplyRepositoryPostgres.getRepliesByCommentIds sqlText [] s).queries = [] ∧
      (ReplyRepositoryPostgres.getRepliesByCommentIds sqlText [] s).state = s :=
  ⟨rfl, rfl, rfl⟩

/-! ## Deleting twice, and the flag over time -/

/-- A run of the delete use case that succeeds has passed the three checks and leaves the
database `deleteComment` leaves. -/
theorem deleteCommentUseCase_execute_ok (p : DeleteCommentPayload) (s : Store)
    (h : (deleteCommentUseCase.execute p s).result = Except.ok ()) :
    (ThreadRepositoryPostgres.verifyAvailableThread p.threadId s).1 = Except.ok () ∧
      (CommentRepositoryPostgres.verifyAvailableCommentInThread p.commentId p.threadId s).1
        = Except.ok () ∧
      (CommentRepositoryPostgres.verifyCommentOwner p.commentId p.owner s).1 = Except.ok () ∧
      (deleteCommentUseCase.execute p s).state
        = (CommentRepositoryPostgres.deleteComment p.commentId s).2 := by
  rw [deleteCommentUseCase_execute] at h ⊢
  cases h1 : (ThreadRepositoryPostgres.verifyAvailableThread p.threadId s).1 with
  | error e => rw [h1] at h; simp at h
  | ok u1 =>
    cases h2 : (CommentRepositoryPostgres.verifyAvailableCommentInThread
      p.commentId p.threadId s).1 with
    | error e => rw [h1, h2] at h; simp at h
    | ok u2 =>
      cases h3 : (CommentRepositoryPostgres.verifyCommentOwner p.commentId p.owner s).1 with
      | error e => rw [h1, h2, h3] at h; simp at h
      | ok u3 => simp

/-- Claim C12: when `DeleteCommentUseCase.execute` succeeds on a database, running it again
with the same payload on the database it left fails with the NotFoundError of
`verifyAvailableCommentInThread`, `komentar tidak ditemukan di thread ini`: the second run
calls `verifyAvailableThread` and `verifyAvailableCommentInThread` and never reaches the
owner check. It leaves the database as it found it, so the comment row is still there and
every row with that id still has `is_delete = true`. -/
theorem delete_twice_not_found (s : Store) (p : DeleteCommentPayload)
    (h : (deleteCommentUseCase.execute p s).result = Except.ok ()) :
    (deleteCommentUseCase.execute p (deleteCommentUseCase.execute p s).state).result
        = Except.error (Err.NotFoundError "komentar tidak ditemukan di thread ini") ∧
      (deleteCommentUseCase.execute p (deleteCommentUseCase.execute p s).state).calls
        = [Call.verifyAvailableThread p.threadId,
            Call.verifyAvailableCommentInThread p.commentId p.threadId] ∧
      (deleteCommentUseCase.execute p (deleteCommentUseCase.execute p s).state).state
        = (deleteCommentUseCase.execute p s).state ∧
      (∃ c ∈ (deleteCommentUseCase.execute p
          (deleteCommentUseCase.execute p s).state).state.comments, c.id = p.commentId) ∧
      ∀ c ∈ (deleteCommentUseCase.execute p
          (deleteCommentUseCase.execute p s).state).state.comments,
        c.id = p.commentId → c.is_delete = true := by
  have hstep := deleteCommentUseCase_execute p s
  -- the first run passed the three checks and wrote the flag
  have hfirst : (ThreadRepositoryPostgres.verifyAvailableThread p.threadId s).1 = Except.ok () ∧
      (CommentRepositoryPostgres.verifyAvailableCommentInThread p.commentId p.threadId s).1
        = Except.ok () ∧
      (deleteCommentUseCase.execute p s).state
        = (CommentRepositoryPostgres.deleteComment p.commentId s).2 := by
    rw [hstep] at h ⊢
    cases h1 : (ThreadRepositoryPostgres.verifyAvailableThread p.threadId s).1 with
    | error e => rw [h1] at h; simp at h
    | ok u1 =>
      cases h2 : (CommentRepositoryPostgres.verifyAvailableCommentInThread
        p.commentId p.threadId s).1 with
      | error e => rw [h1, h2] at h; simp at h
      | ok u2 =>
        cases h3 : (CommentRepositoryPostgres.verifyCommentOwner p.commentId p.owner s).1 with
        | error e => rw [h1, h2, h3] at h; simp at h
        | ok u3 => simp
  obtain ⟨hv1, hv2, hstate⟩ := hfirst
  rw [hstate]
  have hthread : (ThreadRepositoryPostgres.verifyAvailableThread p.threadId
      (CommentRepositoryPostgres.deleteComment p.commentId s).2).1 = Except.ok () := by
    rw [ThreadRepositoryPostgres.verifyAvailableThread_ok_iff]
    exact (ThreadRepositoryPostgres.verifyAvailableThread_ok_iff p.threadId s).mp hv1
  have hflag : ∀ c ∈ (CommentRepositoryPostgres.deleteComment p.commentId s).2.comments,
      c.id = p.commentId → c.is_delete = true := by
    rw [CommentRepositoryPostgres.deleteComment_comments]
    intro c hc hid
    obtain ⟨c1, -, rfl⟩ := List.mem_map.mp hc
    by_cases hc1 : c1.id = p.commentId
    · simp [hc1]
    · rw [if_neg hc1] at hid
      exact absurd hid hc1
  have hcomment : (CommentRepositoryPostgres.verifyAvailableCommentInThread p.commentId
      p.threadId (CommentRepositoryPostgres.deleteComment p.commentId s).2).1
        = Except.error (Err.NotFoundError "komentar tidak ditemukan di thread ini") := by
    apply CommentRepositoryPostgres.verifyAvailableCommentInThread_error
    rintro c hc ⟨hid, -, hdel⟩
    rw [hflag c hc hid] at hdel
    exact absurd hdel (by simp)
  have hexists : ∃ c ∈ (CommentRepositoryPostgres.deleteComment p.commentId s).2.comments,
      c.id = p.commentId := by
    obtain ⟨c, hc, hid, -, -⟩ :=
      (CommentRepositoryPostgres.verifyAvailableCommentInThread_ok_iff
        p.commentId p.threadId s).mp hv2
    rw [CommentRepositoryPostgres.deleteComment_comments]
    exact ⟨{ c with is_delete := true }, List.mem_map.mpr ⟨c, hc, by simp [hid]⟩, hid⟩
  rw [deleteCommentUseCase_execute, hthread, hcomment]
  exact ⟨rfl, rfl, rfl, hexists, hflag⟩

/-- The theorem for C12 at the database of the HTTP test: the owner deletes the comment
twice. -/
theorem delete_twice_not_found_witness :
    (deleteCommentUseCase.execute
        { threadId := "thread-123", commentId := "comment-123", owner := "user-A" }
        (deleteCommentUseCase.execute
          { threadId := "thread-123", commentId := "comment-123", owner := "user-A" }
          exampleStore).state).result
      = Except.error (Err.NotFoundError "komentar tidak ditemukan di thread ini") :=
  (delete_twice_not_found exampleStore
    { threadId := "thread-123", commentId := "comment-123", owner := "user-A" } rfl).1

section Monotone

variable {α β : Type}

/-- The check `verifyAvailableReplyInComment` leaves the database as it is. -/
theorem ReplyRepositoryPostgres.verifyAvailableReplyInComment_state
    (replyId commentId : String) (s : Store) :
    (ReplyRepositoryPostgres.verifyAvailableReplyInComment replyId commentId s).2 = s := by
  unfold ReplyRepositoryPostgres.verifyAvailableReplyInComment
  simp only
  split <;> rfl

/-- The check `verifyReplyOwner` leaves the database as it is. -/
theorem ReplyRepositoryPostgres.verifyReplyOwner_state (replyId owner : String) (s : Store) :
    (ReplyRepositoryPostgres.verifyReplyOwner replyId owner s).2 = s := by
  unfold ReplyRepositoryPostgres.verifyReplyOwner
  split
  · rfl
  · split <;> rfl

/-- The method `getRepliesByCommentIds` leaves the database as it is. -/
theorem ReplyRepositoryPostgres.getRepliesByCommentIds_state
    (sqlText : JsVal → Option String) (commentIds : List JsVal) (s : Store) :
    (ReplyRepositoryPostgres.getRepliesByCommentIds sqlText commentIds s).state = s := by
  unfold ReplyRepositoryPostgres.getRepliesByCommentIds
  split <;> rfl

/-- Setting the flag of a flagged comment row changes nothing. -/
theorem commentRow_flag_eq_self (c : CommentRow) (h : c.is_delete = true) :
    { c with is_delete := true } = c := by
  cases c
  simp_all

/-- Setting the flag of a flagged reply row changes nothing. -/
theorem replyRow_flag_eq_self (r : ReplyRow) (h : r.is_delete = true) :
    { r with is_delete := true } = r := by
  cases r
  simp_all

/-- One call keeps every flagged comment row and every flagged reply row in its place. -/
theorem RepositoryCall.after_keeps_flagged (newAddedComment : AddedRow → Except Err α)
    (newAddedReply : AddedRow → Except Err β) (sqlText : JsVal → Option String)
    (call : RepositoryCall) (s : Store) :
    (∀ (i : Nat) (c : CommentRow), s.comments[i]? = some c → c.is_delete = true →
      (RepositoryCall.after newAddedComment newAddedReply sqlText call s).comments[i]?
        = some c) ∧
    (∀ (i : Nat) (r : ReplyRow), s.replies[i]? = some r → r.is_delete = true →
      (RepositoryCall.after newAddedComment newAddedReply sqlText call s).replies[i]?
        = some r) := by
  cases call with
  | addComment generated now newComment =>
    refine ⟨fun i c hi _ => ?_, fun i r hi _ => hi⟩
    simp only [RepositoryCall.after, CommentRepositoryPostgres.addComment]
    rw [List.getElem?_append_left (List.getElem?_eq_some.mp hi).1]
    exact hi
  | verifyAvailableCommentInThread commentId threadId =>
    simp only [RepositoryCall.after,
      CommentRepositoryPostgres.verifyAvailableCommentInThread_state]
    exact ⟨fun i c hi _ => hi, fun i r hi _ => hi⟩
  | verifyCommentOwner commentId owner =>
    simp only [RepositoryCall.after, CommentRepositoryPostgres.verifyCommentOwner_state]
    exact ⟨fun i c hi _ => hi, fun i r hi _ => hi⟩
  | deleteComment commentId =>
    refine ⟨fun i c hi hdel => ?_, fun i r hi _ => hi⟩
    simp only [RepositoryCall.after, CommentRepositoryPostgres.deleteComment_comments,
      List.getElem?_map, hi, Option.map_some']
    by_cases hid : c.id = commentId
    · rw [if_pos hid, commentRow_flag_eq_self c hdel]
    · rw [if_neg hid]
  | getCommentsByThreadId threadId =>
    exact ⟨fun i c hi _ => hi, fun i r hi _ => hi⟩
  | addReply generated now newReply =>
    refine ⟨fun i c hi _ => hi, fun i r hi _ => ?_⟩
    simp only [RepositoryCall.after, ReplyRepositoryPostgres.addReply]
    rw [List.getElem?_append_left (List.getElem?_eq_some.mp hi).1]
    exact hi
  | verifyAvailableReplyInComment replyId commentId =>
    simp only [RepositoryCall.after,
      ReplyRepositoryPostgres.verifyAvailableReplyInComment_state]
    exact ⟨fun i c hi _ => hi, fun i r hi _ => hi⟩
  | verifyReplyOwner replyId owner =>
    simp only [RepositoryCall.after, ReplyRepositoryPostgres.verifyReplyOwner_state]
    exact ⟨fun i c hi _ => hi, fun i r hi _ => hi⟩
  | deleteReply replyId =>
    refine ⟨fun i c hi _ => hi, fun i r hi hdel => ?_⟩
    simp only [RepositoryCall.after, ReplyRepositoryPostgres.deleteReply,
      List.getElem?_map, hi, Option.map_some']
    by_cases hid : r.id = replyId
    · rw [if_pos hid, replyRow_flag_eq_self r hdel]
    · rw [if_neg hid]
  | getRepliesByCommentIds commentIds =>
    simp only [RepositoryCall.after, ReplyRepositoryPostgres.getRepliesByCommentIds_state]
    exact ⟨fun i c hi _ => hi, fun i r hi _ => hi⟩

/-- A sequence of calls keeps every flagged comment row and reply row in its place. -/
theorem RepositoryCall.afterAll_keeps_flagged (newAddedComment : AddedRow → Except Err α)
    (newAddedReply : AddedRow → Except Err β) (sqlText : JsVal → Option String)
    (calls : List RepositoryCall) (s : Store) :
    (∀ (i : Nat) (c : CommentRow), s.comments[i]? = some c → c.is_delete = true →
      (RepositoryCall.afterAll newAddedComment newAddedReply sqlText calls s).comments[i]?
        = some c) ∧
    (∀ (i : Nat) (r : ReplyRow), s.replies[i]? = some r → r.is_delete = true →
      (RepositoryCall.afterAll newAddedComment newAddedReply sqlText calls s).replies[i]?
        = some r) := by
  induction calls generalizing s with
  | nil => exact ⟨fun i c hi _ => hi, fun i r hi _ => hi⟩
  | cons call rest ih =>
    have hone := RepositoryCall.after_keeps_flagged newAddedComment newAddedReply sqlText call s
    have hrest := ih (RepositoryCall.after newAddedComment newAddedReply sqlText call s)
    simp only [RepositoryCall.afterAll, List.foldl_cons] at hrest ⊢
    exact ⟨fun i c hi hdel => hrest.1 i c (hone.1 i c hi hdel) hdel,
      fun i r hi hdel => hrest.2 i r (hone.2 i r hi hdel) hdel⟩

/-- Claim C14: `is_delete` is monotonic. For every database and every sequence of calls of
the comment repository and the reply repository (`addComment`, `deleteComment`, `addReply`,
`deleteReply`, the checks and the reads), a comment row or reply row that has
`is_delete = true` after the calls `before` is, after any further calls `later`, still the
row at the same place of its table, with every column as it was and `is_delete = true`: no
call resets the flag or removes the row. -/
theorem is_delete_monotone (newAddedComment : AddedRow → Except Err α)
    (newAddedReply : AddedRow → Except Err β) (sqlText : JsVal → Option String)
    (before later : List RepositoryCall) (s : Store) :
    (∀ (i : Nat) (c : CommentRow),
      (RepositoryCall.afterAll newAddedComment newAddedReply sqlText before s).comments[i]?
        = some c → c.is_delete = true →
      (RepositoryCall.afterAll newAddedComment newAddedReply sqlText (before ++ later)
        s).comments[i]? = some c) ∧
    (∀ (i : Nat) (r : ReplyRow),
      (RepositoryCall.afterAll newAddedComment newAddedReply sqlText before s).replies[i]?
        = some r → r.is_delete = true →
      (RepositoryCall.afterAll newAddedComment newAddedReply sqlText (before ++ later)
        s).replies[i]? = some r) := by
  have h := RepositoryCall.afterAll_keeps_flagged newAddedComment newAddedReply sqlText later
    (RepositoryCall.afterAll newAddedComment newAddedReply sqlText before s)
  simp only [RepositoryCall.afterAll, List.foldl_append] at h ⊢
  exact h

/-- The theorem for C14 at the database of the thread-detail HTTP test: the deleted comment
stays deleted through a deletion, an insertion and a reply deletion. -/
theorem is_delete_monotone_witness :
    (RepositoryCall.afterAll (fun row => Except.ok row) (fun row => Except.ok row)
        textOfString
        ([] ++ [RepositoryCall.deleteComment "comment-123",
          RepositoryCall.addComment "789" 1672531500000
            { content := "Komentar C", owner := "user-A", threadId := "thread-123" },
          RepositoryCall.deleteReply "reply-123"])
        threadStore).comments[1]?
      = some { id := "comment-456", content := "Komentar B", owner := "user-A",
               thread_id := "thread-123", date := 1672531320000, is_delete := true } :=
  (is_delete_monotone (fun row => Except.ok row) (fun row => Except.ok row) textOfString []
    [RepositoryCall.deleteComment "comment-123",
      RepositoryCall.addComment "789" 1672531500000
        { content := "Komentar C", owner := "user-A", threadId := "thread-123" },
      RepositoryCall.deleteReply "reply-123"]
    threadStore).1 1 _ rfl rfl

end Monotone

/-! ## The thread detail after a deletion -/

/-- What a returning run of the thread-detail use case tells: every call resolved, the
`DetailThread` guard accepted the thread record, and the comments are either none or the
results of the callback of `comments.map`. -/
theorem GetThreadDetailsUseCase.execute_ok_inv {σ : Type} (uc : GetThreadDetailsUseCase σ)
    (verify : ThreadPayload → Except Err Unit) (threadId : String) (s : σ) (dt : DetailThread)
    (h : (uc.execute verify threadId s).result = Except.ok dt) :
    ∃ s1 s2 s3 thread comments,
      uc.threadRepository.verifyAvailableThread threadId s = (Except.ok (), s1) ∧
      uc.threadRepository.getThreadById threadId s1 = (Except.ok thread, s2) ∧
      uc.commentRepository.getCommentsByThreadId threadId s2 = (Except.ok comments, s3) ∧
      verify thread = Except.ok () ∧
      ((comments = [] ∧
          dt = { id := thread.id, title := thread.title, body := thread.body,
                 date := thread.date, username := thread.username, comments := [] }) ∨
        (comments ≠ [] ∧ ∃ s4 replies dcs,
          uc.replyRepository.getRepliesByCommentIds (comments.map (fun c => c.id)) s3
            = (Except.ok replies, s4) ∧
          mapThrow (GetThreadDetailsUseCase.detailCommentOf replies) comments = Except.ok dcs ∧
          dt = { id := thread.id, title := thread.title, body := thread.body,
                 date := thread.date, username := thread.username, comments := dcs })) := by
  rcases h1 : uc.threadRepository.verifyAvailableThread threadId s with ⟨r1, s1⟩
  cases r1 with
  | error e =>
    simp [GetThreadDetailsUseCase.execute, bind, Run.andThen, Run.call, h1] at h
  | ok u1 =>
    rcases h2 : uc.threadRepository.getThreadById threadId s1 with ⟨r2, s2⟩
    cases r2 with
    | error e =>
      simp [GetThreadDetailsUseCase.execute, bind, Run.andThen, Run.call, h1, h2] at h
    | ok thread =>
      rcases h3 : uc.commentRepository.getCommentsByThreadId threadId s2 with ⟨r3, s3⟩
      cases r3 with
      | error e =>
        simp [GetThreadDetailsUseCase.execute, bind, Run.andThen, Run.call, h1, h2, h3] at h
      | ok comments =>
        cases h4 : verify thread with
        | error e =>
          simp [GetThreadDetailsUseCase.execute, bind, Run.andThen, Run.call, Run.eval,
            DetailThread.new, h1, h2, h3, h4] at h
        | ok u4 =>
          refine ⟨s1, s2, s3, thread, comments, rfl, h2, h3, h4, ?_⟩
          by_cases hne : comments = []
          · left
            subst hne
            have := GetThreadDetailsUseCase.execute_of_no_comments uc verify threadId s s1 s2 s3
              thread h1 h2 h3 h4
            rw [this] at h
            simp only [Except.ok.injEq] at h
            exact ⟨rfl, h.symm⟩
          · right
            refine ⟨hne, ?_⟩
            rcases h5 : uc.replyRepository.getRepliesByCommentIds
              (comments.map (fun c => c.id)) s3 with ⟨r5, s4⟩
            have hlen : comments.length ≠ 0 := fun hl => hne (List.length_eq_zero.mp hl)
            cases r5 with
            | error e =>
              simp [GetThreadDetailsUseCase.execute, bind, Run.andThen, Run.call, Run.eval,
                pure, DetailThread.new, h1, h2, h3, h4, h5, hlen] at h
            | ok replies =>
              cases h6 : mapThrow (GetThreadDetailsUseCase.detailCommentOf replies) comments with
              | error e =>
                simp [GetThreadDetailsUseCase.execute, bind, Run.andThen, Run.call, Run.eval,
                  pure, DetailThread.new, h1, h2, h3, h4, h5, h6, hlen] at h
              | ok dcs =>
                have := GetThreadDetailsUseCase.execute_of_comments uc verify threadId
                  s s1 s2 s3 s4 thread comments replies dcs h1 h2 h3 h4 hne h5 h6
                rw [this] at h
                simp only [Except.ok.injEq] at h
                exact ⟨s4, replies, dcs, h5, h6, h.symm⟩

/-- The loop `mapThrow` over a mapped list, when the callbacks agree up to a map of the
results. -/
theorem mapThrow_map_of {α β γ δ : Type} (f : α → Except Err β) (g : γ → Except Err δ)
    (h : α → γ) (m : β → δ) (l : List α) (hfg : ∀ a ∈ l, g (h a) = Except.map m (f a)) :
    mapThrow g (l.map h) = Except.map (List.map m) (mapThrow f l) := by
  induction l with
  | nil => rfl
  | cons a as ih =>
    have ih2 := ih (fun x hx => hfg x (List.mem_cons_of_mem _ hx))
    simp only [List.map_cons, mapThrow, hfg a (List.mem_cons_self _ _), ih2]
    cases f a with
    | error e => rfl
    | ok b =>
      cases mapThrow f as with
      | error e => rfl
      | ok bs => rfl

/-- The callback of `comments.map` on a fetched comment whose flag has been set: the same
error, or the same detail comment with its content masked. -/
theorem GetThreadDetailsUseCase.detailCommentOf_flagged (replies : List ReplyPayload)
    (commentId : String) (p : CommentPayload) (b : Bool) (hb : p.is_delete = JsVal.bool b) :
    GetThreadDetailsUseCase.detailCommentOf replies
        (if p.id = JsVal.str commentId then { p with is_delete := JsVal.bool true } else p)
      = Except.map
        (fun dc => if dc.id = JsVal.str commentId
          then { dc with content := JsVal.str "**komentar telah dihapus**" } else dc)
        (GetThreadDetailsUseCase.detailCommentOf replies p) := by
  have hm : ∀ q : CommentPayload, q.id = p.id → q.username = p.username → q.date = p.date →
      q.content = p.content → (∃ b2, q.is_delete = JsVal.bool b2) →
      DetailComment._verifyPayload q = DetailComment._verifyPayload p := by
    intro q h1 h2 h3 h4 ⟨b2, h5⟩
    simp only [DetailComment._verifyPayload, DetailComment.missingProperty,
      DetailComment.wrongType, h1, h2, h3, h4, h5, hb, JsVal.strictEq, JsVal.typeof]
  by_cases hid : p.id = JsVal.str commentId
  · rw [if_pos hid]
    have hv := hm { p with is_delete := JsVal.bool true } rfl rfl rfl rfl ⟨true, rfl⟩
    simp only [GetThreadDetailsUseCase.detailCommentOf, DetailComment.new, hv, bind,
      Except.bind, pure, Except.pure]
    cases DetailComment._verifyPayload p with
    | error e => rfl
    | ok u =>
      simp only [hid]
      cases mapThrow DetailReply.new
        (replies.filter (fun reply => reply.comment_id.strictEq (JsVal.str commentId))) with
      | error e => rfl
      | ok rs => simp [Except.map, JsVal.truthy]
  · rw [if_neg hid]
    simp only [GetThreadDetailsUseCase.detailCommentOf, DetailComment.new, bind,
      Except.bind, pure, Except.pure]
    cases DetailComment._verifyPayload p with
    | error e => rfl
    | ok u =>
      simp only
      cases mapThrow DetailReply.new
        (replies.filter (fun reply => reply.comment_id.strictEq p.id)) with
      | error e => rfl
      | ok rs => simp [Except.map, hid]

/-- The method `getThreadById` leaves the database as it is. -/
theorem ThreadRepositoryPostgres.getThreadById_state (threadId : String) (s : Store) :
    (ThreadRepositoryPostgres.getThreadById threadId s).2 = s := by
  unfold ThreadRepositoryPostgres.getThreadById
  split <;> rfl

/-- After `deleteComment`, `verifyAvailableThread` answers as before. -/
theorem ThreadRepositoryPostgres.verifyAvailableThread_after_delete
    (threadId commentId : String) (s : Store) :
    (ThreadRepositoryPostgres.verifyAvailableThread threadId
        (CommentRepositoryPostgres.deleteComment commentId s).2).1
      = (ThreadRepositoryPostgres.verifyAvailableThread threadId s).1 := by
  unfold ThreadRepositoryPostgres.verifyAvailableThread
  simp only [CommentRepositoryPostgres.deleteComment]
  split <;> rfl

/-- After `deleteComment`, `getThreadById` answers as before. -/
theorem ThreadRepositoryPostgres.getThreadById_after_delete
    (threadId commentId : String) (s : Store) :
    (ThreadRepositoryPostgres.getThreadById threadId
        (CommentRepositoryPostgres.deleteComment commentId s).2).1
      = (ThreadRepositoryPostgres.getThreadById threadId s).1 := by
  unfold ThreadRepositoryPostgres.getThreadById
  simp only [CommentRepositoryPostgres.deleteComment]
  split <;> rfl

/-! ## The entities, case by case -/

/-- Claim C23: for every reply payload that `DetailReply` accepts, the detail reply keeps
the payload's `id`, `username` and `date`; its content is `**balasan telah dihapus**` when
`is_delete` is true and the payload's content when `is_delete` is false, and `is_delete` is
one of the two. -/
theorem DetailReply.new_projection (r : ReplyPayload) (dr : DetailReply)
    (h : DetailReply.new r = Except.ok dr) :
    dr.id = r.id ∧ dr.username = r.username ∧ dr.date = r.date ∧
      (r.is_delete = JsVal.bool true → dr.content = JsVal.str "**balasan telah dihapus**") ∧
      (r.is_delete = JsVal.bool false → dr.content = r.content) ∧
      (r.is_delete = JsVal.bool true ∨ r.is_delete = JsVal.bool false) := by
  unfold DetailReply.new at h
  cases hm : DetailReply.missingProperty r
  · cases hw : DetailReply.wrongType r
    · simp only [hm, hw, Bool.false_eq_true, if_false, Except.ok.injEq] at h
      subst h
      refine ⟨rfl, rfl, rfl, ?_, ?_, ?_⟩
      · intro hd; simp [hd, JsVal.truthy]
      · intro hd; simp [hd, JsVal.truthy]
      · simp only [DetailReply.wrongType, Bool.or_eq_false_iff] at hw
        have hb := hw.2
        cases hd : r.is_delete with
        | bool b => cases b <;> simp
        | _ => rw [hd] at hb; exact absurd hb (by simp [JsVal.typeof])
    · simp [hm, hw] at h
  · simp [hm] at h

/-- The theorem for C23 at the deleted payload of DetailReply.test.js. -/
theorem DetailReply.new_projection_witness :
    ∃ dr, DetailReply.new (testReply true) = Except.ok dr ∧
      dr.content = JsVal.str "**balasan telah dihapus**" :=
  ⟨_, rfl, (DetailReply.new_projection (testReply true) _ rfl).2.2.2.1 rfl⟩

/-- Claim C25, as amended: for every comment payload with `is_delete = true` that
`DetailComment` accepts, the content of the detail comment is the sentinel
`**komentar telah dihapus**`, so it differs from the payload's content whenever that content
is not itself the text of the sentinel. -/
theorem DetailComment.new_deleted_masks (p : CommentPayload) (dc : DetailComment)
    (hd : p.is_delete = JsVal.bool true) (h : DetailComment.new p = Except.ok dc) :
    dc.content = JsVal.str "**komentar telah dihapus**" ∧
      (p.content ≠ JsVal.str "**komentar telah dihapus**" → dc.content ≠ p.content) := by
  unfold DetailComment.new at h
  split at h
  · exact absurd h (by simp)
  · simp only [hd, JsVal.truthy, if_true, Except.ok.injEq] at h
    subst h
    exact ⟨rfl, fun hne heq => hne heq.symm⟩

/-- The theorem for C25 at the deleted payload of the entity test. -/
theorem DetailComment.new_deleted_masks_witness :
    ∃ dc, DetailComment.new (testComment true) = Except.ok dc ∧
      dc.content ≠ (testComment true).content :=
  ⟨_, rfl, (DetailComment.new_deleted_masks (testComment true) _ rfl rfl).2
    (by simp [testComment])⟩

/-- Claim C25 as stated fails: a deleted comment whose stored content is the text
`**komentar telah dihapus**` is accepted, and the content of its detail comment is the
payload's original content. -/
theorem DetailComment.new_sentinel_content :
    sentinelComment.is_delete = JsVal.bool true ∧
      ∃ dc, DetailComment.new sentinelComment = Except.ok dc ∧
        dc.content = sentinelComment.content :=
  ⟨rfl, _, rfl, rfl⟩

/-- The falsy values. -/
theorem JsVal.truthy_eq_false_iff (v : JsVal) :
    v.truthy = false ↔ v = JsVal.undefined ∨ v = JsVal.null ∨ v = JsVal.bool false
      ∨ v = JsVal.num 0 ∨ v = JsVal.nan ∨ v = JsVal.str "" := by
  cases v <;> simp [JsVal.truthy]

/-- A value whose `typeof` is `'string'` is a string. -/
theorem JsVal.typeof_string_iff (v : JsVal) :
    (v.typeof != "string") = false ↔ ∃ t, v = JsVal.str t := by
  cases v
  all_goals first
    | exact ⟨fun _ => ⟨_, rfl⟩, fun _ => rfl⟩
    | exact ⟨fun h => absurd h (by simp [JsVal.typeof]), fun ⟨t, ht⟩ => by simp at ht⟩

/-- A value whose `typeof` is `'boolean'` is a boolean. -/
theorem JsVal.typeof_boolean_iff (v : JsVal) :
    (v.typeof != "boolean") = false ↔ ∃ b, v = JsVal.bool b := by
  cases v
  all_goals first
    | exact ⟨fun _ => ⟨_, rfl⟩, fun _ => rfl⟩
    | exact ⟨fun h => absurd h (by simp [JsVal.typeof]), fun ⟨t, ht⟩ => by simp at ht⟩

/-- A value that is an instance of `Date` is a date. -/
theorem JsVal.instanceofDate_iff (v : JsVal) :
    v.instanceofDate = true ↔ ∃ t, v = JsVal.date t := by
  cases v <;> simp [JsVal.instanceofDate]

/-- Only `undefined` is strictly equal to `undefined`. -/
theorem JsVal.strictEq_undefined (v : JsVal) :
    v.strictEq JsVal.undefined = true ↔ v = JsVal.undefined := by
  cases v <;> simp [JsVal.strictEq]

/-- The first guard of `_verifyPayload`, value by value. -/
theorem DetailComment.missingProperty_iff (p : CommentPayload) :
    DetailComment.missingProperty p = true ↔
      (p.id.truthy = false ∨ p.username.truthy = false ∨ p.date.truthy = false
        ∨ p.content.truthy = false ∨ p.is_delete = JsVal.undefined) := by
  simp only [DetailComment.missingProperty, Bool.or_eq_true, Bool.not_eq_true',
    JsVal.strictEq_undefined]
  tauto

/-- The second guard of `_verifyPayload`, value by value. -/
theorem DetailComment.wrongType_iff (p : CommentPayload) :
    DetailComment.wrongType p = true ↔
      ((∀ t, p.id ≠ JsVal.str t) ∨ (∀ t, p.username ≠ JsVal.str t)
        ∨ (∀ t, p.date ≠ JsVal.date t) ∨ (∀ t, p.content ≠ JsVal.str t)
        ∨ (∀ b, p.is_delete ≠ JsVal.bool b)) := by
  have hs : ∀ v : JsVal, (v.typeof != "string") = true ↔ ∀ t, v ≠ JsVal.str t := by
    intro v
    rw [← Bool.not_eq_false, JsVal.typeof_string_iff]
    simp
  have hb : ∀ v : JsVal, (v.typeof != "boolean") = true ↔ ∀ b, v ≠ JsVal.bool b := by
    intro v
    rw [← Bool.not_eq_false, JsVal.typeof_boolean_iff]
    simp
  have hd : ∀ v : JsVal, (!v.instanceofDate) = true ↔ ∀ t, v ≠ JsVal.date t := by
    intro v
    rw [Bool.not_eq_true', ← Bool.not_eq_true, JsVal.instanceofDate_iff]
    simp
  unfold DetailComment.wrongType
  rw [Bool.or_eq_true, Bool.or_eq_true, Bool.or_eq_true, Bool.or_eq_true, hs, hs, hs, hb, hd]
  tauto

/-- Claim C27: the validation of `DetailComment` is this decision procedure, for every
payload. It fails with `DETAIL_COMMENT.NOT_CONTAIN_NEEDED_PROPERTY` when `id`, `username`,
`date` or `content` is falsy or `is_delete` is `undefined`, whatever the types are;
otherwise it fails with `DETAIL_COMMENT.NOT_MEET_DATA_TYPE_SPECIFICATION` when `id`,
`username` or `content` is not a string, `date` is not a `Date` or `is_delete` is not a
boolean; otherwise it succeeds. So construction succeeds exactly for a non-empty string
`id`, `username` and `content`, a `Date` and a boolean. The falsy values are `undefined`,
`null`, `false`, `0`, `NaN` and the empty string. -/
theorem DetailComment.new_decision (p : CommentPayload) :
    ((p.id.truthy = false ∨ p.username.truthy = false ∨ p.date.truthy = false
        ∨ p.content.truthy = false ∨ p.is_delete = JsVal.undefined) →
      DetailComment.new p
        = Except.error (Err.Error "DETAIL_COMMENT.NOT_CONTAIN_NEEDED_PROPERTY")) ∧
    (¬ (p.id.truthy = false ∨ p.username.truthy = false ∨ p.date.truthy = false
        ∨ p.content.truthy = false ∨ p.is_delete = JsVal.undefined) →
      ((∀ t, p.id ≠ JsVal.str t) ∨ (∀ t, p.username ≠ JsVal.str t)
        ∨ (∀ t, p.date ≠ JsVal.date t) ∨ (∀ t, p.content ≠ JsVal.str t)
        ∨ (∀ b, p.is_delete ≠ JsVal.bool b)) →
      DetailComment.new p
        = Except.error (Err.Error "DETAIL_COMMENT.NOT_MEET_DATA_TYPE_SPECIFICATION")) ∧
    (¬ (p.id.truthy = false ∨ p.username.truthy = false ∨ p.date.truthy = false
        ∨ p.content.truthy = false ∨ p.is_delete = JsVal.undefined) →
      ¬ ((∀ t, p.id ≠ JsVal.str t) ∨ (∀ t, p.username ≠ JsVal.str t)
        ∨ (∀ t, p.date ≠ JsVal.date t) ∨ (∀ t, p.content ≠ JsVal.str t)
        ∨ (∀ b, p.is_delete ≠ JsVal.bool b)) →
      ∃ dc, DetailComment.new p = Except.ok dc) ∧
    ((∃ dc, DetailComment.new p = Except.ok dc) ↔
      ∃ i u c t b, i ≠ "" ∧ u ≠ "" ∧ c ≠ "" ∧
        p = { id := JsVal.str i, username := JsVal.str u, date := JsVal.date t,
              content := JsVal.str c, is_delete := JsVal.bool b }) ∧
    (∀ v : JsVal, v.truthy = false ↔ v = JsVal.undefined ∨ v = JsVal.null
      ∨ v = JsVal.bool false ∨ v = JsVal.num 0 ∨ v = JsVal.nan ∨ v = JsVal.str "") := by
  have hm := DetailComment.missingProperty_iff p
  have hw := DetailComment.wrongType_iff p
  have h1 : (p.id.truthy = false ∨ p.username.truthy = false ∨ p.date.truthy = false
        ∨ p.content.truthy = false ∨ p.is_delete = JsVal.undefined) →
      DetailComment.new p
        = Except.error (Err.Error "DETAIL_COMMENT.NOT_CONTAIN_NEEDED_PROPERTY") := by
    intro h
    simp [DetailComment.new, DetailComment._verifyPayload, hm.mpr h]
  have h2 : ¬ (p.id.truthy = false ∨ p.username.truthy = false ∨ p.date.truthy = false
        ∨ p.content.truthy = false ∨ p.is_delete = JsVal.undefined) →
      ((∀ t, p.id ≠ JsVal.str t) ∨ (∀ t, p.username ≠ JsVal.str t)
        ∨ (∀ t, p.date ≠ JsVal.date t) ∨ (∀ t, p.content ≠ JsVal.str t)
        ∨ (∀ b, p.is_delete ≠ JsVal.bool b)) →
      DetailComment.new p
        = Except.error (Err.Error "DETAIL_COMMENT.NOT_MEET_DATA_TYPE_SPECIFICATION") := by
    intro hn h
    have hmf : DetailComment.missingProperty p = false := by
      rw [← Bool.not_eq_true]; exact fun hc => hn (hm.mp hc)
    simp [DetailComment.new, DetailComment._verifyPayload, hmf, hw.mpr h]
  have h3 : ¬ (p.id.truthy = false ∨ p.username.truthy = false ∨ p.date.truthy = false
        ∨ p.content.truthy = false ∨ p.is_delete = JsVal.undefined) →
      ¬ ((∀ t, p.id ≠ JsVal.str t) ∨ (∀ t, p.username ≠ JsVal.str t)
        ∨ (∀ t, p.date ≠ JsVal.date t) ∨ (∀ t, p.content ≠ JsVal.str t)
        ∨ (∀ b, p.is_delete ≠ JsVal.bool b)) →
      ∃ dc, DetailComment.new p = Except.ok dc := by
    intro hn hnw
    have hmf : DetailComment.missingProperty p = false := by
      rw [← Bool.not_eq_true]; exact fun hc => hn (hm.mp hc)
    have hwf : DetailComment.wrongType p = false := by
      rw [← Bool.not_eq_true]; exact fun hc => hnw (hw.mp hc)
    refine ⟨{ id := p.id, username := p.username, date := p.date,
              content := if p.is_delete.truthy then JsVal.str "**komentar telah dihapus**"
                else p.content,
              replies := [] }, ?_⟩
    simp [DetailComment.new, DetailComment._verifyPayload, hmf, hwf]
  refine ⟨h1, h2, h3, ?_, JsVal.truthy_eq_false_iff⟩
  constructor
  · rintro ⟨dc, hdc⟩
    have hn : ¬ (p.id.truthy = false ∨ p.username.truthy = false ∨ p.date.truthy = false
        ∨ p.content.truthy = false ∨ p.is_delete = JsVal.undefined) := by
      intro h
      rw [h1 h] at hdc
      exact absurd hdc (by simp)
    have hnw : ¬ ((∀ t, p.id ≠ JsVal.str t) ∨ (∀ t, p.username ≠ JsVal.str t)
        ∨ (∀ t, p.date ≠ JsVal.date t) ∨ (∀ t, p.content ≠ JsVal.str t)
        ∨ (∀ b, p.is_delete ≠ JsVal.bool b)) := by
      intro h
      rw [h2 hn h] at hdc
      exact absurd hdc (by simp)
    simp only [not_or, not_forall, not_not] at hn hnw
    obtain ⟨⟨i, hi⟩, ⟨u, hu⟩, ⟨t, ht⟩, ⟨c, hc⟩, ⟨b, hb⟩⟩ := hnw
    obtain ⟨hti, htu, -, htc, -⟩ := hn
    refine ⟨i, u, c, t, b, ?_, ?_, ?_, ?_⟩
    · rintro rfl; rw [hi] at hti; exact hti rfl
    · rintro rfl; rw [hu] at htu; exact htu rfl
    · rintro rfl; rw [hc] at htc; exact htc rfl
    · cases p
      simp_all
  · rintro ⟨i, u, c, t, b, hi, hu, hc, rfl⟩
    apply h3
    · simp [JsVal.truthy, hi, hu, hc]
    · simp

/-! ## The owner check after the existence check -/

/-- Claim C26: whenever `verifyAvailableCommentInThread(commentId, threadId)` succeeds on a
database, a comment row with that id exists and `verifyCommentOwner(commentId, owner)` on the
same database does not fail with NotFoundError: it succeeds or fails with
AuthorizationError. In `DeleteCommentUseCase.execute` the owner check is called only after
the existence check has succeeded on that database, so the run never fails with the
NotFoundError of the owner check, `komentar tidak ditemukan`. -/
theorem owner_check_finds_row (s : Store) (p : DeleteCommentPayload) :
    ((CommentRepositoryPostgres.verifyAvailableCommentInThread p.commentId p.threadId s).1
        = Except.ok () →
      (∃ c ∈ s.comments, c.id = p.commentId) ∧
      (∀ m, (CommentRepositoryPostgres.verifyCommentOwner p.commentId p.owner s).1
        ≠ Except.error (Err.NotFoundError m)) ∧
      ((CommentRepositoryPostgres.verifyCommentOwner p.commentId p.owner s).1 = Except.ok () ∨
        (CommentRepositoryPostgres.verifyCommentOwner p.commentId p.owner s).1
          = Except.error
            (Err.AuthorizationError "anda tidak berhak mengakses resource ini"))) ∧
    (Call.verifyCommentOwner p.commentId p.owner ∈ (deleteCommentUseCase.execute p s).calls →
      (CommentRepositoryPostgres.verifyAvailableCommentInThread p.commentId p.threadId s).1
        = Except.ok ()) ∧
    (deleteCommentUseCase.execute p s).result
      ≠ Except.error (Err.NotFoundError "komentar tidak ditemukan") := by
  have howner : (CommentRepositoryPostgres.verifyAvailableCommentInThread
        p.commentId p.threadId s).1 = Except.ok () →
      (∃ c ∈ s.comments, c.id = p.commentId) ∧
      (∀ m, (CommentRepositoryPostgres.verifyCommentOwner p.commentId p.owner s).1
        ≠ Except.error (Err.NotFoundError m)) ∧
      ((CommentRepositoryPostgres.verifyCommentOwner p.commentId p.owner s).1 = Except.ok () ∨
        (CommentRepositoryPostgres.verifyCommentOwner p.commentId p.owner s).1
          = Except.error
            (Err.AuthorizationError "anda tidak berhak mengakses resource ini")) := by
    intro hv
    obtain ⟨c, hc, hid, -, -⟩ :=
      (CommentRepositoryPostgres.verifyAvailableCommentInThread_ok_iff
        p.commentId p.threadId s).mp hv
    refine ⟨⟨c, hc, hid⟩, ?_⟩
    unfold CommentRepositoryPostgres.verifyCommentOwner
    split
    · rename_i hnil
      have : c ∈ s.comments.filter (fun c => c.id = p.commentId) := by
        simp [List.mem_filter, hc, hid]
      rw [hnil] at this
      exact absurd this (List.not_mem_nil c)
    · split
      · exact ⟨fun m h => by simp at h, Or.inr rfl⟩
      · exact ⟨fun m h => by simp at h, Or.inl rfl⟩
  refine ⟨howner, ?_, ?_⟩
  · rw [deleteCommentUseCase_execute]
    cases h1 : (ThreadRepositoryPostgres.verifyAvailableThread p.threadId s).1 with
    | error e => simp
    | ok u1 =>
      cases h2 : (CommentRepositoryPostgres.verifyAvailableCommentInThread
        p.commentId p.threadId s).1 with
      | error e => simp
      | ok u2 => simp
  · rw [deleteCommentUseCase_execute]
    cases h1 : (ThreadRepositoryPostgres.verifyAvailableThread p.threadId s).1 with
    | error e =>
      by_cases ht : ∃ t ∈ s.threads, t.id = p.threadId
      · rw [(ThreadRepositoryPostgres.verifyAvailableThread_ok_iff p.threadId s).mpr ht] at h1
        exact absurd h1 (by simp)
      · rw [ThreadRepositoryPostgres.verifyAvailableThread_error p.threadId s
          (fun t hm hid => ht ⟨t, hm, hid⟩)] at h1
        simp only [Except.error.injEq] at h1
        subst h1
        simp
    | ok u1 =>
      cases h2 : (CommentRepositoryPostgres.verifyAvailableCommentInThread
        p.commentId p.threadId s).1 with
      | error e =>
        by_cases hc : ∃ c ∈ s.comments,
            c.id = p.commentId ∧ c.thread_id = p.threadId ∧ c.is_delete = false
        · rw [(CommentRepositoryPostgres.verifyAvailableCommentInThread_ok_iff
            p.commentId p.threadId s).mpr hc] at h2
          exact absurd h2 (by simp)
        · rw [CommentRepositoryPostgres.verifyAvailableCommentInThread_error
            p.commentId p.threadId s (fun c hm hall => hc ⟨c, hm, hall⟩)] at h2
          simp only [Except.error.injEq] at h2
          subst h2
          simp
      | ok u2 =>
        obtain ⟨-, hnf, hor⟩ := howner h2
        cases h3 : (CommentRepositoryPostgres.verifyCommentOwner p.commentId p.owner s).1 with
        | error e =>
          simp only [ne_eq, Except.error.injEq]
          intro he
          exact hnf _ (he ▸ h3)
        | ok u3 => simp

/-- The theorem for C26 at the database of the thread-detail HTTP test: the first user asks
for the comment of the second, which exists, and is refused. -/
theorem owner_check_finds_row_witness :
    (CommentRepositoryPostgres.verifyCommentOwner "comment-123" "user-A" threadStore).1
        = Except.ok () ∨
      (CommentRepositoryPostgres.verifyCommentOwner "comment-123" "user-A" threadStore).1
        = Except.error (Err.AuthorizationError "anda tidak berhak mengakses resource ini") :=
  ((owner_check_finds_row threadStore
    { threadId := "thread-123", commentId := "comment-123", owner := "user-A" }).1 rfl).2.2

/-! ## The reply repository as a mirror of the comment repository -/

/-- Filtering the replies read as comments. -/
theorem filter_map_asComment (P : CommentRow → Bool) (l : List ReplyRow) :
    (l.map ReplyRow.asComment).filter P = (l.filter (fun r => P r.asComment)).map
      ReplyRow.asComment := by
  rw [List.filter_map]
  rfl

/-- Claim C24: the reply repository mirrors the comment repository. On every database `s`
and every database `t` whose comments table is the replies table of `s` read with
`comment_id` as the parent column, `verifyAvailableReplyInComment(replyId, commentId)` and
`verifyReplyOwner(replyId, owner)` on `s` have the kind of outcome (success, NotFoundError
or AuthorizationError) that `verifyAvailableCommentInThread(replyId, commentId)` and
`verifyCommentOwner(replyId, owner)` have on `t`, and none of the four writes; and
`deleteReply(replyId)` on `s` resolves as `deleteComment(replyId)` does on `t`, the replies
table it leaves is, read as comments, the comments table `deleteComment` leaves, and neither
touches another table. -/
theorem reply_repository_mirrors (s t : Store) (replyId commentId owner : String)
    (ht : t.comments = s.replies.map ReplyRow.asComment) :
    (outcomeKind (ReplyRepositoryPostgres.verifyAvailableReplyInComment replyId commentId s).1
        = outcomeKind
          (CommentRepositoryPostgres.verifyAvailableCommentInThread replyId commentId t).1 ∧
      (ReplyRepositoryPostgres.verifyAvailableReplyInComment replyId commentId s).2 = s ∧
      (CommentRepositoryPostgres.verifyAvailableCommentInThread replyId commentId t).2 = t) ∧
    (outcomeKind (ReplyRepositoryPostgres.verifyReplyOwner replyId owner s).1
        = outcomeKind (CommentRepositoryPostgres.verifyCommentOwner replyId owner t).1 ∧
      (ReplyRepositoryPostgres.verifyReplyOwner replyId owner s).2 = s ∧
      (CommentRepositoryPostgres.verifyCommentOwner replyId owner t).2 = t) ∧
    (outcomeKind (ReplyRepositoryPostgres.deleteReply replyId s).1
        = outcomeKind (CommentRepositoryPostgres.deleteComment replyId t).1 ∧
      (CommentRepositoryPostgres.deleteComment replyId t).2.comments
        = (ReplyRepositoryPostgres.deleteReply replyId s).2.replies.map ReplyRow.asComment ∧
      (ReplyRepositoryPostgres.deleteReply replyId s).2.users = s.users ∧
      (ReplyRepositoryPostgres.deleteReply replyId s).2.threads = s.threads ∧
      (ReplyRepositoryPostgres.deleteReply replyId s).2.comments = s.comments ∧
      (CommentRepositoryPostgres.deleteComment replyId t).2.users = t.users ∧
      (CommentRepositoryPostgres.deleteComment replyId t).2.threads = t.threads ∧
      (CommentRepositoryPostgres.deleteComment replyId t).2.replies = t.replies) := by
  refine ⟨⟨?_, ReplyRepositoryPostgres.verifyAvailableReplyInComment_state _ _ _,
      CommentRepositoryPostgres.verifyAvailableCommentInThread_state _ _ _⟩,
    ⟨?_, ReplyRepositoryPostgres.verifyReplyOwner_state _ _ _,
      CommentRepositoryPostgres.verifyCommentOwner_state _ _ _⟩,
    ⟨rfl, ?_, rfl, rfl, rfl, rfl, rfl, rfl⟩⟩
  · simp only [ReplyRepositoryPostgres.verifyAvailableReplyInComment,
      CommentRepositoryPostgres.verifyAvailableCommentInThread, ht, filter_map_asComment,
      List.length_map]
    have : (s.replies.filter (fun r => decide (r.asComment.id = replyId
        ∧ r.asComment.thread_id = commentId ∧ r.asComment.is_delete = false)))
        = s.replies.filter (fun r => decide (r.id = replyId ∧ r.comment_id = commentId
          ∧ r.is_delete = false)) := rfl
    rw [this]
    split <;> rfl
  · simp only [ReplyRepositoryPostgres.verifyReplyOwner,
      CommentRepositoryPostgres.verifyCommentOwner, ht, filter_map_asComment]
    have : (s.replies.filter (fun r => decide (r.asComment.id = replyId)))
        = s.replies.filter (fun r => decide (r.id = replyId)) := rfl
    rw [this]
    cases s.replies.filter (fun r => decide (r.id = replyId)) with
    | nil => rfl
    | cons r rest =>
      simp only [List.map_cons]
      have : r.asComment.owner = r.owner := rfl
      rw [this]
      split <;> rfl
  · simp only [CommentRepositoryPostgres.deleteComment_comments,
      ReplyRepositoryPostgres.deleteReply, ht, List.map_map]
    apply List.map_congr_left
    intro r _
    simp only [Function.comp]
    have : r.asComment.id = r.id := rfl
    rw [this]
    split <;> rfl

/-- The theorem for C24 at the database of the thread-detail HTTP test. -/
theorem reply_repository_mirrors_witness :
    outcomeKind (ReplyRepositoryPostgres.verifyReplyOwner "reply-123" "user-B" threadStore).1
      = outcomeKind
        (CommentRepositoryPostgres.verifyCommentOwner "reply-123" "user-B"
          threadStoreMirror).1 :=
  (reply_repository_mirrors threadStore threadStoreMirror "reply-123" "comment-123" "user-B"
    rfl).2.1.1

/-! ## The aggregator, record by record -/

section Records

variable {σ : Type}

/-- Claim C21: when the thread is found, the thread record is accepted and the fetched
comment list is not empty, `GetThreadDetailsUseCase.execute` calls
`getRepliesByCommentIds` exactly once, as its fourth and last call, whatever the number of
comments and whatever the call returns; its argument is the list of the ids of the fetched
comments, in the order of the comments. -/
theorem getThreadDetails_one_reply_fetch (uc : GetThreadDetailsUseCase σ)
    (verify : ThreadPayload → Except Err Unit) (threadId : String) (s s1 s2 s3 : σ)
    (thread : ThreadPayload) (comments : List CommentPayload)
    (h1 : uc.threadRepository.verifyAvailableThread threadId s = (Except.ok (), s1))
    (h2 : uc.threadRepository.getThreadById threadId s1 = (Except.ok thread, s2))
    (h3 : uc.commentRepository.getCommentsByThreadId threadId s2 = (Except.ok comments, s3))
    (h4 : verify thread = Except.ok ())
    (hne : comments ≠ []) :
    (uc.execute verify threadId s).calls =
        [Call.verifyAvailableThread threadId, Call.getThreadById threadId,
          Call.getCommentsByThreadId threadId,
          Call.getRepliesByCommentIds (comments.map (fun c => c.id))] ∧
      (uc.execute verify threadId s).calls.filter
          (fun c => match c with
            | Call.getRepliesByCommentIds _ => true
            | _ => false)
        = [Call.getRepliesByCommentIds (comments.map (fun c => c.id))] ∧
      (uc.execute verify threadId s).state
        = (uc.replyRepository.getRepliesByCommentIds (comments.map (fun c => c.id)) s3).2 := by
  have hlen : comments.length ≠ 0 := fun hl => hne (List.length_eq_zero.mp hl)
  have hcalls : (uc.execute verify threadId s).calls =
        [Call.verifyAvailableThread threadId, Call.getThreadById threadId,
          Call.getCommentsByThreadId threadId,
          Call.getRepliesByCommentIds (comments.map (fun c => c.id))] ∧
      (uc.execute verify threadId s).state
        = (uc.replyRepository.getRepliesByCommentIds (comments.map (fun c => c.id)) s3).2 := by
    rcases h5 : uc.replyRepository.getRepliesByCommentIds
      (comments.map (fun c => c.id)) s3 with ⟨r5, s4⟩
    cases r5 with
    | error e =>
      simp [GetThreadDetailsUseCase.execute, bind, Run.andThen, Run.call, Run.eval,
        pure, DetailThread.new, h1, h2, h3, h4, h5, hlen]
    | ok replies =>
      cases h6 : mapThrow (GetThreadDetailsUseCase.detailCommentOf replies) comments with
      | error e =>
        simp [GetThreadDetailsUseCase.execute, bind, Run.andThen, Run.call, Run.eval,
          pure, DetailThread.new, h1, h2, h3, h4, h5, h6, hlen]
      | ok dcs =>
        simp [GetThreadDetailsUseCase.execute, bind, Run.andThen, Run.call, Run.eval,
          pure, DetailThread.new, h1, h2, h3, h4, h5, h6, hlen]
  refine ⟨hcalls.1, ?_, hcalls.2⟩
  rw [hcalls.1]
  rfl

/-- The theorem for C21 at the mocks of the use case test. -/
theorem getThreadDetails_one_reply_fetch_witness :
    ((mockUseCase mockComments).execute (fun _ => Except.ok ()) "thread-123" ()).calls.filter
        (fun c => match c with
          | Call.getRepliesByCommentIds _ => true
          | _ => false)
      = [Call.getRepliesByCommentIds [JsVal.str "comment-123", JsVal.str "comment-456"]] :=
  (getThreadDetails_one_reply_fetch (mockUseCase mockComments) (fun _ => Except.ok ())
    "thread-123" () () () () mockThread mockComments rfl rfl rfl rfl
    (by simp [mockComments])).2.1

/-- The result of the thread-detail use case when every call resolves and the `DetailThread`
guard accepts the thread record: the results of the callback of `comments.map`, set on the
thread detail, or the first error of the callback. -/
theorem GetThreadDetailsUseCase.execute_result (uc : GetThreadDetailsUseCase σ)
    (verify : ThreadPayload → Except Err Unit) (threadId : String) (s s1 s2 s3 s4 : σ)
    (thread : ThreadPayload) (comments : List CommentPayload) (replies : List ReplyPayload)
    (h1 : uc.threadRepository.verifyAvailableThread threadId s = (Except.ok (), s1))
    (h2 : uc.threadRepository.getThreadById threadId s1 = (Except.ok thread, s2))
    (h3 : uc.commentRepository.getCommentsByThreadId threadId s2 = (Except.ok comments, s3))
    (h4 : verify thread = Except.ok ())
    (h5 : uc.replyRepository.getRepliesByCommentIds (comments.map (fun c => c.id)) s3
      = (Except.ok replies, s4)) :
    (uc.execute verify threadId s).result =
      Except.map
        (fun dcs =>
          DetailThread.mk thread.id thread.title thread.body thread.date thread.username dcs)
        (mapThrow (GetThreadDetailsUseCase.detailCommentOf replies) comments) := by
  by_cases hne : comments = []
  · subst hne
    rw [GetThreadDetailsUseCase.execute_of_no_comments uc verify threadId s s1 s2 s3 thread
      h1 h2 h3 h4]
    rfl
  · have hlen : comments.length ≠ 0 := fun hl => hne (List.length_eq_zero.mp hl)
    cases h6 : mapThrow (GetThreadDetailsUseCase.detailCommentOf replies) comments with
    | error e =>
      simp [GetThreadDetailsUseCase.execute, bind, Run.andThen, Run.call, Run.eval,
        pure, DetailThread.new, h1, h2, h3, h4, h5, h6, hlen, Except.map]
    | ok dcs =>
      rw [GetThreadDetailsUseCase.execute_of_comments uc verify threadId s s1 s2 s3 s4 thread
        comments replies dcs h1 h2 h3 h4 hne h5 h6]
      rfl

/-- The loop `mapThrow` throws only an error its callback throws on an element. -/
theorem mapThrow_error_inv {α β : Type} (f : α → Except Err β) (l : List α) (e : Err)
    (h : mapThrow f l = Except.error e) : ∃ a ∈ l, f a = Except.error e := by
  induction l with
  | nil => simp [mapThrow] at h
  | cons a as ih =>
    unfold mapThrow at h
    cases hfa : f a with
    | error e2 =>
      rw [hfa] at h
      simp only [Except.error.injEq] at h
      exact ⟨a, List.mem_cons_self _ _, h ▸ hfa⟩
    | ok b =>
      rw [hfa] at h
      cases hrest : mapThrow f as with
      | error e2 =>
        rw [hrest] at h
        simp only [Except.error.injEq] at h
        obtain ⟨x, hx, hfx⟩ := ih (h ▸ hrest)
        exact ⟨x, List.mem_cons_of_mem _ hx, hfx⟩
      | ok bs =>
        rw [hrest] at h
        simp at h

/-- The filter of the callback on a comment whose id is a string. -/
theorem filter_strictEq_of_new_ok (replies : List ReplyPayload) (c : CommentPayload)
    (dc0 : DetailComment) (hc : DetailComment.new c = Except.ok dc0) :
    replies.filter (fun reply => reply.comment_id.strictEq c.id)
      = replies.filter (fun r => decide (r.comment_id = c.id)) := by
  obtain ⟨-, -, -, -, i, hi⟩ := detailComment_new_ok_fields c dc0 hc
  congr 1
  funext r
  rw [hi, JsVal.strictEq_str]

/-- What a returning callback of `comments.map` tells. -/
theorem GetThreadDetailsUseCase.detailCommentOf_ok_inv (replies : List ReplyPayload)
    (c : CommentPayload) (dc : DetailComment)
    (h : GetThreadDetailsUseCase.detailCommentOf replies c = Except.ok dc) :
    ∃ dc0 rs, DetailComment.new c = Except.ok dc0 ∧
      mapThrow DetailReply.new (replies.filter (fun r => decide (r.comment_id = c.id)))
        = Except.ok rs ∧
      dc = { dc0 with replies := rs } := by
  cases hnew : DetailComment.new c with
  | error e =>
    simp [GetThreadDetailsUseCase.detailCommentOf, hnew, bind, Except.bind] at h
  | ok dc0 =>
    rw [← filter_strictEq_of_new_ok replies c dc0 hnew]
    cases hrs : mapThrow DetailReply.new
        (replies.filter (fun reply => reply.comment_id.strictEq c.id)) with
    | error e =>
      simp [GetThreadDetailsUseCase.detailCommentOf, hnew, hrs, bind, Except.bind] at h
    | ok rs =>
      simp only [GetThreadDetailsUseCase.detailCommentOf, hnew, hrs, bind, Except.bind, pure,
        Except.pure, Except.ok.injEq] at h
      exact ⟨dc0, rs, rfl, rfl, h.symm⟩

/-- What a throwing callback of `comments.map` tells: the comment is rejected, or it is
accepted and a fetched reply with its id is rejected. -/
theorem GetThreadDetailsUseCase.detailCommentOf_error_inv (replies : List ReplyPayload)
    (c : CommentPayload) (e : Err)
    (h : GetThreadDetailsUseCase.detailCommentOf replies c = Except.error e) :
    DetailComment.new c = Except.error e ∨
      ((∃ dc0, DetailComment.new c = Except.ok dc0) ∧
        ∃ r ∈ replies, r.comment_id = c.id ∧ DetailReply.new r = Except.error e) := by
  cases hnew : DetailComment.new c with
  | error e2 =>
    simp only [GetThreadDetailsUseCase.detailCommentOf, hnew, bind, Except.bind,
      Except.error.injEq] at h
    exact Or.inl (h ▸ rfl)
  | ok dc0 =>
    right
    refine ⟨⟨dc0, rfl⟩, ?_⟩
    cases hrs : mapThrow DetailReply.new
        (replies.filter (fun reply => reply.comment_id.strictEq c.id)) with
    | error e2 =>
      simp only [GetThreadDetailsUseCase.detailCommentOf, hnew, hrs, bind, Except.bind,
        Except.error.injEq] at h
      subst h
      rw [filter_strictEq_of_new_ok replies c dc0 hnew] at hrs
      obtain ⟨r, hr, hre⟩ := mapThrow_error_inv _ _ _ hrs
      simp only [List.mem_filter, decide_eq_true_eq] at hr
      exact ⟨r, hr.1, hr.2, hre⟩
    | ok rs =>
      simp [GetThreadDetailsUseCase.detailCommentOf, hnew, hrs, bind, Except.bind, pure,
        Except.pure] at h

/-- Every element of the left list of two lists related elementwise has a partner. -/
theorem forall₂_exists_right {α β : Type} {R : α → β → Prop} {l1 : List α} {l2 : List β}
    (hall : List.Forall₂ R l1 l2) : ∀ a ∈ l1, ∃ b ∈ l2, R a b := by
  induction hall with
  | nil => intro a ha; exact absurd ha (List.not_mem_nil a)
  | @cons a b as bs hab _ ih =>
    intro x hx
    rcases List.mem_cons.mp hx with rfl | hx
    · exact ⟨b, List.mem_cons_self _ _, hab⟩
    · obtain ⟨y, hy, hr⟩ := ih x hx
      exact ⟨y, List.mem_cons_of_mem _ hy, hr⟩

/-- The callback of `comments.map` returns on a comment the entity accepts when every
fetched reply with the id of the comment is one `DetailReply` accepts. -/
theorem GetThreadDetailsUseCase.detailCommentOf_ok_of_matching (replies : List ReplyPayload)
    (c : CommentPayload) (hc : ∃ dc0, DetailComment.new c = Except.ok dc0)
    (hr : ∀ r ∈ replies, r.comment_id = c.id → ∃ dr, DetailReply.new r = Except.ok dr) :
    ∃ dc, GetThreadDetailsUseCase.detailCommentOf replies c = Except.ok dc := by
  obtain ⟨dc0, h0⟩ := hc
  obtain ⟨rs, hrs⟩ := mapThrow_ok_of_forall DetailReply.new
    (replies.filter (fun r => decide (r.comment_id = c.id)))
    (fun r hmem => by
      simp only [List.mem_filter, decide_eq_true_eq] at hmem
      exact hr r hmem.1 hmem.2)
  refine ⟨{ dc0 with replies := rs }, ?_⟩
  simp only [GetThreadDetailsUseCase.detailCommentOf, h0,
    filter_strictEq_of_new_ok replies c dc0 h0, hrs, bind, Except.bind, pure, Except.pure]

/-- The detail comments of the fetched comments, in order, when the callback of
`comments.map` returns on each: every one is the projection of its comment with the
projections of the fetched replies of that id as its replies. -/
theorem GetThreadDetailsUseCase.detailComments_inv (replies : List ReplyPayload)
    (comments : List CommentPayload) (dcs : List DetailComment)
    (h : mapThrow (GetThreadDetailsUseCase.detailCommentOf replies) comments = Except.ok dcs) :
    List.Forall₂
      (fun c dc => ∃ dc0, DetailComment.new c = Except.ok dc0 ∧
        dc = { dc0 with replies := dc.replies } ∧
        List.Forall₂ (fun r dr => DetailReply.new r = Except.ok dr)
          (replies.filter (fun r => decide (r.comment_id = c.id))) dc.replies)
      comments dcs := by
  refine ((mapThrow_eq_ok_iff _ _ _).mp h).imp ?_
  intro c dc hcd
  obtain ⟨dc0, rs, h0, hrs, rfl⟩ :=
    GetThreadDetailsUseCase.detailCommentOf_ok_inv replies c dc hcd
  exact ⟨dc0, h0, rfl, (mapThrow_eq_ok_iff _ _ _).mp hrs⟩

/-- Claim C22: a `DetailComment` always carries a replies sequence. A freshly constructed
one has `replies = []`; and when the thread is found and the fetched records are accepted,
`GetThreadDetailsUseCase.execute` returns a thread detail in which the comments are the
fetched comments, id by id, and a comment for which no fetched reply has a `comment_id`
equal to its id has `replies = []`. -/
theorem detail_comment_replies_never_absent (uc : GetThreadDetailsUseCase σ)
    (verify : ThreadPayload → Except Err Unit) (threadId : String) (s s1 s2 s3 s4 : σ)
    (thread : ThreadPayload) (comments : List CommentPayload) (replies : List ReplyPayload)
    (h1 : uc.threadRepository.verifyAvailableThread threadId s = (Except.ok (), s1))
    (h2 : uc.threadRepository.getThreadById threadId s1 = (Except.ok thread, s2))
    (h3 : uc.commentRepository.getCommentsByThreadId threadId s2 = (Except.ok comments, s3))
    (h4 : verify thread = Except.ok ())
    (h5 : uc.replyRepository.getRepliesByCommentIds (comments.map (fun c => c.id)) s3
      = (Except.ok replies, s4))
    (hc : ∀ c ∈ comments, ∃ dc, DetailComment.new c = Except.ok dc)
    (hr : ∀ r ∈ replies, (∃ c ∈ comments, r.comment_id = c.id) →
      ∃ dr, DetailReply.new r = Except.ok dr) :
    (∀ p dc, DetailComment.new p = Except.ok dc → dc.replies = []) ∧
    ∃ dt, (uc.execute verify threadId s).result = Except.ok dt ∧
      List.Forall₂
        (fun c dc => dc.id = c.id ∧
          ((∀ r ∈ replies, r.comment_id ≠ c.id) → dc.replies = []))
        comments dt.comments := by
  refine ⟨fun p dc h => (detailComment_new_ok_fields p dc h).2.2.2.1, ?_⟩
  obtain ⟨dcs, hdcs⟩ := mapThrow_ok_of_forall (GetThreadDetailsUseCase.detailCommentOf replies)
    comments (fun c hmem =>
      GetThreadDetailsUseCase.detailCommentOf_ok_of_matching replies c (hc c hmem)
        (fun r hrm heq => hr r hrm ⟨c, hmem, heq⟩))
  refine ⟨DetailThread.mk thread.id thread.title thread.body thread.date thread.username dcs,
    ?_, ?_⟩
  · rw [GetThreadDetailsUseCase.execute_result uc verify threadId s s1 s2 s3 s4 thread
      comments replies h1 h2 h3 h4 h5, hdcs]
    rfl
  · refine (GetThreadDetailsUseCase.detailComments_inv replies comments dcs hdcs).imp ?_
    rintro c dc ⟨dc0, h0, hdc, hfor⟩
    refine ⟨?_, fun hnone => ?_⟩
    · rw [hdc]
      exact (detailComment_new_ok_fields c dc0 h0).1
    · have hnil : replies.filter (fun r => decide (r.comment_id = c.id)) = [] := by
        rw [List.filter_eq_nil_iff]
        intro r hrm
        simpa using hnone r hrm
      rw [hnil] at hfor
      exact List.forall₂_nil_left_iff.mp hfor

/-- The theorem for C22 at the mocks of the use case test, with a fetched comment that has
no reply. -/
theorem detail_comment_replies_never_absent_witness :
    ∃ dt, ((mockUseCase [lonelyComment]).execute (fun _ => Except.ok ()) "thread-123"
        ()).result = Except.ok dt ∧
      List.Forall₂
        (fun c dc => dc.id = c.id ∧
          ((∀ r ∈ mockReplies, r.comment_id ≠ c.id) → dc.replies = []))
        [lonelyComment] dt.comments :=
  (detail_comment_replies_never_absent (mockUseCase [lonelyComment]) (fun _ => Except.ok ())
    "thread-123" () () () () () mockThread [lonelyComment] mockReplies rfl rfl rfl rfl rfl
    (fun c hc => by
      rw [List.mem_singleton.mp hc]
      exact ⟨_, rfl⟩)
    (fun r hr _ => mockReplies_valid r hr)).2

/-- Claim C28: when the thread is found and the thread record is accepted,
`GetThreadDetailsUseCase.execute` returns a thread detail if and only if every fetched
comment is accepted by `DetailComment` and every fetched reply whose `comment_id` equals the
id of a fetched comment is accepted by `DetailReply`; a fetched reply that matches no
fetched comment plays no part. Otherwise it fails, with the validation error of a fetched
comment or of a fetched reply that matches a fetched comment, and returns nothing. -/
theorem getThreadDetails_no_partial_result (uc : GetThreadDetailsUseCase σ)
    (verify : ThreadPayload → Except Err Unit) (threadId : String) (s s1 s2 s3 s4 : σ)
    (thread : ThreadPayload) (comments : List CommentPayload) (replies : List ReplyPayload)
    (h1 : uc.threadRepository.verifyAvailableThread threadId s = (Except.ok (), s1))
    (h2 : uc.threadRepository.getThreadById threadId s1 = (Except.ok thread, s2))
    (h3 : uc.commentRepository.getCommentsByThreadId threadId s2 = (Except.ok comments, s3))
    (h4 : verify thread = Except.ok ())
    (h5 : uc.replyRepository.getRepliesByCommentIds (comments.map (fun c => c.id)) s3
      = (Except.ok replies, s4)) :
    ((∃ dt, (uc.execute verify threadId s).result = Except.ok dt) ↔
      (∀ c ∈ comments, ∃ dc, DetailComment.new c = Except.ok dc) ∧
      (∀ r ∈ replies, (∃ c ∈ comments, r.comment_id = c.id) →
        ∃ dr, DetailReply.new r = Except.ok dr)) ∧
    (∀ e, (uc.execute verify threadId s).result = Except.error e →
      (∃ c ∈ comments, DetailComment.new c = Except.error e) ∨
      (∃ r ∈ replies, ∃ c ∈ comments, r.comment_id = c.id ∧
        DetailReply.new r = Except.error e)) := by
  rw [GetThreadDetailsUseCase.execute_result uc verify threadId s s1 s2 s3 s4 thread
    comments replies h1 h2 h3 h4 h5]
  refine ⟨⟨?_, ?_⟩, ?_⟩
  · rintro ⟨dt, hdt⟩
    cases hm : mapThrow (GetThreadDetailsUseCase.detailCommentOf replies) comments with
    | error e => rw [hm] at hdt; simp [Except.map] at hdt
    | ok dcs =>
      have hall := GetThreadDetailsUseCase.detailComments_inv replies comments dcs hm
      refine ⟨fun c hcm => ?_, fun r hrm ⟨c, hcm, heq⟩ => ?_⟩
      · obtain ⟨dc, -, dc0, h0, -, -⟩ := forall₂_exists_right hall c hcm
        exact ⟨dc0, h0⟩
      · obtain ⟨dc, -, dc0, h0, -, hfor⟩ := forall₂_exists_right hall c hcm
        have hmem : r ∈ replies.filter (fun r => decide (r.comment_id = c.id)) := by
          simp [List.mem_filter, hrm, heq]
        obtain ⟨dr, -, hdr⟩ := forall₂_exists_right hfor r hmem
        exact ⟨dr, hdr⟩
  · rintro ⟨hc, hr⟩
    obtain ⟨dcs, hdcs⟩ := mapThrow_ok_of_forall
      (GetThreadDetailsUseCase.detailCommentOf replies) comments (fun c hmem =>
        GetThreadDetailsUseCase.detailCommentOf_ok_of_matching replies c (hc c hmem)
          (fun r hrm heq => hr r hrm ⟨c, hmem, heq⟩))
    rw [hdcs]
    exact ⟨_, rfl⟩
  · intro e he
    cases hm : mapThrow (GetThreadDetailsUseCase.detailCommentOf replies) comments with
    | ok dcs => rw [hm] at he; simp [Except.map] at he
    | error e2 =>
      rw [hm] at he
      simp only [Except.map, Except.error.injEq] at he
      subst he
      obtain ⟨c, hcm, hce⟩ := mapThrow_error_inv _ _ _ hm
      rcases GetThreadDetailsUseCase.detailCommentOf_error_inv replies c _ hce with
        hnew | ⟨-, r, hrm, heq, hre⟩
      · exact Or.inl ⟨c, hcm, hnew⟩
      · exact Or.inr ⟨r, hrm, c, hcm, heq, hre⟩

/-- The theorem for C28 at the mocks of the use case test, with a fetched comment whose
content is the empty string: no thread detail is returned. -/
theorem getThreadDetails_no_partial_result_witness :
    ¬ ∃ dt, ((mockUseCase [emptyContentComment false]).execute (fun _ => Except.ok ())
        "thread-123" ()).result = Except.ok dt :=
  fun h =>
    (((getThreadDetails_no_partial_result (mockUseCase [emptyContentComment false])
      (fun _ => Except.ok ()) "thread-123" () () () () () mockThread
      [emptyContentComment false] mockReplies rfl rfl rfl rfl rfl).1.mp h).1
      (emptyContentComment false) (List.mem_singleton.mpr rfl)).elim
      (fun dc hdc => by
        have herr : DetailComment.new (emptyContentComment false)
            = Except.error (Err.Error "DETAIL_COMMENT.NOT_CONTAIN_NEEDED_PROPERTY") := rfl
        rw [herr] at hdc
        exact absurd hdc (by simp))

/-- Filtering a list by two conditions that exclude each other and joining the results
gives, up to order, the elements that meet one of them. -/
theorem filter_append_filter_perm {α : Type} (p q : α → Bool) (l : List α)
    (hpq : ∀ a ∈ l, ¬ (p a = true ∧ q a = true)) :
    (l.filter p ++ l.filter q).Perm (l.filter (fun a => p a || q a)) := by
  induction l with
  | nil => exact List.Perm.refl _
  | cons a as ih =>
    have ih2 := ih (fun x hx => hpq x (List.mem_cons_of_mem _ hx))
    have ha := hpq a (List.mem_cons_self _ _)
    cases hp : p a <;> cases hq : q a
    · simpa [List.filter_cons, hp, hq] using ih2
    · simp only [List.filter_cons, hp, hq, Bool.false_eq_true, if_false, if_true,
        Bool.or_true]
      exact List.perm_middle.trans (List.Perm.cons a ih2)
    · simp only [List.filter_cons, hp, hq, Bool.false_eq_true, if_false, if_true,
        Bool.or_false, List.cons_append]
      exact List.Perm.cons a ih2
    · exact absurd ⟨hp, hq⟩ ha

/-- Grouping a list by distinct keys: the groups, joined in the order of the keys, are up
to order the elements whose key is among the keys. -/
theorem flatMap_filter_key_perm {α κ : Type} [DecidableEq κ] (key : α → κ) (l : List α)
    (ids : List κ) (hnd : ids.Nodup) :
    (ids.flatMap (fun i => l.filter (fun a => decide (key a = i)))).Perm
      (l.filter (fun a => decide (key a ∈ ids))) := by
  induction ids with
  | nil => simp
  | cons i rest ih =>
    have hnot : i ∉ rest := (List.nodup_cons.mp hnd).1
    have ih2 := ih (List.nodup_cons.mp hnd).2
    rw [List.flatMap_cons]
    refine (List.Perm.append_left _ ih2).trans ?_
    refine (filter_append_filter_perm _ _ l ?_).trans ?_
    · intro a _ ⟨h1, h2⟩
      simp only [decide_eq_true_eq] at h1 h2
      exact hnot (h1 ▸ h2)
    · apply List.Perm.of_eq
      congr 1
      funext a
      simp [List.mem_cons]

/-- Claim C29: when the thread is found, the fetched records are accepted and the fetched
comments have pairwise distinct ids, `GetThreadDetailsUseCase.execute` returns a thread
detail that partitions the fetched replies: the replies of each comment are the projections
of the fetched replies whose `comment_id` is its id, in fetch order; these groups, taken
together, are up to order the fetched replies whose `comment_id` is the id of a fetched
comment, each once, so a reply that matches no comment is in no group; and the number of
nested replies is the number of those fetched replies. -/
theorem getThreadDetails_partitions_replies (uc : GetThreadDetailsUseCase σ)
    (verify : ThreadPayload → Except Err Unit) (threadId : String) (s s1 s2 s3 s4 : σ)
    (thread : ThreadPayload) (comments : List CommentPayload) (replies : List ReplyPayload)
    (h1 : uc.threadRepository.verifyAvailableThread threadId s = (Except.ok (), s1))
    (h2 : uc.threadRepository.getThreadById threadId s1 = (Except.ok thread, s2))
    (h3 : uc.commentRepository.getCommentsByThreadId threadId s2 = (Except.ok comments, s3))
    (h4 : verify thread = Except.ok ())
    (h5 : uc.replyRepository.getRepliesByCommentIds (comments.map (fun c => c.id)) s3
      = (Except.ok replies, s4))
    (hc : ∀ c ∈ comments, ∃ dc, DetailComment.new c = Except.ok dc)
    (hr : ∀ r ∈ replies, (∃ c ∈ comments, r.comment_id = c.id) →
      ∃ dr, DetailReply.new r = Except.ok dr)
    (hdistinct : (comments.map (fun c => c.id)).Nodup) :
    ∃ dt, (uc.execute verify threadId s).result = Except.ok dt ∧
      List.Forall₂
        (fun c dc => dc.id = c.id ∧
          List.Forall₂ (fun r dr => DetailReply.new r = Except.ok dr)
            (replies.filter (fun r => decide (r.comment_id = c.id))) dc.replies)
        comments dt.comments ∧
      (comments.flatMap
          (fun c => replies.filter (fun r => decide (r.comment_id = c.id)))).Perm
        (replies.filter (fun r => decide (r.comment_id ∈ comments.map (fun c => c.id)))) ∧
      (dt.comments.map (fun dc => dc.replies.length)).sum
        = (replies.filter
            (fun r => decide (r.comment_id ∈ comments.map (fun c => c.id)))).length := by
  obtain ⟨dcs, hdcs⟩ := mapThrow_ok_of_forall (GetThreadDetailsUseCase.detailCommentOf replies)
    comments (fun c hmem =>
      GetThreadDetailsUseCase.detailCommentOf_ok_of_matching replies c (hc c hmem)
        (fun r hrm heq => hr r hrm ⟨c, hmem, heq⟩))
  have hall := GetThreadDetailsUseCase.detailComments_inv replies comments dcs hdcs
  have hperm : (comments.flatMap
      (fun c => replies.filter (fun r => decide (r.comment_id = c.id)))).Perm
      (replies.filter (fun r => decide (r.comment_id ∈ comments.map (fun c => c.id)))) := by
    have := flatMap_filter_key_perm (fun r : ReplyPayload => r.comment_id) replies
      (comments.map (fun c => c.id)) hdistinct
    rwa [List.flatMap_map] at this
  have hlens : dcs.map (fun dc => dc.replies.length)
      = comments.map
        (fun c => (replies.filter (fun r => decide (r.comment_id = c.id))).length) := by
    symm
    refine forall₂_map_eq _ _ ?_ hall
    rintro c dc ⟨dc0, -, -, hfor⟩
    exact hfor.length_eq
  refine ⟨DetailThread.mk thread.id thread.title thread.body thread.date thread.username dcs,
    ?_, ?_, hperm, ?_⟩
  · rw [GetThreadDetailsUseCase.execute_result uc verify threadId s s1 s2 s3 s4 thread
      comments replies h1 h2 h3 h4 h5, hdcs]
    rfl
  · refine hall.imp ?_
    rintro c dc ⟨dc0, h0, hdc, hfor⟩
    refine ⟨?_, hfor⟩
    rw [hdc]
    exact (detailComment_new_ok_fields c dc0 h0).1
  · show (dcs.map (fun dc => dc.replies.length)).sum = _
    rw [hlens, ← hperm.length_eq, List.length_flatMap]
    rfl

/-- The theorem for C29 at the mocks of the use case test. -/
theorem getThreadDetails_partitions_replies_witness :
    ∃ dt, ((mockUseCase mockComments).execute (fun _ => Except.ok ()) "thread-123"
        ()).result = Except.ok dt ∧
      (dt.comments.map (fun dc => dc.replies.length)).sum
        = (mockReplies.filter
            (fun r => decide (r.comment_id ∈ mockComments.map (fun c => c.id)))).length :=
  (getThreadDetails_partitions_replies (mockUseCase mockComments) (fun _ => Except.ok ())
    "thread-123" () () () () () mockThread mockComments mockReplies rfl rfl rfl rfl rfl
    mockComments_valid (fun r hr _ => mockReplies_valid r hr) (by decide)).elim
    (fun dt h => ⟨dt, h.1, h.2.2.2⟩)

/-- The loop `mapThrow` gives the same result on two lists on whose elements, taken in
pairs, the callbacks agree. -/
theorem mapThrow_congr_forall₂ {α β γ : Type} (f : α → Except Err γ) (g : β → Except Err γ)
    {l1 : List α} {l2 : List β} (h : List.Forall₂ (fun a b => f a = g b) l1 l2) :
    mapThrow f l1 = mapThrow g l2 := by
  induction h with
  | nil => rfl
  | cons hab _ ih => simp only [mapThrow, hab, ih]

/-- Two lists related elementwise stay related when both are filtered by conditions that
agree on related elements. -/
theorem forall₂_filter {α β : Type} {R : α → β → Prop} (p : α → Bool) (q : β → Bool)
    (hpq : ∀ a b, R a b → p a = q b) {l1 : List α} {l2 : List β}
    (h : List.Forall₂ R l1 l2) : List.Forall₂ R (l1.filter p) (l2.filter q) := by
  induction h with
  | nil => exact List.Forall₂.nil
  | @cons a b as bs hab _ ih =>
    have hp := hpq a b hab
    cases hq : q b
    · rw [hq] at hp
      simpa [List.filter_cons, hp, hq] using ih
    · rw [hq] at hp
      simpa [List.filter_cons, hp, hq] using List.Forall₂.cons hab ih

/-- Two lists related elementwise are related by the relation together with what holds of
all the elements of each. -/
theorem forall₂_and_mem {α β : Type} {R : α → β → Prop} {P : α → Prop} {Q : β → Prop}
    {l1 : List α} {l2 : List β} (h : List.Forall₂ R l1 l2) (hP : ∀ a ∈ l1, P a)
    (hQ : ∀ b ∈ l2, Q b) : List.Forall₂ (fun a b => R a b ∧ P a ∧ Q b) l1 l2 := by
  induction h with
  | nil => exact List.Forall₂.nil
  | @cons a b as bs hab _ ih =>
    exact List.Forall₂.cons
      ⟨hab, hP a (List.mem_cons_self _ _), hQ b (List.mem_cons_self _ _)⟩
      (ih (fun x hx => hP x (List.mem_cons_of_mem _ hx))
        (fun x hx => hQ x (List.mem_cons_of_mem _ hx)))

/-- Two accepted comment payloads that differ at most in the content of a deleted comment
have the same detail comment. -/
theorem detailComment_new_eq_of_same_visible (a b : CommentPayload) (da db : DetailComment)
    (ha : DetailComment.new a = Except.ok da) (hb : DetailComment.new b = Except.ok db)
    (hid : a.id = b.id) (hun : a.username = b.username) (hdt : a.date = b.date)
    (hdel : a.is_delete = b.is_delete)
    (hcontent : a.is_delete ≠ JsVal.bool true → a.content = b.content) : da = db := by
  unfold DetailComment.new at ha hb
  split at ha
  · exact absurd ha (by simp)
  · split at hb
    · exact absurd hb (by simp)
    · simp only [Except.ok.injEq] at ha hb
      subst ha
      subst hb
      simp only [hid, hun, hdt, ← hdel, DetailComment.mk.injEq, and_true, true_and]
      cases ht : a.is_delete.truthy
      · have : a.is_delete ≠ JsVal.bool true := by
          intro h
          rw [h] at ht
          exact absurd ht (by simp [JsVal.truthy])
        simp [hcontent this]
      · simp

/-- Two accepted reply payloads that differ at most in the content of a deleted reply have
the same detail reply. -/
theorem detailReply_new_eq_of_same_visible (a b : ReplyPayload) (da db : DetailReply)
    (ha : DetailReply.new a = Except.ok da) (hb : DetailReply.new b = Except.ok db)
    (hid : a.id = b.id) (hun : a.username = b.username) (hdt : a.date = b.date)
    (hdel : a.is_delete = b.is_delete)
    (hcontent : a.is_delete ≠ JsVal.bool true → a.content = b.content) : da = db := by
  unfold DetailReply.new at ha hb
  split at ha
  · exact absurd ha (by simp)
  · split at ha
    · exact absurd ha (by simp)
    · split at hb
      · exact absurd hb (by simp)
      · split at hb
        · exact absurd hb (by simp)
        · simp only [Except.ok.injEq] at ha hb
          subst ha
          subst hb
          simp only [hid, hun, hdt, ← hdel, DetailReply.mk.injEq, and_true, true_and]
          cases ht : a.is_delete.truthy
          · have : a.is_delete ≠ JsVal.bool true := by
              intro h
              rw [h] at ht
              exact absurd ht (by simp [JsVal.truthy])
            simp [hcontent this]
          · simp

/-- Claim C30: the content of deleted records does not influence the thread detail. For
two runs of `GetThreadDetailsUseCase.execute` in which the thread is found, the thread
record is the same and accepted, and the fetched comments and replies are accepted and
agree pair by pair in every property except the content of those with `is_delete = true`,
both runs return, and they return the same thread detail. -/
theorem deleted_content_not_observable (uc1 uc2 : GetThreadDetailsUseCase σ)
    (verify : ThreadPayload → Except Err Unit) (threadId : String)
    (s s1 s2 s3 s4 t t1 t2 t3 t4 : σ) (thread : ThreadPayload)
    (comments1 comments2 : List CommentPayload) (replies1 replies2 : List ReplyPayload)
    (a1 : uc1.threadRepository.verifyAvailableThread threadId s = (Except.ok (), s1))
    (a2 : uc1.threadRepository.getThreadById threadId s1 = (Except.ok thread, s2))
    (a3 : uc1.commentRepository.getCommentsByThreadId threadId s2 = (Except.ok comments1, s3))
    (a5 : uc1.replyRepository.getRepliesByCommentIds (comments1.map (fun c => c.id)) s3
      = (Except.ok replies1, s4))
    (b1 : uc2.threadRepository.verifyAvailableThread threadId t = (Except.ok (), t1))
    (b2 : uc2.threadRepository.getThreadById threadId t1 = (Except.ok thread, t2))
    (b3 : uc2.commentRepository.getCommentsByThreadId threadId t2 = (Except.ok comments2, t3))
    (b5 : uc2.replyRepository.getRepliesByCommentIds (comments2.map (fun c => c.id)) t3
      = (Except.ok replies2, t4))
    (h4 : verify thread = Except.ok ())
    (hc1 : ∀ c ∈ comments1, ∃ dc, DetailComment.new c = Except.ok dc)
    (hc2 : ∀ c ∈ comments2, ∃ dc, DetailComment.new c = Except.ok dc)
    (hr1 : ∀ r ∈ replies1, ∃ dr, DetailReply.new r = Except.ok dr)
    (hr2 : ∀ r ∈ replies2, ∃ dr, DetailReply.new r = Except.ok dr)
    (hcs : List.Forall₂
      (fun a b => a.id = b.id ∧ a.username = b.username ∧ a.date = b.date ∧
        a.is_delete = b.is_delete ∧ (a.is_delete ≠ JsVal.bool true → a.content = b.content))
      comments1 comments2)
    (hrs : List.Forall₂
      (fun a b => a.id = b.id ∧ a.username = b.username ∧ a.date = b.date ∧
        a.comment_id = b.comment_id ∧ a.is_delete = b.is_delete ∧
        (a.is_delete ≠ JsVal.bool true → a.content = b.content))
      replies1 replies2) :
    (uc1.execute verify threadId s).result = (uc2.execute verify threadId t).result ∧
      ∃ dt, (uc1.execute verify threadId s).result = Except.ok dt := by
  rw [GetThreadDetailsUseCase.execute_result uc1 verify threadId s s1 s2 s3 s4 thread
      comments1 replies1 a1 a2 a3 h4 a5,
    GetThreadDetailsUseCase.execute_result uc2 verify threadId t t1 t2 t3 t4 thread
      comments2 replies2 b1 b2 b3 h4 b5]
  have hrv := forall₂_and_mem hrs hr1 hr2
  have hcv := forall₂_and_mem hcs hc1 hc2
  have hsame : mapThrow (GetThreadDetailsUseCase.detailCommentOf replies1) comments1
      = mapThrow (GetThreadDetailsUseCase.detailCommentOf replies2) comments2 := by
    apply mapThrow_congr_forall₂
    refine hcv.imp ?_
    rintro a b ⟨⟨hid, hun, hdt, hdel, hcontent⟩, ⟨da, hda⟩, ⟨db, hdb⟩⟩
    have hnew : DetailComment.new a = DetailComment.new b := by
      rw [hda, hdb, detailComment_new_eq_of_same_visible a b da db hda hdb hid hun hdt hdel
        hcontent]
    have hfilter : List.Forall₂ _
        (replies1.filter (fun reply => reply.comment_id.strictEq a.id))
        (replies2.filter (fun reply => reply.comment_id.strictEq b.id)) :=
      forall₂_filter _ _ (fun r1 r2 hr => by rw [hr.1.2.2.2.1, hid]) hrv
    have hreplies : mapThrow DetailReply.new
        (replies1.filter (fun reply => reply.comment_id.strictEq a.id))
        = mapThrow DetailReply.new
          (replies2.filter (fun reply => reply.comment_id.strictEq b.id)) := by
      apply mapThrow_congr_forall₂
      refine hfilter.imp ?_
      rintro r1 r2 ⟨⟨hid2, hun2, hdt2, -, hdel2, hcontent2⟩, ⟨d1, hd1⟩, ⟨d2, hd2⟩⟩
      rw [hd1, hd2, detailReply_new_eq_of_same_visible r1 r2 d1 d2 hd1 hd2 hid2 hun2 hdt2
        hdel2 hcontent2]
    simp only [GetThreadDetailsUseCase.detailCommentOf, hnew, hreplies]
  refine ⟨by rw [hsame], ?_⟩
  obtain ⟨dcs, hdcs, -⟩ := GetThreadDetailsUseCase.detailComments_ok replies1 comments1 hc1 hr1
  rw [hdcs]
  exact ⟨_, rfl⟩

/-- Every record of `mockCommentsAltered` is one `DetailComment` accepts. -/
theorem mockCommentsAltered_valid :
    ∀ c ∈ mockCommentsAltered, ∃ dc, DetailComment.new c = Except.ok dc := by
  intro c hc
  simp only [mockCommentsAltered, List.mem_cons, List.mem_singleton, List.not_mem_nil,
    or_false] at hc
  rcases hc with rfl | rfl
  · exact ⟨_, rfl⟩
  · exact ⟨_, rfl⟩

/-- Every record of `mockRepliesAltered` is one `DetailReply` accepts. -/
theorem mockRepliesAltered_valid :
    ∀ r ∈ mockRepliesAltered, ∃ dr, DetailReply.new r = Except.ok dr := by
  intro r hr
  simp only [mockRepliesAltered, List.mem_cons, List.mem_singleton, List.not_mem_nil,
    or_false] at hr
  rcases hr with rfl | rfl
  · exact ⟨_, rfl⟩
  · exact ⟨_, rfl⟩

/-- The theorem for C30 at the mocks of the use case test and the same records with other
contents stored for the deleted comment and the deleted reply. -/
theorem deleted_content_not_observable_witness :
    ((mockUseCaseOf mockComments mockReplies).execute (fun _ => Except.ok ()) "thread-123"
        ()).result
      = ((mockUseCaseOf mockCommentsAltered mockRepliesAltered).execute
          (fun _ => Except.ok ()) "thread-123" ()).result :=
  (deleted_content_not_observable (mockUseCaseOf mockComments mockReplies)
    (mockUseCaseOf mockCommentsAltered mockRepliesAltered) (fun _ => Except.ok ())
    "thread-123" () () () () () () () () () () mockThread mockComments mockCommentsAltered
    mockReplies mockRepliesAltered rfl rfl rfl rfl rfl rfl rfl rfl rfl
    mockComments_valid mockCommentsAltered_valid mockReplies_valid mockRepliesAltered_valid
    (List.Forall₂.cons ⟨rfl, rfl, rfl, rfl, fun _ => rfl⟩
      (List.Forall₂.cons ⟨rfl, rfl, rfl, rfl, fun h => absurd rfl h⟩ List.Forall₂.nil))
    (List.Forall₂.cons ⟨rfl, rfl, rfl, rfl, rfl, fun _ => rfl⟩
      (List.Forall₂.cons ⟨rfl, rfl, rfl, rfl, rfl, fun h => absurd rfl h⟩
        List.Forall₂.nil))).1

end Records

/-! ## The thread detail after a deletion, on every executor -/

/-- The method `getCommentsByThreadId` on the executor that meets the rows in table order
is the method as defined first. -/
theorem CommentRepositoryPostgres.getCommentsByThreadIdOn_table_order :
    CommentRepositoryPostgres.getCommentsByThreadIdOn (fun rows => rows)
      = CommentRepositoryPostgres.getCommentsByThreadId :=
  rfl

/-- The method `getRepliesByCommentIds` on the executor that meets the rows in table order
is the method as defined first. -/
theorem ReplyRepositoryPostgres.getRepliesByCommentIdsOn_table_order :
    ReplyRepositoryPostgres.getRepliesByCommentIdsOn (fun rows => rows)
      = ReplyRepositoryPostgres.getRepliesByCommentIds :=
  rfl

/-- The executor `flaggedLast` hands over the rows it is given, in another order. -/
theorem flaggedLast_perm (rows : List (CommentRow × UserRow)) :
    (flaggedLast rows).Perm rows := by
  unfold flaggedLast
  exact List.perm_append_comm.trans
    (List.filter_append_perm (fun cu : CommentRow × UserRow => cu.1.is_delete) rows)

/-- Whether some element of a list passes a test does not depend on the order of the
list. -/
theorem any_eq_of_perm {α : Type} (f : α → Bool) (l l2 : List α) (h : l.Perm l2) :
    l.any f = l2.any f := by
  rw [List.any_eq, List.any_eq]
  congr 1
  apply propext
  constructor
  · rintro ⟨x, hx, hf⟩
    exact ⟨x, h.mem_iff.mp hx, hf⟩
  · rintro ⟨x, hx, hf⟩
    exact ⟨x, h.mem_iff.mpr hx, hf⟩

/-- Two lists with the same elements, both in non-decreasing order of a key that no two
elements share, are the same list. -/
theorem eq_of_perm_of_sorted_key {α : Type} (k : α → Int) (l l2 : List α) (hp : l.Perm l2)
    (hs : l.Pairwise (fun a b => k a ≤ k b)) (hs2 : l2.Pairwise (fun a b => k a ≤ k b))
    (hn : (l.map k).Nodup) : l = l2 := by
  have hn2 : (l2.map k).Nodup := ((hp.map k).nodup_iff).mp hn
  have hlt : ∀ m : List α, m.Pairwise (fun a b => k a ≤ k b) → (m.map k).Nodup →
      m.Pairwise (fun a b => k a < k b) := by
    intro m hm hnm
    have hne : m.Pairwise (fun a b => k a ≠ k b) := List.pairwise_map.mp hnm
    exact (hm.and hne).imp (fun h => lt_of_le_of_ne h.1 h.2)
  haveI : IsAntisymm α (fun a b => k a < k b) :=
    ⟨fun a b h1 h2 => absurd h1 (not_lt_of_gt h2)⟩
  exact List.eq_of_perm_of_sorted hp (hlt l hs hn) (hlt l2 hs2 hn2)

/-- The loop `mapThrow` over the same elements in another order: it returns on both or on
neither, and the results are the same in the other order. -/
theorem mapThrow_perm {α β : Type} (f : α → Except Err β) (l l2 : List α) (h : l.Perm l2) :
    ∀ bs, mapThrow f l = Except.ok bs → ∃ bs2, mapThrow f l2 = Except.ok bs2 ∧ bs.Perm bs2 := by
  induction h with
  | nil => intro bs hbs; exact ⟨bs, hbs, List.Perm.refl _⟩
  | cons x _ ih =>
    intro bs hbs
    rw [mapThrow_eq_ok_iff] at hbs
    cases hbs with
    | cons hx htl =>
      obtain ⟨bs2, h2, hperm⟩ := ih _ ((mapThrow_eq_ok_iff f _ _).mpr htl)
      refine ⟨_ :: bs2, ?_, hperm.cons _⟩
      rw [mapThrow_eq_ok_iff] at h2 ⊢
      exact List.Forall₂.cons hx h2
  | swap x y l =>
    intro bs hbs
    rw [mapThrow_eq_ok_iff] at hbs
    cases hbs with
    | cons hy htl =>
      cases htl with
      | cons hx htl2 =>
        refine ⟨_ :: _ :: _, ?_, List.Perm.swap _ _ _⟩
        rw [mapThrow_eq_ok_iff]
        exact List.Forall₂.cons hx (List.Forall₂.cons hy htl2)
  | trans _ _ ih1 ih2 =>
    intro bs hbs
    obtain ⟨bs2, h2, hp2⟩ := ih1 bs hbs
    obtain ⟨bs3, h3, hp3⟩ := ih2 bs2 h2
    exact ⟨bs3, h3, hp2.trans hp3⟩

/-- The rows `getCommentsByThreadId` returns after `deleteComment(commentId)`, on an
executor that hands over the rows it selects in some order: the rows it returned before with
the flag of the rows of that id set, with the same date at every place of the list, and in the
same order when no two of them have the same date. -/
theorem CommentRepositoryPostgres.getCommentsByThreadIdOn_after_delete
    (scan : List (CommentRow × UserRow) → List (CommentRow × UserRow))
    (hscan : ∀ rows, (scan rows).Perm rows) (threadId commentId : String) (s : Store) :
    ∃ rows rows2,
      CommentRepositoryPostgres.getCommentsByThreadIdOn scan threadId s = (Except.ok rows, s) ∧
      CommentRepositoryPostgres.getCommentsByThreadIdOn scan threadId
          (CommentRepositoryPostgres.deleteComment commentId s).2
        = (Except.ok rows2, (CommentRepositoryPostgres.deleteComment commentId s).2) ∧
      rows2.Perm (rows.map (fun p =>
        if p.id = JsVal.str commentId then { p with is_delete := JsVal.bool true } else p)) ∧
      rows2.map (fun p => p.date) = rows.map (fun p => p.date) ∧
      ((rows.map (fun p => p.date)).Nodup → rows2 = rows.map (fun p =>
        if p.id = JsVal.str commentId then { p with is_delete := JsVal.bool true } else p)) ∧
      (∀ p ∈ rows, ∃ b, p.is_delete = JsVal.bool b) := by
  set upd : CommentRow → CommentRow :=
    fun c => if c.id = commentId then { c with is_delete := true } else c with hupd
  have hown : ∀ c, (upd c).owner = c.owner := by
    intro c; simp only [hupd]; split <;> rfl
  have hthr : ∀ c, (upd c).thread_id = c.thread_id := by
    intro c; simp only [hupd]; split <;> rfl
  have hdate : ∀ c, (upd c).date = c.date := by
    intro c; simp only [hupd]; split <;> rfl
  have hjoin : (s.comments.map upd).flatMap
      (fun c => (s.users.filter (fun u => c.owner = u.id)).map (fun u => (c, u)))
      = (s.comments.flatMap
        (fun c => (s.users.filter (fun u => c.owner = u.id)).map (fun u => (c, u)))).map
        (fun cu => (upd cu.1, cu.2)) := by
    rw [List.flatMap_map, List.map_flatMap]
    congr 1
    funext c
    simp only [hown, List.map_map]
    rfl
  have hfilter : ∀ l : List (CommentRow × UserRow),
      (l.map (fun cu => (upd cu.1, cu.2))).filter (fun cu => cu.1.thread_id = threadId)
        = (l.filter (fun cu => cu.1.thread_id = threadId)).map (fun cu => (upd cu.1, cu.2)) := by
    intro l
    rw [List.filter_map]
    congr 1
    congr 1
    funext cu
    simp only [Function.comp, hthr]
  -- the selected rows before the deletion, and the two answers of the sort
  set sel : List (CommentRow × UserRow) := (s.comments.flatMap
      (fun c => (s.users.filter (fun u => c.owner = u.id)).map (fun u => (c, u)))).filter
      (fun cu => cu.1.thread_id = threadId) with hsel
  set before : List (CommentRow × UserRow) :=
    (scan sel).insertionSort (fun a b => a.1.date ≤ b.1.date) with hbefore
  set after : List (CommentRow × UserRow) :=
    (scan (sel.map (fun cu => (upd cu.1, cu.2)))).insertionSort
      (fun a b => a.1.date ≤ b.1.date) with hafter
  set payload : CommentRow × UserRow → CommentPayload := fun cu =>
    { id := JsVal.str cu.1.id
      username := JsVal.str cu.2.username
      date := JsVal.date (some cu.1.date)
      content := JsVal.str cu.1.content
      is_delete := JsVal.bool cu.1.is_delete } with hpayload
  have hflag : ∀ l : List (CommentRow × UserRow),
      (l.map payload).map (fun p =>
        if p.id = JsVal.str commentId then { p with is_delete := JsVal.bool true } else p)
      = (l.map (fun cu => (upd cu.1, cu.2))).map payload := by
    intro l
    rw [List.map_map, List.map_map]
    apply List.map_congr_left
    rintro ⟨c, u⟩ -
    simp only [Function.comp, hupd, hpayload]
    by_cases hid : c.id = commentId
    · simp [hid]
    · simp [hid]
  have hperm : after.Perm (before.map (fun cu => (upd cu.1, cu.2))) := by
    refine (List.perm_insertionSort _ _).trans ((hscan _).trans ?_)
    exact (((List.perm_insertionSort _ _).trans (hscan sel)).map _).symm
  have hsortedAfter : after.Pairwise (fun a b => a.1.date ≤ b.1.date) :=
    List.sorted_insertionSort (fun a b : CommentRow × UserRow => a.1.date ≤ b.1.date) _
  have hsortedBefore : (before.map (fun cu => (upd cu.1, cu.2))).Pairwise
      (fun a b => a.1.date ≤ b.1.date) := by
    rw [List.pairwise_map]
    simp only [hdate]
    exact List.sorted_insertionSort (fun a b : CommentRow × UserRow => a.1.date ≤ b.1.date) _
  have hdatesMap : (before.map (fun cu => (upd cu.1, cu.2))).map (fun cu => cu.1.date)
      = before.map (fun cu => cu.1.date) := by
    rw [List.map_map]
    apply List.map_congr_left
    intro cu _
    simp only [Function.comp, hdate]
  have hdates : after.map (fun cu => cu.1.date) = before.map (fun cu => cu.1.date) := by
    rw [← hdatesMap]
    haveI : IsAntisymm Int (fun a b => a ≤ b) := ⟨fun _ _ h1 h2 => le_antisymm h1 h2⟩
    exact List.eq_of_perm_of_sorted (hperm.map _) (List.pairwise_map.mpr hsortedAfter)
      (List.pairwise_map.mpr hsortedBefore)
  refine ⟨before.map payload, after.map payload, rfl, ?_, ?_, ?_, ?_, ?_⟩
  · simp only [CommentRepositoryPostgres.getCommentsByThreadIdOn,
      CommentRepositoryPostgres.deleteComment, ← hupd, hjoin, hfilter]
  · rw [hflag]
    exact hperm.map _
  · have h2 : ∀ l : List (CommentRow × UserRow),
        (l.map payload).map (fun p => p.date)
          = (l.map (fun cu => cu.1.date)).map (fun d => JsVal.date (some d)) := by
      intro l
      rw [List.map_map, List.map_map]
      rfl
    rw [h2, h2, hdates]
  · intro hn
    rw [hflag]
    congr 1
    have hn2 : (before.map (fun cu => cu.1.date)).Nodup := by
      have h2 : (before.map payload).map (fun p => p.date)
          = (before.map (fun cu => cu.1.date)).map (fun d => JsVal.date (some d)) := by
        rw [List.map_map, List.map_map]
        rfl
      rw [h2] at hn
      exact hn.of_map _
    rw [← hdatesMap] at hn2
    exact (eq_of_perm_of_sorted_key (fun cu : CommentRow × UserRow => cu.1.date) _ _
      hperm.symm hsortedBefore hsortedAfter hn2).symm
  · intro p hp
    obtain ⟨cu, -, rfl⟩ := List.mem_map.mp hp
    exact ⟨_, rfl⟩

/-- After `deleteComment`, `getRepliesByCommentIds` answers as before, also when it is
given the same ids in another order. -/
theorem ReplyRepositoryPostgres.getRepliesByCommentIdsOn_after_delete
    (scan : List (ReplyRow × UserRow) → List (ReplyRow × UserRow))
    (sqlText : JsVal → Option String) (commentIds commentIds2 : List JsVal)
    (hids : commentIds2.Perm commentIds) (commentId : String) (s : Store) :
    (ReplyRepositoryPostgres.getRepliesByCommentIdsOn scan sqlText commentIds2
        (CommentRepositoryPostgres.deleteComment commentId s).2).result
      = (ReplyRepositoryPostgres.getRepliesByCommentIdsOn scan sqlText commentIds s).result := by
  have hany : ∀ ru : ReplyRow × UserRow,
      commentIds2.any (fun v => sqlText v = some ru.1.comment_id)
        = commentIds.any (fun v => sqlText v = some ru.1.comment_id) :=
    fun ru => any_eq_of_perm _ _ _ hids
  unfold ReplyRepositoryPostgres.getRepliesByCommentIdsOn
  rw [hids.length_eq]
  split
  · rfl
  · simp only [ReplyRepositoryPostgres.selectRepliesByCommentIdsOn,
      CommentRepositoryPostgres.deleteComment, hany]

/-- The method `getRepliesByCommentIds` leaves the database as it is, on every executor. -/
theorem ReplyRepositoryPostgres.getRepliesByCommentIdsOn_state
    (scan : List (ReplyRow × UserRow) → List (ReplyRow × UserRow))
    (sqlText : JsVal → Option String) (commentIds : List JsVal) (s : Store) :
    (ReplyRepositoryPostgres.getRepliesByCommentIdsOn scan sqlText commentIds s).state = s := by
  unfold ReplyRepositoryPostgres.getRepliesByCommentIdsOn
  split <;> rfl

/-- The method `getRepliesByCommentIds` resolves on every list of ids and every executor,
and leaves the database as it is. -/
theorem replyRepositoryPostgresOn_resolves
    (scan : List (ReplyRow × UserRow) → List (ReplyRow × UserRow))
    (sqlText : JsVal → Option String) (commentIds : List JsVal) (s : Store) :
    ∃ replies, (replyRepositoryPostgresOn scan sqlText).getRepliesByCommentIds commentIds s
      = (Except.ok replies, s) := by
  simp only [replyRepositoryPostgresOn,
    ReplyRepositoryPostgres.getRepliesByCommentIdsOn_state]
  unfold ReplyRepositoryPostgres.getRepliesByCommentIdsOn
  split
  · exact ⟨_, rfl⟩
  · exact ⟨_, rfl⟩

/-- The detail comments the callback of `comments.map` returns carry the dates of the
fetched comments, place by place. -/
theorem GetThreadDetailsUseCase.detailComments_dates (replies : List ReplyPayload)
    (comments : List CommentPayload) (dcs : List DetailComment)
    (h : mapThrow (GetThreadDetailsUseCase.detailCommentOf replies) comments = Except.ok dcs) :
    dcs.map (fun dc => dc.date) = comments.map (fun c => c.date) := by
  refine (forall₂_map_eq (fun c : CommentPayload => c.date) (fun dc : DetailComment => dc.date)
    ?_ (GetThreadDetailsUseCase.detailComments_inv replies comments dcs h)).symm
  rintro c dc ⟨dc0, h0, hdc, -⟩
  rw [hdc]
  exact (detailComment_new_ok_fields c dc0 h0).2.2.1.symm

/-- Claim C15, as amended: on every database on which `DeleteCommentUseCase.execute`
succeeds and on which `GetThreadDetailsUseCase.execute` returned a thread detail before,
whatever the order in which the executor of the database meets the rows it selects, the same
call after the deletion returns that thread detail with the same comments, each with the
same replies, except that the content of the comments with the deleted id is
`**komentar telah dihapus**`. The comments come with the same date at every place of the
list, so their order differs from the order before at most among comments of equal date,
and it is the same order when no two comments of the thread have the same date. In the
table, every comment row keeps its stored content. -/
theorem thread_detail_after_delete
    (scanComments : List (CommentRow × UserRow) → List (CommentRow × UserRow))
    (scanReplies : List (ReplyRow × UserRow) → List (ReplyRow × UserRow))
    (sqlText : JsVal → Option String)
    (verify : ThreadPayload → Except Err Unit) (s : Store) (p : DeleteCommentPayload)
    (dt : DetailThread)
    (hscan : ∀ rows, (scanComments rows).Perm rows)
    (hdel : (deleteCommentUseCase.execute p s).result = Except.ok ())
    (hbefore : ((getThreadDetailsUseCaseOn scanComments scanReplies sqlText).execute verify
      p.threadId s).result = Except.ok dt) :
    (∃ dcs,
      ((getThreadDetailsUseCaseOn scanComments scanReplies sqlText).execute verify p.threadId
          (deleteCommentUseCase.execute p s).state).result
        = Except.ok { dt with comments := dcs } ∧
      dcs.Perm (dt.comments.map (maskComment p.commentId)) ∧
      dcs.map (fun dc => dc.date) = dt.comments.map (fun dc => dc.date) ∧
      ((dt.comments.map (fun dc => dc.date)).Nodup →
        dcs = dt.comments.map (maskComment p.commentId))) ∧
      (deleteCommentUseCase.execute p s).state.comments.map (fun c => (c.id, c.content))
        = s.comments.map (fun c => (c.id, c.content)) := by
  obtain ⟨-, -, -, hstate⟩ := deleteCommentUseCase_execute_ok p s hdel
  rw [hstate]
  constructor
  · obtain ⟨s1, s2, s3, thread, comments, h1, h2, h3, h4, -⟩ :=
      GetThreadDetailsUseCase.execute_ok_inv
        (getThreadDetailsUseCaseOn scanComments scanReplies sqlText) verify p.threadId s dt
        hbefore
    -- the reads leave the database as it is
    have e1 : s1 = s := by
      have := congrArg Prod.snd h1
      simp only [getThreadDetailsUseCaseOn, threadRepositoryPostgres,
        ThreadRepositoryPostgres.verifyAvailableThread_state] at this
      exact this.symm
    subst e1
    have e2 : s2 = s1 := by
      have := congrArg Prod.snd h2
      simp only [getThreadDetailsUseCaseOn, threadRepositoryPostgres,
        ThreadRepositoryPostgres.getThreadById_state] at this
      exact this.symm
    subst e2
    have e3 : s3 = s2 := by
      have := congrArg Prod.snd h3
      simp only [getThreadDetailsUseCaseOn, commentRepositoryPostgresOn,
        CommentRepositoryPostgres.getCommentsByThreadIdOn] at this
      exact this.symm
    subst e3
    -- the comments before and after the deletion
    obtain ⟨rows, rows2, hrows, hrows2, hperm, hdates, hnodup, hflags⟩ :=
      CommentRepositoryPostgres.getCommentsByThreadIdOn_after_delete scanComments hscan
        p.threadId p.commentId s3
    have ec : comments = rows := by
      have := congrArg Prod.fst (h3.symm.trans hrows)
      simpa only [Except.ok.injEq] using this
    subst ec
    -- the replies before the deletion, and the thread detail as the callback builds it
    obtain ⟨replies, h5⟩ := replyRepositoryPostgresOn_resolves scanReplies sqlText
      (comments.map (fun c => c.id)) s3
    have hres := GetThreadDetailsUseCase.execute_result
      (getThreadDetailsUseCaseOn scanComments scanReplies sqlText) verify p.threadId
      s3 s3 s3 s3 s3 thread comments replies h1 h2 h3 h4 h5
    rw [hbefore] at hres
    cases h6 : mapThrow (GetThreadDetailsUseCase.detailCommentOf replies) comments with
    | error e => rw [h6] at hres; simp [Except.map] at hres
    | ok dcs =>
      rw [h6] at hres
      simp only [Except.map, Except.ok.injEq] at hres
      subst hres
      -- the same reads on the database after the deletion
      have h1b : (getThreadDetailsUseCaseOn scanComments scanReplies
          sqlText).threadRepository.verifyAvailableThread
          p.threadId (CommentRepositoryPostgres.deleteComment p.commentId s3).2
          = (Except.ok (), (CommentRepositoryPostgres.deleteComment p.commentId s3).2) := by
        apply Prod.ext
        · have := congrArg Prod.fst h1
          simp only [getThreadDetailsUseCaseOn, threadRepositoryPostgres] at this ⊢
          rw [ThreadRepositoryPostgres.verifyAvailableThread_after_delete]
          exact this
        · exact ThreadRepositoryPostgres.verifyAvailableThread_state _ _
      have h2b : (getThreadDetailsUseCaseOn scanComments scanReplies
          sqlText).threadRepository.getThreadById
          p.threadId (CommentRepositoryPostgres.deleteComment p.commentId s3).2
          = (Except.ok thread, (CommentRepositoryPostgres.deleteComment p.commentId s3).2) := by
        apply Prod.ext
        · have := congrArg Prod.fst h2
          simp only [getThreadDetailsUseCaseOn, threadRepositoryPostgres] at this ⊢
          rw [ThreadRepositoryPostgres.getThreadById_after_delete]
          exact this
        · exact ThreadRepositoryPostgres.getThreadById_state _ _
      have hids : (rows2.map (fun c => c.id)).Perm (comments.map (fun c => c.id)) := by
        refine (hperm.map _).trans (List.Perm.of_eq ?_)
        rw [List.map_map]
        apply List.map_congr_left
        intro q _
        simp only [Function.comp]
        split <;> rfl
      have h5b : (getThreadDetailsUseCaseOn scanComments scanReplies
          sqlText).replyRepository.getRepliesByCommentIds (rows2.map (fun c => c.id))
          (CommentRepositoryPostgres.deleteComment p.commentId s3).2
          = (Except.ok replies, (CommentRepositoryPostgres.deleteComment p.commentId s3).2) := by
        apply Prod.ext
        · have := congrArg Prod.fst h5
          simp only [getThreadDetailsUseCaseOn, replyRepositoryPostgresOn] at this ⊢
          rw [ReplyRepositoryPostgres.getRepliesByCommentIdsOn_after_delete scanReplies sqlText
            (comments.map (fun c => c.id)) (rows2.map (fun c => c.id)) hids]
          exact this
        · exact ReplyRepositoryPostgres.getRepliesByCommentIdsOn_state _ _ _ _
      have hres2 := GetThreadDetailsUseCase.execute_result
        (getThreadDetailsUseCaseOn scanComments scanReplies sqlText) verify p.threadId
        _ _ _ _ _ thread rows2 replies h1b h2b hrows2 h4 h5b
      -- the callback on the flagged comments, and on the same comments in another order
      have h6b := mapThrow_map_of (GetThreadDetailsUseCase.detailCommentOf replies)
        (GetThreadDetailsUseCase.detailCommentOf replies)
        (fun q => if q.id = JsVal.str p.commentId
          then { q with is_delete := JsVal.bool true } else q)
        (maskComment p.commentId)
        comments (fun q hq => by
          obtain ⟨b, hb⟩ := hflags q hq
          exact GetThreadDetailsUseCase.detailCommentOf_flagged replies p.commentId q b hb)
      rw [h6] at h6b
      obtain ⟨dcs2, h7, hperm2⟩ := mapThrow_perm
        (GetThreadDetailsUseCase.detailCommentOf replies) _ _ hperm.symm _ h6b
      refine ⟨dcs2, ?_, hperm2.symm, ?_, ?_⟩
      · rw [hres2, h7]
        rfl
      · rw [GetThreadDetailsUseCase.detailComments_dates replies rows2 dcs2 h7, hdates,
          ← GetThreadDetailsUseCase.detailComments_dates replies comments dcs h6]
      · intro hn
        have hn2 : (comments.map (fun c => c.date)).Nodup := by
          rw [← GetThreadDetailsUseCase.detailComments_dates replies comments dcs h6]
          exact hn
        rw [hnodup hn2, h6b] at h7
        simp only [Except.map, Except.ok.injEq] at h7
        exact h7.symm
  · rw [CommentRepositoryPostgres.deleteComment_comments, List.map_map]
    apply List.map_congr_left
    intro c _
    simp only [Function.comp]
    split <;> rfl

/-- The theorem for C15 at the database of the thread-detail HTTP test, on an executor that
meets the rows it selects in the reverse of table order: no two comments of the thread have
the same date, and after the second user has deleted the first comment the thread detail
shows it at its place, masked, with its two replies. -/
theorem thread_detail_after_delete_witness :
    ((getThreadDetailsUseCaseOn List.reverse List.reverse textOfString).execute
        (fun _ => Except.ok ()) "thread-123"
        (deleteCommentUseCase.execute
          { threadId := "thread-123", commentId := "comment-123", owner := "user-B" }
          threadStore).state).result
      = Except.ok
        { threadStoreDetail with
          comments := threadStoreDetail.comments.map (maskComment "comment-123") } := by
  obtain ⟨dcs, hres, -, -, hsame⟩ :=
    (thread_detail_after_delete List.reverse List.reverse textOfString
      (fun _ => Except.ok ()) threadStore
      { threadId := "thread-123", commentId := "comment-123", owner := "user-B" }
      threadStoreDetail (fun rows => List.reverse_perm rows) rfl rfl).1
  rw [hsame (by decide)] at hres
  exact hres

/-- Claim C15 as the spec states it fails on the database `tieStore`, whose two comments
have the same date, on the executor `flaggedLast`: the second user deletes the first
comment, and the thread detail, which showed that comment first, shows it second. -/
theorem thread_detail_after_delete_reorders :
    (∀ rows, (flaggedLast rows).Perm rows) ∧
      (deleteCommentUseCase.execute
        { threadId := "thread-123", commentId := "comment-123", owner := "user-B" }
        tieStore).result = Except.ok () ∧
      ((getThreadDetailsUseCaseOn flaggedLast (fun rows => rows) textOfString).execute
        (fun _ => Except.ok ()) "thread-123" tieStore).result = Except.ok tieStoreDetail ∧
      ((getThreadDetailsUseCaseOn flaggedLast (fun rows => rows) textOfString).execute
        (fun _ => Except.ok ()) "thread-123"
        (deleteCommentUseCase.execute
          { threadId := "thread-123", commentId := "comment-123", owner := "user-B" }
          tieStore).state).result = Except.ok tieStoreDetailAfter ∧
      tieStoreDetailAfter ≠
        { tieStoreDetail with
          comments := tieStoreDetail.comments.map (maskComment "comment-123") } ∧
      tieStoreDetailAfter.comments.map (fun dc => dc.id)
        = [JsVal.str "comment-456", JsVal.str "comment-123"] ∧
      tieStoreDetail.comments.map (fun dc => dc.id)
        = [JsVal.str "comment-123", JsVal.str "comment-456"] :=
  ⟨flaggedLast_perm, rfl, rfl, rfl, by decide, rfl, rfl⟩

end ForumAPI
